import Mathlib

/-!
ComfyUI-ChristmasTheme: a shallow embedding of the animation helpers.

The definitions below are transcribed from `js/link_animations.js` and
`js/settings-cache.js`.

Numbers.  A JavaScript `number` is modelled by an exact number: a rational
where the code only adds, multiplies, divides and compares, and an element of
an arbitrary linearly ordered field `K` where the code also calls `Math.sqrt`
or uses `Math.PI` (these two are then arguments of the definition, so that the
same definition runs over `ℚ` and is reasoned about over `ℝ` with `Real.sqrt`
and `Real.pi`).  The rounding of double-precision arithmetic, `NaN` and the
infinities are not modelled.  What *is* modelled is the narrowing store into a
`Float32Array`: the element written is `fround` of the value.
-/

namespace ChristmasTheme

/-! ## Numeric helpers -/

/-- Nearest integer to `q`, a tie going to the even neighbour. -/
def roundHalfEven (q : ℚ) : ℤ :=
  let f := ⌊q⌋
  let r := q - f
  if r < 1 / 2 then f
  else if 1 / 2 < r then f + 1
  else if f % 2 = 0 then f else f + 1

/-- The value a `Float32Array` element holds after `a[i] = x` (what
`Math.fround x` returns): the nearest binary32 number, ties to even.  A
binary32 number has a 24-bit significand and a least exponent of `-126`, so
the spacing of its neighbours at `x` is `2 ^ (max ⌊log₂ |x|⌋ (-126) - 23)`.
Overflow to an infinity (for `|x| ≥ 2 ^ 128`) is not modelled. -/
def fround (x : ℚ) : ℚ :=
  if x = 0 then 0
  else
    let e : ℤ := max (Int.log 2 |x|) (-126) - 23
    (roundHalfEven (x / 2 ^ e) : ℚ) * 2 ^ e

/-! ## `PerformanceMonitor` (link_animations.js, lines 16-53) -/

/-- The three tiers `'normal'`, `'warning'`, `'critical'` of `_lastMode`. -/
inductive Mode where
  | normal
  | warning
  | critical
  deriving DecidableEq, Repr

/-- The mutable fields of the object `PerformanceMonitor`.  The typed array
`frameTimeHistory` is the list of its elements. -/
structure PerformanceMonitor where
  frameTimeHistory : List ℚ
  currentIndex : ℕ
  sum : ℚ
  _lastMode : Mode

namespace PerformanceMonitor

/-- The field `warningThreshold: 16.67`. -/
def warningThreshold : ℚ := 16.67

/-- The field `criticalThreshold: 33.33`. -/
def criticalThreshold : ℚ := 33.33

/-- The object as the literal creates it: `new Float32Array(60)` (sixty
zeros), `currentIndex: 0`, `sum: 0`, `_lastMode: 'normal'`. -/
def initial : PerformanceMonitor where
  frameTimeHistory := List.replicate 60 0
  currentIndex := 0
  sum := 0
  _lastMode := Mode.normal

/-- The method `addFrameTime(time)`: the returned tier and the object after
the call.  Reading the typed array inside its bounds gives the element; the
store rounds `time` to binary32, the running sum adds `time` itself. -/
def addFrameTime (self : PerformanceMonitor) (time : ℚ) : Mode × PerformanceMonitor :=
  let sum1 := self.sum - self.frameTimeHistory.getD self.currentIndex 0
  let history := self.frameTimeHistory.set self.currentIndex (fround time)
  let sum2 := sum1 + time
  let index := (self.currentIndex + 1) % history.length
  let avgFrameTime := sum2 / (history.length : ℚ)
  let mode :=
    if avgFrameTime > criticalThreshold then Mode.critical
    else if avgFrameTime > warningThreshold then Mode.warning
    else Mode.normal
  (mode, { frameTimeHistory := history, currentIndex := index, sum := sum2, _lastMode := mode })

/-- The monitor after a stream of samples has been reported, oldest first. -/
def run (samples : List ℚ) : PerformanceMonitor :=
  samples.foldl (fun m t => (addFrameTime m t).2) initial

/-- The classification as the specification words it: average above 33.33 is
critical, above 16.67 is warning, anything else is normal. -/
def classifyAverage (avg : ℚ) : Mode :=
  if avg > 33.33 then Mode.critical
  else if avg > 16.67 then Mode.warning
  else Mode.normal

/-- What makes the running sum exact: sixty elements, an index inside them,
and a sum equal to their total. -/
def Consistent (m : PerformanceMonitor) : Prop :=
  m.frameTimeHistory.length = 60 ∧ m.currentIndex < 60 ∧ m.sum = m.frameTimeHistory.sum

end PerformanceMonitor

/-! ## The settings cache (settings-cache.js) -/

/-- The JavaScript values a setting can hold, together with the two nullish
values. -/
inductive JSValue where
  | undefined
  | null
  | bool (b : Bool)
  | number (q : ℚ)
  | string (s : String)
  deriving DecidableEq

namespace JSValue

/-- A value is nullish when it is `undefined` or `null`. -/
def isNullish : JSValue → Bool
  | undefined => true
  | null => true
  | _ => false

/-- The operator `a ?? b`. -/
def nullishCoalesce (a b : JSValue) : JSValue :=
  if a.isNullish then b else a

end JSValue

/-- A plain object with string keys, seen through its property reads: an
absent property reads as `undefined`.  (Properties inherited from
`Object.prototype` are not modelled.) -/
abbrev JSObject := String → JSValue

/-- The object an object literal with the given entries denotes. -/
def JSObject.ofEntries (entries : List (String × JSValue)) : JSObject :=
  fun key => (entries.lookup key).getD JSValue.undefined

/-- The assignment `obj[key] = value`. -/
def JSObject.assign (obj : JSObject) (key : String) (value : JSValue) : JSObject :=
  fun k => if k = key then value else obj k

/-- The entries of the literal `SETTING_DEFAULTS`, in source order. -/
def SETTING_DEFAULTS_entries : List (String × JSValue) :=
  [ ("ChristmasTheme.ChristmasEffects.LightSwitch", JSValue.number 1),
    ("ChristmasTheme.ChristmasEffects.ColorScheme", JSValue.string "traditional"),
    ("ChristmasTheme.ChristmasEffects.Twinkle", JSValue.string "gentle"),
    ("ChristmasTheme.ChristmasEffects.Thickness", JSValue.number 3),
    ("ChristmasTheme.ChristmasEffects.GlowIntensity", JSValue.number 20),
    ("ChristmasTheme.ChristmasEffects.Direction", JSValue.number 1),
    ("ChristmasTheme.Link Style", JSValue.string "spline"),
    ("ChristmasTheme.Snowflake.Enabled", JSValue.number 1),
    ("ChristmasTheme.Snowflake.ColorScheme", JSValue.string "white"),
    ("ChristmasTheme.Snowflake.Glow", JSValue.number 10),
    ("ChristmasTheme.Background.Enabled", JSValue.bool true),
    ("ChristmasTheme.Background.ColorTheme", JSValue.string "classic"),
    ("ChristmasTheme.PauseDuringRender", JSValue.bool true) ]

/-- The constant `SETTING_DEFAULTS`. -/
def SETTING_DEFAULTS : JSObject := JSObject.ofEntries SETTING_DEFAULTS_entries

/-- The declared setting keys: the keys of `SETTING_DEFAULTS`. -/
def declaredKeys : List String := SETTING_DEFAULTS_entries.map Prod.fst

/-- The module variable `settingsCache` as it is created:
`{ ...SETTING_DEFAULTS }`. -/
def settingsCache : JSObject := JSObject.ofEntries SETTING_DEFAULTS_entries

/-- The function `getSetting(key)`, reading the given cache. -/
def getSetting (cache : JSObject) (key : String) : JSValue :=
  JSValue.nullishCoalesce (cache key) (SETTING_DEFAULTS key)

/-- The function `updateCache(key, value)`: the cache after the call. -/
def updateCache (cache : JSObject) (key : String) (value : JSValue) : JSObject :=
  cache.assign key value

/-- The function `loadSettingFromStorage(key)`: the cache after the call.
`stored` is what the host call `app.ui.settings.getSettingValue(key)` does:
it returns a value or throws. -/
def loadSettingFromStorage (cache : JSObject) (key : String)
    (stored : Except String JSValue) : JSObject :=
  match stored with
  | Except.ok storedValue =>
    if storedValue ≠ JSValue.undefined ∧ storedValue ≠ JSValue.null then
      cache.assign key storedValue
    else cache
  | Except.error _ => cache

/-- One call into the settings cache that can change it. -/
inductive CacheCall where
  | updateCache (key : String) (value : JSValue)
  | loadSettingFromStorage (key : String) (stored : Except String JSValue)

/-- The cache after one call. -/
def CacheCall.apply (cache : JSObject) : CacheCall → JSObject
  | CacheCall.updateCache key value => ChristmasTheme.updateCache cache key value
  | CacheCall.loadSettingFromStorage key stored =>
    ChristmasTheme.loadSettingFromStorage cache key stored

/-- The cache after a sequence of calls, starting from the module's initial
cache. -/
def runCalls (calls : List CacheCall) : JSObject :=
  calls.foldl CacheCall.apply settingsCache

/-- The cache after a sequence of `updateCache(key, value)` calls, starting
from the module's initial cache. -/
def runUpdates (updates : List (String × JSValue)) : JSObject :=
  updates.foldl (fun cache u => updateCache cache u.1 u.2) settingsCache

/-- The value passed by the most recent `updateCache(key, ·)` of a sequence
of calls, if there was one. -/
def lastUpdate (key : String) : List (String × JSValue) → Option JSValue
  | [] => none
  | u :: rest =>
    match lastUpdate key rest with
    | some v => some v
    | none => if u.1 = key then some u.2 else none

/-! ## Phase animation (link_animations.js, lines 13 and 93-132) -/

section Phase

variable {K : Type} [LinearOrderedField K]

/-- The constant `PHI = 1.618033988749895`. -/
def PHI : K := 1618033988749895 / 1000000000000000

/-- The function `Math.sign`. -/
def jsSign (x : K) : K :=
  if 0 < x then 1 else if x < 0 then -1 else 0

/-- The fields the phase update reads and writes: `State.phase`,
`AnimationState.targetPhase` and `AnimationState.Direction`. -/
structure PhaseState (K : Type) where
  phase : K
  targetPhase : K
  Direction : K

/-- The state the object literals create: `phase: 0`, `targetPhase: 0`,
`Direction: 1`. -/
def PhaseState.initial : PhaseState K where
  phase := 0
  targetPhase := 0
  Direction := 1

/-- The distance `Math.abs(targetPhase - phase)` between the phase and its
target. -/
def PhaseState.distance (s : PhaseState K) : K :=
  |s.targetPhase - s.phase|

/-- Frames on which a reverse transition steps past its target: eighty-six
frames, each reading the direction setting `-1` and passing delta 1/36. -/
def overshootFrames : List (K × K) :=
  List.replicate 86 (-1, 1 / 36)

variable [FloorRing K]

/-- The integer part of `x`, rounding toward zero. -/
def truncate (x : K) : ℤ :=
  if 0 ≤ x then ⌊x⌋ else ⌈x⌉

/-- The operator `x % y` on numbers: the remainder of the division truncated
toward zero, so that the result has the sign of `x`. -/
def jsMod (x y : K) : K :=
  x - y * (truncate (x / y) : K)

/-- The method `AnimationState.update(delta)`: the state after the call (the
value returned is its `phase`).  `pi` is `Math.PI` and `flowDirection` is what
`getSetting("ChristmasTheme.ChristmasEffects.Direction")` returns. -/
def AnimationState.update (pi flowDirection delta : K) (s : PhaseState K) : PhaseState K :=
  let s1 : PhaseState K :=
    if s.Direction ≠ flowDirection then
      { phase := s.phase,
        targetPhase := s.phase + pi * 2 * flowDirection,
        Direction := flowDirection }
    else s
  let phaseStep := PHI * delta * PHI
  if |s1.targetPhase - s1.phase| > 1 / 100 then
    { s1 with phase := s1.phase + jsSign (s1.targetPhase - s1.phase) * phaseStep }
  else
    let phase := jsMod (s1.phase + phaseStep * s1.Direction) (pi * 2)
    { s1 with phase := phase, targetPhase := phase }

/-- The state after a sequence of frames, each given by the direction setting
read and the delta passed on that frame. -/
def AnimationState.run (pi : K) (frames : List (K × K)) (s : PhaseState K) : PhaseState K :=
  frames.foldl (fun st f => AnimationState.update pi f.1 f.2 st) s

end Phase

/-! ## Path-length estimators (link_animations.js, lines 400-521) -/

namespace LinkRenderers

variable {K : Type} [LinearOrderedField K]

/-- The method `spline.getLength(start, end)`; `sqrt` is `Math.sqrt`. -/
def spline.getLength (sqrt : K → K) (start end_ : K × K) : K :=
  let dx := end_.1 - start.1
  let dy := end_.2 - start.2
  let dist := sqrt (dx * dx + dy * dy)
  dist * (115 / 100)

/-- The method `straight.getLength(start, end)`; `sqrt` is `Math.sqrt`. -/
def straight.getLength (sqrt : K → K) (start end_ : K × K) : K :=
  let dx := end_.1 - start.1
  let dy := end_.2 - start.2
  sqrt (dx * dx + dy * dy)

/-- The method `linear.getLength(start, end)`. -/
def linear.getLength (start end_ : K × K) : K :=
  let midX := (start.1 + end_.1) / 2
  |midX - start.1| + |end_.2 - start.2| + |end_.1 - midX|

/-- The method `hidden.getLength(start, end)`; `sqrt` is `Math.sqrt`. -/
def hidden.getLength (sqrt : K → K) (start end_ : K × K) : K :=
  let dx := end_.1 - start.1
  let dy := end_.2 - start.2
  sqrt (dx * dx + dy * dy)

end LinkRenderers

/-! ## Adaptive settings (link_animations.js, lines 24-52 and 550-579) -/

/-- One entry of `PerformanceMonitor.adaptiveSettings`. -/
structure AdaptiveSettings where
  lightSpacing : ℚ
  skipCaps : Bool
  reducedGlow : Bool
  deriving DecidableEq

/-- The table `PerformanceMonitor.adaptiveSettings`. -/
def PerformanceMonitor.adaptiveSettings : Mode → AdaptiveSettings
  | Mode.normal => { lightSpacing := 30, skipCaps := false, reducedGlow := false }
  | Mode.warning => { lightSpacing := 45, skipCaps := true, reducedGlow := false }
  | Mode.critical => { lightSpacing := 60, skipCaps := true, reducedGlow := true }

/-- The method `getSettings()`. -/
def PerformanceMonitor.getSettings (self : PerformanceMonitor) : AdaptiveSettings :=
  PerformanceMonitor.adaptiveSettings self._lastMode

/-- The count `numLights = Math.floor(totalLength / baseSpacing)` of
`renderChristmasLights`. -/
def numLights (totalLength baseSpacing : ℚ) : ℤ :=
  ⌊totalLength / baseSpacing⌋

/-- The number of bulbs `renderChristmasLights` draws on one link: none when
`numLights < 1`, otherwise one for each `i` with `0 ≤ i ≤ numLights`. -/
def lightsDrawn (totalLength baseSpacing : ℚ) : ℤ :=
  if numLights totalLength baseSpacing < 1 then 0 else numLights totalLength baseSpacing + 1

/-- The number of caps drawn on one link: one for each bulb unless `skipCaps`. -/
def capsDrawn (perfSettings : AdaptiveSettings) (totalLength : ℚ) : ℤ :=
  if perfSettings.skipCaps then 0 else lightsDrawn totalLength perfSettings.lightSpacing

/-- The value `effectiveGlow = reducedGlow ? glowIntensity * 0.5 : glowIntensity`. -/
def effectiveGlow (perfSettings : AdaptiveSettings) (glowIntensity : ℚ) : ℚ :=
  if perfSettings.reducedGlow then glowIntensity * (1 / 2) else glowIntensity

/-! ## The workflow-busy gate (link_animations.js, lines 627-706) -/

/-- What the gate reads from the host at one moment: `queueLength` is
`(app.queue && Array.isArray(app.queue)) ? app.queue.length : 0` and
`isGraphRunning` is whether `app.graph && (app.graph._is_running === true)`
is truthy. -/
structure Host where
  queueLength : ℕ
  isGraphRunning : Bool

/-- The mutable fields of the object `WorkflowState`.  Times are the
milliseconds `Date.now()` returns. -/
structure WorkflowState where
  isRendering : Bool
  isExecuting : Bool
  jobCount : ℕ
  executionStartTime : ℤ

namespace WorkflowState

/-- The object as the literal creates it. -/
def initial : WorkflowState where
  isRendering := false
  isExecuting := false
  jobCount := 0
  executionStartTime := 0

/-- The constant `minExecutionTime = 5000`. -/
def minExecutionTime : ℤ := 5000

/-- The method `checkState()`, called at time `now`. -/
def checkState (host : Host) (now : ℤ) (self : WorkflowState) : Bool :=
  let isWithinExecutionWindow := decide (now - self.executionStartTime < minExecutionTime)
  self.isRendering || self.isExecuting || host.isGraphRunning ||
    decide (self.jobCount > 0) || decide (host.queueLength > 0) || isWithinExecutionWindow

/-- The method `startExecution()`, called at time `now`. -/
def startExecution (now : ℤ) (self : WorkflowState) : WorkflowState where
  isRendering := true
  isExecuting := true
  jobCount := self.jobCount + 1
  executionStartTime := now

/-- The condition under which `reset()` clears the state. -/
def resetCondition (host : Host) (now : ℤ) (self : WorkflowState) : Bool :=
  let isWithinExecutionWindow := decide (now - self.executionStartTime < minExecutionTime)
  decide (host.queueLength = 0) && !host.isGraphRunning && !isWithinExecutionWindow

/-- The method `reset()`, called at time `now`: the fields after the call.
The call `this.resumeAnimations()` it makes in the clearing branch does not
touch these fields (it is `resumeAnimations` below). -/
def reset (host : Host) (now : ℤ) (self : WorkflowState) : WorkflowState :=
  if resetCondition host now self then
    { self with isRendering := false, isExecuting := false, jobCount := 0 }
  else self

end WorkflowState

/-- One `reset()` call: when it runs and what the host looks like then. -/
structure ResetCall where
  now : ℤ
  host : Host

/-- The state after a sequence of `reset()` calls. -/
def runResets (calls : List ResetCall) (w : WorkflowState) : WorkflowState :=
  calls.foldl (fun st c => WorkflowState.reset c.host c.now st) w

/-- The delays `[5000, 6000, 7000]` of the defensive re-checks. -/
def resetDelays : List ℤ := [5000, 6000, 7000]

/-- The times at which the wrapped `app.queuePrompt` makes `reset()` run.
`settled` is the time at which the promise returned by the original
`queuePrompt` settles (`none` when the result is not a promise, or never
settles): the `finally` callback then sets one timer per delay, and a timer is
taken to fire exactly when it is due. -/
def scheduledResets (settled : Option ℤ) : List ℤ :=
  match settled with
  | none => []
  | some t1 => resetDelays.map (fun delay => t1 + delay)

/-- The times at which the `execution_complete` listener makes `reset()`
run: one timer per delay after each notification.  `completions` lists the
times at which a notification arrives (none at all when `app.eventBus` is
absent, the listener then not being registered). -/
def notificationResets (completions : List ℤ) : List ℤ :=
  completions.flatMap (fun c => resetDelays.map (fun delay => c + delay))

/-- The fields of `WorkflowState` at time `t` after one call of the wrapped
`app.queuePrompt` at time `t0` in state `w0`: `startExecution()` has run at
`t0`, and so has, in the order of their due times, every scheduled `reset()`
that is due by `t`.  `host` gives what the gate reads from the host at each
time. -/
def workflowAt (host : ℤ → Host) (w0 : WorkflowState) (t0 : ℤ) (settled : Option ℤ)
    (completions : List ℤ) (t : ℤ) : WorkflowState :=
  (((scheduledResets settled ++ notificationResets completions).filter
      (fun r => decide (r ≤ t))).insertionSort (fun a b => a ≤ b)).foldl
    (fun w r => WorkflowState.reset (host r) r w) (WorkflowState.startExecution t0 w0)

/-! ## The lights animation loop (link_animations.js, lines 665-681 and 708-735) -/

/-- Whether a value is truthy.  (`NaN` is not modelled.) -/
def JSValue.truthy : JSValue → Bool
  | JSValue.undefined => false
  | JSValue.null => false
  | JSValue.bool b => b
  | JSValue.number q => decide (q ≠ 0)
  | JSValue.string s => decide (s ≠ "")

/-- The calls the animation loop makes on the host.  A frame request id is a
positive integer, so a field holding one is truthy and `State.animationFrame`
is either `null` (`none`) or a request id. -/
inductive LoopEffect where
  | requestAnimationFrame
  | cancelAnimationFrame (handle : ℕ+)
  | setDirtyCanvas
  | snowDisplay (shown : Bool)
  deriving DecidableEq

/-- What one call of `animate()` reads: the page visibility flag, the two
settings (the light switch holds a number), what `checkState()` reads, whether
the snow container element exists, and the id the host returns if a frame is
requested. -/
structure FrameEnv where
  isPageVisible : Bool
  lightSwitch : ℚ
  pauseDuringRender : JSValue
  host : Host
  now : ℤ
  snowContainer : Bool
  handle : ℕ+

/-- The value `isPaused` of `animate()`, as a truth value. -/
def isPaused (env : FrameEnv) (w : WorkflowState) : Bool :=
  w.checkState env.host env.now && env.pauseDuringRender.truthy

/-- The function `animate()`: the new `State.animationFrame` and the calls
made, in order. -/
def animate (env : FrameEnv) (w : WorkflowState) (animationFrame : Option ℕ+) :
    Option ℕ+ × List LoopEffect :=
  if !env.isPageVisible then
    (some env.handle, [LoopEffect.requestAnimationFrame])
  else
    let shouldAnimate := decide (env.lightSwitch > 0)
    let paused := isPaused env w
    let snow := if env.snowContainer then [LoopEffect.snowDisplay (!paused)] else []
    if shouldAnimate && !paused then
      (some env.handle, snow ++ [LoopEffect.setDirtyCanvas, LoopEffect.requestAnimationFrame])
    else if paused then
      match animationFrame with
      | some handle => (none, snow ++ [LoopEffect.cancelAnimationFrame handle])
      | none => (none, snow)
    else
      (some env.handle, snow ++ [LoopEffect.requestAnimationFrame])

/-- The method `WorkflowState.resumeAnimations()`: the new
`State.animationFrame` and the calls made, in order.  `graphCanvas` is whether
`app.graph && app.graph.canvas` is truthy. -/
def resumeAnimations (graphCanvas snowContainer : Bool) (handle : ℕ+)
    (animationFrame : Option ℕ+) : Option ℕ+ × List LoopEffect :=
  let cancel :=
    match animationFrame with
    | some pending => [LoopEffect.cancelAnimationFrame pending]
    | none => []
  let dirty := if graphCanvas then [LoopEffect.setDirtyCanvas] else []
  let snow := if snowContainer then [LoopEffect.snowDisplay true] else []
  (some handle, cancel ++ dirty ++ snow ++ [LoopEffect.requestAnimationFrame])

/-! ## The wrapped `drawConnections` (link_animations.js, lines 325-397) -/

/-- The calls the wrapper makes, with the receiver and the context passed to
the original routine. -/
inductive DrawEffect where
  | origDrawConnections (receiver ctx : ℕ)
  | timingManagerUpdate
  | animationStateUpdate
  | ctxSave
  | renderChristmasLights (links : ℕ)
  | ctxRestore
  | addFrameTime
  | consoleError
  deriving DecidableEq

/-- What one call of the wrapper reads: the page visibility flag, the light
switch setting, the number of visible links it collects, whether the original
routine throws when called inside the `try` block, and after how many of the
calls of the lights path an exception is thrown there, if any. -/
structure DrawEnv where
  isPageVisible : Bool
  animStyle : JSValue
  visibleLinks : ℕ
  origThrows : Bool
  lightsFailAfter : Option ℕ

/-- The calls of the lights path when nothing throws. -/
def lightsPath (visibleLinks : ℕ) : List DrawEffect :=
  [DrawEffect.timingManagerUpdate, DrawEffect.animationStateUpdate, DrawEffect.ctxSave] ++
    (if visibleLinks > 0 then [DrawEffect.renderChristmasLights visibleLinks] else []) ++
    [DrawEffect.ctxRestore, DrawEffect.addFrameTime]

/-- The wrapper installed as `LGraphCanvas.prototype.drawConnections`, called
on `receiver` with `ctx`: the calls made, in order. -/
def drawConnections (env : DrawEnv) (receiver ctx : ℕ) : List DrawEffect :=
  if !env.isPageVisible then []
  else if env.animStyle = JSValue.number 0 then
    if env.origThrows then
      [DrawEffect.origDrawConnections receiver ctx, DrawEffect.consoleError,
        DrawEffect.origDrawConnections receiver ctx]
    else [DrawEffect.origDrawConnections receiver ctx]
  else
    match env.lightsFailAfter with
    | none => lightsPath env.visibleLinks
    | some n =>
      if n < (lightsPath env.visibleLinks).length then
        (lightsPath env.visibleLinks).take n ++
          [DrawEffect.consoleError, DrawEffect.origDrawConnections receiver ctx]
      else lightsPath env.visibleLinks

/-! ## Snowflake batches (aether-snow.js, lines 6-21, 116-120 and 143-201) -/

/-- The table `SNOWFLAKE_CONFIG.FLAKE_COUNTS`, by performance tier: 60 for
`high`, 40 for `medium`, 25 for `low`. -/
def FLAKE_COUNTS : List (String × ℕ) := [("high", 60), ("medium", 40), ("low", 25)]

/-- The constant `batchSize = SNOWFLAKE_CONFIG.BATCH_SIZE`. -/
def batchSize : ℕ := 5

/-- A snowflake element, as far as the batches are concerned: its
`dataset.index` and the `animationDelay` it was created with.  (Size, fall
duration, start position, colour and character are random draws that no
control flow depends on.) -/
structure Flake where
  index : ℕ
  initialDelay : ℚ
  deriving DecidableEq

/-- The state the batches work on: the array `flakes`, the children of the
container element, `currentBatch` and `isInitializing`. -/
structure SnowState where
  flakes : List Flake
  container : List Flake
  currentBatch : ℕ
  isInitializing : Bool

/-- The state `setup()` creates: no flakes, `currentBatch = 0`,
`isInitializing = true`. -/
def SnowState.idle : SnowState where
  flakes := []
  container := []
  currentBatch := 0
  isInitializing := true

/-- The function `createSnowflakeElement(index)`; `delayDraw index` is the
value `Math.random() * duration` drawn for this element. -/
def createSnowflakeElement (delayDraw : ℕ → ℚ) (isInitializing : Bool) (index : ℕ) : Flake where
  index := index
  initialDelay := if isInitializing then delayDraw index else 0

/-- The function `addBatch()`: the state after the call, and whether it has
scheduled another `addBatch` (through `requestIdleCallback` or `setTimeout`). -/
def addBatch (totalFlakes : ℕ) (delayDraw : ℕ → ℚ) (s : SnowState) : SnowState × Bool :=
  if s.currentBatch * batchSize ≥ totalFlakes then
    ({ s with isInitializing := false }, false)
  else
    let start := s.currentBatch * batchSize
    let end_ := min (start + batchSize) totalFlakes
    let created :=
      (List.range' start (end_ - start)).map (createSnowflakeElement delayDraw s.isInitializing)
    let currentBatch := s.currentBatch + 1
    ({ flakes := s.flakes ++ created,
       container := s.container ++ created,
       currentBatch := currentBatch,
       isInitializing := s.isInitializing },
     decide (currentBatch * batchSize < totalFlakes))

/-- Whether a call of `addBatch()` in state `s` creates flakes. -/
def createsFlakes (totalFlakes : ℕ) (s : SnowState) : Bool :=
  decide (s.currentBatch * batchSize < totalFlakes)

/-- A call of `addBatch()` followed by the scheduled calls it leads to, at
most `fuel` calls in all: the final state, the number of calls that created
flakes, and whether a scheduled call is still waiting to run. -/
def runBatches (totalFlakes : ℕ) (delayDraw : ℕ → ℚ) : ℕ → SnowState → SnowState × ℕ × Bool
  | 0, s => (s, 0, true)
  | fuel + 1, s =>
    let created := if createsFlakes totalFlakes s then 1 else 0
    match addBatch totalFlakes delayDraw s with
    | (s1, true) =>
      match runBatches totalFlakes delayDraw fuel s1 with
      | (s2, n, waiting) => (s2, n + created, waiting)
    | (s1, false) => (s1, created, false)

/-! ## Teardown of the starfield (background-themes.js, lines 13-37 and 271-300) -/

/-- A gradient as `getGradient()` builds it: a vertical gradient of the
given height with the colour stops `top` at 0 and `bottom` at 1. -/
structure Gradient where
  height : ℚ
  top : String
  bottom : String
  deriving DecidableEq

/-- The fields of an `EnhancedBackground` instance.  An object reference
(element, context, observer) is an id and a frame request is its positive
request id; `none` is a field that holds no object: `null`, or `undefined` for
`_resizeObserver`, which the constructor leaves unset (the code only tests
these fields for truthiness).  The stars are kept abstract. -/
structure EnhancedBackground (Star : Type) where
  container : Option ℕ
  canvas : Option ℕ
  ctx : Option ℕ
  width : ℚ
  height : ℚ
  entities : List Star
  animationFrame : Option ℕ+
  initialized : Bool
  _cachedGradient : Option Gradient
  _cachedTheme : JSValue
  _cachedHeight : ℚ
  _frameCount : ℕ
  _lastFpsCheck : ℚ
  _currentFps : ℕ
  _resizeObserver : Option ℕ

/-- The calls `cleanup()` makes on the host. -/
inductive CleanupEffect where
  | cancelAnimationFrame (handle : ℕ+)
  | disconnect (observer : ℕ)
  | remove (element : ℕ)
  deriving DecidableEq

/-- The method `cleanup()`.  `document` lists the elements of the page with
the id `enhanced-background-container`, in document order (`getElementById`
returns the first).  The result is the instance after the call, the page
after the call, and the calls made, in order. -/
def EnhancedBackground.cleanup {Star : Type} (self : EnhancedBackground Star)
    (document : List ℕ) : EnhancedBackground Star × List ℕ × List CleanupEffect :=
  let cancel :=
    match self.animationFrame with
    | some handle => [CleanupEffect.cancelAnimationFrame handle]
    | none => []
  let disconnect :=
    match self._resizeObserver with
    | some observer => [CleanupEffect.disconnect observer]
    | none => []
  let remove :=
    match document with
    | existingContainer :: _ => [CleanupEffect.remove existingContainer]
    | [] => []
  ({ self with
      animationFrame := none,
      _resizeObserver := none,
      initialized := false,
      _cachedGradient := none,
      ctx := none,
      canvas := none,
      container := none,
      entities := [] },
   document.tail,
   cancel ++ disconnect ++ remove)

/-- The method `stop()`. -/
def EnhancedBackground.stop {Star : Type} (self : EnhancedBackground Star)
    (document : List ℕ) : EnhancedBackground Star × List ℕ × List CleanupEffect :=
  self.cleanup document

/-! ## Colour cycling (settings-cache.js, lines 93-101; link_animations.js, lines 547-548 and 590-592) -/

/-- The table `COLOR_SCHEMES`, in source order. -/
def COLOR_SCHEMES : List (String × List String) :=
  [ ("traditional", ["#ff0000", "#00ff00", "#ffff00", "#0000ff", "#ffffff"]),
    ("warm", ["#ffd700", "#ffb347", "#ffa07a", "#ff8c69", "#fff0f5"]),
    ("cool", ["#f0ffff", "#e0ffff", "#b0e2ff", "#87cefa", "#b0c4de"]),
    ("multicolor", ["#ff1493", "#00ff7f", "#ff4500", "#4169e1", "#9370db"]),
    ("pastel", ["#ffb6c1", "#98fb98", "#87ceeb", "#dda0dd", "#f0e68c"]),
    ("newyear", ["#00ffff", "#ff1493", "#ffd700", "#4b0082", "#7fff00"]) ]

/-- The palette `COLOR_SCHEMES[colorScheme] || COLOR_SCHEMES.traditional`.
(Names inherited from `Object.prototype` are not modelled.) -/
def christmasColors (colorScheme : String) : List String :=
  (COLOR_SCHEMES.lookup colorScheme).getD
    ["#ff0000", "#00ff00", "#ffff00", "#0000ff", "#ffffff"]

/-- The value `colorIndex` of `renderChristmasLights` for the light `i`.  All
operands of the two `%` are whole numbers, on which `%` is the remainder of
the division truncated toward zero.  (`colorCount = 0` would give `NaN`.) -/
def colorIndex {K : Type} [LinearOrderedField K] [FloorRing K]
    (i : ℤ) (phase Direction : K) (colorCount : ℤ) : ℤ :=
  Int.tmod (Int.tmod (i - ⌊phase * 2 * Direction⌋) colorCount + colorCount) colorCount

/-- The lookup `christmasColors[colorIndex]`: `none` is `undefined`. -/
def paletteLookup (palette : List String) (index : ℤ) : Option String :=
  if 0 ≤ index then palette[index.toNat]? else none

/-! ## Point samplers (link_animations.js, lines 410-429, 457-460, 478-494, 515-518, 575-588) -/

namespace LinkRenderers

variable {K : Type} [LinearOrderedField K]

/-- The method `spline.getPoint(start, end, t, out)`: the two numbers it
assigns to `out[0]` and `out[1]`; `sqrt` is `Math.sqrt`.  (The caller passes
the `Float32Array` `tempPoint` as `out`, which rounds what it is given to
binary32.) -/
def spline.getPoint (sqrt : K → K) (start end_ : K × K) (t : K) : K × K :=
  let dx := end_.1 - start.1
  let dy := end_.2 - start.2
  let dist := sqrt (dx * dx + dy * dy)
  let bendDistance := min (dist * (1 / 2)) 100
  let p0x := start.1
  let p0y := start.2
  let p1x := start.1 + bendDistance
  let p1y := start.2
  let p2x := end_.1 - bendDistance
  let p2y := end_.2
  let p3x := end_.1
  let p3y := end_.2
  let t2 := t * t
  let t3 := t2 * t
  let mt := 1 - t
  let mt2 := mt * mt
  let mt3 := mt2 * mt
  (mt3 * p0x + 3 * mt2 * t * p1x + 3 * mt * t2 * p2x + t3 * p3x,
   mt3 * p0y + 3 * mt2 * t * p1y + 3 * mt * t2 * p2y + t3 * p3y)

/-- The method `straight.getPoint(start, end, t, out)`: the two numbers it
assigns to `out`. -/
def straight.getPoint (start end_ : K × K) (t : K) : K × K :=
  (start.1 + (end_.1 - start.1) * t, start.2 + (end_.2 - start.2) * t)

/-- The method `linear.getPoint(start, end, t, out)`: the two numbers it
assigns to `out`. -/
def linear.getPoint (start end_ : K × K) (t : K) : K × K :=
  let midX := (start.1 + end_.1) / 2
  if t ≤ 33 / 100 then
    let segmentT := t / (33 / 100)
    (start.1 + (midX - start.1) * segmentT, start.2)
  else if t ≤ 67 / 100 then
    let segmentT := (t - 33 / 100) / (34 / 100)
    (midX, start.2 + (end_.2 - start.2) * segmentT)
  else
    let segmentT := (t - 67 / 100) / (33 / 100)
    (midX + (end_.1 - midX) * segmentT, end_.2)

/-- The method `hidden.getPoint(start, end, t, out)`: the two numbers it
assigns to `out`. -/
def hidden.getPoint (start end_ : K × K) (t : K) : K × K :=
  (start.1 + (end_.1 - start.1) * t, start.2 + (end_.2 - start.2) * t)

variable [FloorRing K]

/-- The count `numLights = Math.floor(totalLength / baseSpacing)` of
`renderChristmasLights`, over any ordered field. -/
def lightCount (totalLength baseSpacing : K) : ℤ :=
  ⌊totalLength / baseSpacing⌋

/-- The point at which `renderChristmasLights` samples the straight path for
the light `i`: `getPoint(start, end, t)` with `t = i / numLights`. -/
def straight.lightPoint (sqrt : K → K) (start end_ : K × K) (baseSpacing : K) (i : ℤ) : K × K :=
  straight.getPoint start end_
    ((i : K) / (lightCount (straight.getLength sqrt start end_) baseSpacing : K))

end LinkRenderers

/-! ## `ArrayPool` (link_animations.js, lines 70-91) -/

/-- A `Float32Array(2)`: its two elements. -/
abbrev Buffer := ℚ × ℚ

/-- The array `ArrayPool.pool`; `pop` takes from its end and `push` adds
there. -/
structure ArrayPool where
  pool : List Buffer

namespace ArrayPool

/-- The object as the literal creates it: `pool: []`. -/
def empty : ArrayPool where
  pool := []

/-- The buffer `new Float32Array(2)`. -/
def freshBuffer : Buffer := (0, 0)

/-- The method `init()`: two hundred pushes of a new buffer. -/
def init (self : ArrayPool) : ArrayPool where
  pool := self.pool ++ List.replicate 200 freshBuffer

/-- The method `get()`: the buffer returned and the pool after the call. -/
def get (self : ArrayPool) : Buffer × ArrayPool :=
  if self.pool.length > 0 then
    (self.pool.getLastD freshBuffer, { pool := self.pool.dropLast })
  else (freshBuffer, self)

/-- The method `release(array)`: the pool after the call. -/
def release (self : ArrayPool) (array : Buffer) : ArrayPool :=
  if self.pool.length < 300 then { pool := self.pool ++ [array] } else self

end ArrayPool

/-- One call on the pool after `init()`. -/
inductive PoolCall where
  | get
  | release (array : Buffer)

/-- The pool after one call. -/
def PoolCall.apply (p : ArrayPool) : PoolCall → ArrayPool
  | PoolCall.get => p.get.2
  | PoolCall.release array => p.release array

/-- The pool after `init()` and a sequence of calls. -/
def runPool (calls : List PoolCall) : ArrayPool :=
  calls.foldl PoolCall.apply ArrayPool.empty.init

/-! ## The gradient cache (settings-cache.js, lines 103-111; background-themes.js, lines 119-142, 209-223, 364-370) -/

/-- One entry of `BACKGROUND_THEMES`. -/
structure Theme where
  top : String
  bottom : String
  star : String
  deriving DecidableEq

/-- The table `BACKGROUND_THEMES`, in source order. -/
def BACKGROUND_THEMES : List (String × Theme) :=
  [ ("classic", { top := "#05004c", bottom := "#110E19", star := "#ffffff" }),
    ("christmas", { top := "#1a472a", bottom := "#0d2115", star := "#ffffff" }),
    ("candycane", { top := "#8b0000", bottom := "#4a0404", star := "#ffffff" }),
    ("frostnight", { top := "#0a2351", bottom := "#051428", star := "#e0ffff" }),
    ("gingerbread", { top := "#8b4513", bottom := "#3c1f0d", star := "#ffd700" }),
    ("darknight", { top := "#000000", bottom := "#000000", star := "#808080" }) ]

/-- The value `BACKGROUND_THEMES[colorTheme] || BACKGROUND_THEMES.classic`.  A
value that is not a string is looked up under its string form, which is never
a theme name, so it gets the classic theme.  (Names inherited from
`Object.prototype` are not modelled.) -/
def themeFor (colorTheme : JSValue) : Theme :=
  match colorTheme with
  | JSValue.string name =>
    (BACKGROUND_THEMES.lookup name).getD
      { top := "#05004c", bottom := "#110E19", star := "#ffffff" }
  | _ => { top := "#05004c", bottom := "#110E19", star := "#ffffff" }

/-- The gradient `getGradient()` creates for a theme and a canvas height:
`createLinearGradient(0, 0, 0, height)` with the stops `top` and `bottom`. -/
def buildGradient (colorTheme : JSValue) (height : ℚ) : Gradient where
  height := height
  top := (themeFor colorTheme).top
  bottom := (themeFor colorTheme).bottom

/-- The setting key of the colour theme. -/
def colorThemeKey : String := "ChristmasTheme.Background.ColorTheme"

section GradientCache

variable {Star : Type}

/-- The condition under which `getGradient()` returns the cached gradient. -/
def EnhancedBackground.reusesGradient (self : EnhancedBackground Star) (cache : JSObject) :
    Bool :=
  self._cachedGradient.isSome &&
    decide (self._cachedTheme = getSetting cache colorThemeKey) &&
    decide (self._cachedHeight = self.height)

/-- The method `getGradient()`, reading the given settings cache: the gradient
returned and the instance after the call. -/
def EnhancedBackground.getGradient (self : EnhancedBackground Star) (cache : JSObject) :
    Gradient × EnhancedBackground Star :=
  let colorTheme := getSetting cache colorThemeKey
  match self._cachedGradient with
  | some cached =>
    if self._cachedTheme = colorTheme ∧ self._cachedHeight = self.height then (cached, self)
    else
      (buildGradient colorTheme self.height,
        { self with
            _cachedGradient := some (buildGradient colorTheme self.height),
            _cachedTheme := colorTheme,
            _cachedHeight := self.height })
  | none =>
    (buildGradient colorTheme self.height,
      { self with
          _cachedGradient := some (buildGradient colorTheme self.height),
          _cachedTheme := colorTheme,
          _cachedHeight := self.height })

/-- The method `updateCanvasSize()`.  `canvasWidth` and `canvasHeight` are
what `this.canvas.width` and `this.canvas.height` read, `clientWidth` and
`clientHeight` those of the container, `windowDevicePixelRatio` is
`window.devicePixelRatio`. -/
def EnhancedBackground.updateCanvasSize (self : EnhancedBackground Star)
    (canvasWidth canvasHeight clientWidth clientHeight windowDevicePixelRatio : ℚ) :
    EnhancedBackground Star :=
  if self.ctx.isNone || self.canvas.isNone || self.container.isNone then self
  else
    let devicePixelRatio := min windowDevicePixelRatio 2
    let newWidth := clientWidth * devicePixelRatio
    let newHeight := clientHeight * devicePixelRatio
    if canvasWidth ≠ newWidth ∨ canvasHeight ≠ newHeight then
      { self with width := newWidth, height := newHeight, _cachedGradient := none }
    else self

/-- The settings cache and the running instance `backgroundInstance`. -/
structure BackgroundWorld (Star : Type) where
  cache : JSObject
  backgroundInstance : EnhancedBackground Star

/-- The `onChange` handler of the colour theme setting. -/
def colorThemeOnChange (w : BackgroundWorld Star) (value : JSValue) : BackgroundWorld Star where
  cache := updateCache w.cache colorThemeKey value
  backgroundInstance := { w.backgroundInstance with _cachedGradient := none }

/-- What can happen to the gradient cache: the user picks a theme, the resize
observer fires, a frame asks for the gradient. -/
inductive GradientEvent where
  | themeChange (value : JSValue)
  | resize (canvasWidth canvasHeight clientWidth clientHeight windowDevicePixelRatio : ℚ)
  | getGradient

/-- The state after one event. -/
def GradientEvent.apply (w : BackgroundWorld Star) : GradientEvent → BackgroundWorld Star
  | GradientEvent.themeChange value => colorThemeOnChange w value
  | GradientEvent.resize cw ch clw clh dpr =>
    { w with backgroundInstance := w.backgroundInstance.updateCanvasSize cw ch clw clh dpr }
  | GradientEvent.getGradient =>
    { w with backgroundInstance := (w.backgroundInstance.getGradient w.cache).2 }

/-- The state after a sequence of events. -/
def runGradientEvents (events : List GradientEvent) (w : BackgroundWorld Star) :
    BackgroundWorld Star :=
  events.foldl GradientEvent.apply w

/-- What makes the cache a memoization: a cached gradient is the one built
from the theme and the height recorded with it. -/
def EnhancedBackground.CacheValid (self : EnhancedBackground Star) : Prop :=
  ∀ g, self._cachedGradient = some g → g = buildGradient self._cachedTheme self._cachedHeight

end GradientCache

/-! ## Snow on and off (link_animations.js, lines 259-281; aether-snow.js, lines 203-248 and 265-299) -/

/-- The setting key of the snow switch. -/
def snowEnabledKey : String := "ChristmasTheme.Snowflake.Enabled"

/-- The snow effect and what the handlers around it read and write: the
state of the batches, the property `window.snowflakeState.flakes`, the
settings cache, the `display` of the container and the number of `addBatch`
calls waiting to run.  `exposedFlakes = none` says that the property still is
the array `flakes` itself (as `setup()` leaves it); `some l` says that it is
another array, with the elements `l`. -/
structure SnowModule where
  snow : SnowState
  exposedFlakes : Option (List Flake)
  cache : JSObject
  displayed : Bool
  scheduled : ℕ

namespace SnowModule

/-- The elements of `window.snowflakeState.flakes`. -/
def exposed (m : SnowModule) : List Flake :=
  match m.exposedFlakes with
  | none => m.snow.flakes
  | some l => l

/-- A call of `addBatch()`, with the call it may schedule. -/
def callAddBatch (totalFlakes : ℕ) (delayDraw : ℕ → ℚ) (m : SnowModule) : SnowModule :=
  { m with
      snow := (addBatch totalFlakes delayDraw m.snow).1,
      scheduled := m.scheduled + (if (addBatch totalFlakes delayDraw m.snow).2 then 1 else 0) }

/-- The module after `setup()`, with the given settings cache: the container
is shown and the first `addBatch()` has run if the snow setting is truthy. -/
def afterSetup (totalFlakes : ℕ) (delayDraw : ℕ → ℚ) (cache : JSObject) : SnowModule :=
  let m : SnowModule :=
    { snow := SnowState.idle,
      exposedFlakes := none,
      cache := cache,
      displayed := (getSetting cache snowEnabledKey).truthy,
      scheduled := 0 }
  if (getSetting cache snowEnabledKey).truthy then callAddBatch totalFlakes delayDraw m else m

/-- The `onChange` handler of the snow switch (with `window.snowflakeState`
and the container in place). -/
def enabledOnChange (totalFlakes : ℕ) (delayDraw : ℕ → ℚ) (m : SnowModule) (value : JSValue) :
    SnowModule :=
  let m1 : SnowModule := { m with cache := updateCache m.cache snowEnabledKey value }
  if !value.truthy then
    { m1 with
        exposedFlakes := some [],
        snow := { m1.snow with currentBatch := 0, container := m1.snow.flakes },
        displayed := false }
  else if m1.exposed.length = 0 then
    callAddBatch totalFlakes delayDraw
      { m1 with snow := { m1.snow with isInitializing := true }, displayed := true }
  else m1

/-- One run of the `setInterval` callback `checkMatchModeUpdates`, as far as
the flakes are concerned (its colour and glow updates change no count). -/
def pollTick (m : SnowModule) : SnowModule :=
  if getSetting m.cache snowEnabledKey = JSValue.number 0 ∧ m.snow.flakes.length > 0 then
    { m with
        exposedFlakes := some m.exposed,
        snow := { m.snow with flakes := [], currentBatch := 0, container := [] },
        displayed := false }
  else m

/-- One scheduled `addBatch()` runs, if one is waiting. -/
def batchStep (totalFlakes : ℕ) (delayDraw : ℕ → ℚ) (m : SnowModule) : SnowModule :=
  if m.scheduled = 0 then m
  else callAddBatch totalFlakes delayDraw { m with scheduled := m.scheduled - 1 }

end SnowModule

/-- What can happen to the snow: the switch is set, the poll runs, a
scheduled batch runs. -/
inductive SnowEvent where
  | enabledChange (value : JSValue)
  | pollTick
  | batchStep

/-- The module after one event. -/
def SnowEvent.apply (totalFlakes : ℕ) (delayDraw : ℕ → ℚ) (m : SnowModule) :
    SnowEvent → SnowModule
  | SnowEvent.enabledChange value => m.enabledOnChange totalFlakes delayDraw value
  | SnowEvent.pollTick => m.pollTick
  | SnowEvent.batchStep => m.batchStep totalFlakes delayDraw

/-- The module after a sequence of events. -/
def runSnowEvents (totalFlakes : ℕ) (delayDraw : ℕ → ℚ) (events : List SnowEvent)
    (m : SnowModule) : SnowModule :=
  events.foldl (SnowEvent.apply totalFlakes delayDraw) m

/-! ## Stars (background-themes.js, lines 146-186) -/

section Stars

variable {K : Type} [LinearOrderedField K]

/-- The fields of a `Star`. -/
structure Star (K : Type) where
  size : K
  speed : K
  x : K
  y : K
  brightness : K
  twinkleSpeed : K
  twinklePhase : K
  twinkleRange : K
  _twinkleCycle : K

/-- The values `Math.random()` returns for the fields of a star, one per
field drawn; each lies in `[0, 1)`. -/
structure StarDraws (K : Type) where
  size : K
  speed : K
  y : K
  brightness : K
  twinkleSpeed : K
  twinklePhase : K
  twinkleRange : K

/-- What `Math.random()` promises of the draws that decide the opacity. -/
def StarDraws.InUnitInterval (r : StarDraws K) : Prop :=
  (0 ≤ r.brightness ∧ r.brightness < 1) ∧ (0 ≤ r.twinkleRange ∧ r.twinkleRange < 1)

/-- The constructor `new Star(options)`; `pi` is `Math.PI`. -/
def Star.create (pi : K) (optionsX optionsY : K) (r : StarDraws K) : Star K where
  size := r.size * (25 / 10)
  speed := r.speed * (2 / 100)
  x := optionsX
  y := optionsY
  brightness := 35 / 100 + r.brightness * (2 / 10)
  twinkleSpeed := 5 / 1000 + r.twinkleSpeed * (1 / 100)
  twinklePhase := r.twinklePhase * pi * 2
  twinkleRange := 15 / 100 + r.twinkleRange * (15 / 100)
  _twinkleCycle := 0

/-- The method `reset(width, height)`. -/
def Star.reset (self : Star K) (width height : K) (r : StarDraws K) : Star K :=
  { self with
      size := r.size * (25 / 10),
      speed := r.speed * (2 / 100),
      x := width,
      y := r.y * height,
      brightness := 35 / 100 + r.brightness * (2 / 10),
      twinkleSpeed := 5 / 1000 + r.twinkleSpeed * (1 / 100),
      twinkleRange := 15 / 100 + r.twinkleRange * (15 / 100) }

/-- The method `update(ctx, width, height, skipTwinkle)`: the star after the
call and the `globalAlpha` it was drawn with (`none` when it left the screen
and was reset instead of drawn).  `sin` is `Math.sin`; `r` holds the draws a
reset would use. -/
def Star.update (sin : K → K) (self : Star K) (width height : K) (skipTwinkle : Bool)
    (r : StarDraws K) : Star K × Option K :=
  let moved : Star K := { self with x := self.x - self.speed }
  if moved.x < 0 then (moved.reset width height r, none)
  else if skipTwinkle then (moved, some moved.brightness)
  else
    let advanced : Star K := { moved with twinklePhase := moved.twinklePhase + moved.twinkleSpeed }
    let twinkle := (sin advanced.twinklePhase + 1) * (1 / 2)
    (advanced, some (advanced.brightness - advanced.twinkleRange * twinkle))

end Stars

/-! ## The sine table (link_animations.js, lines 526-535) -/

section SineTable

variable {K : Type} [LinearOrderedField K] [FloorRing K]

/-- Nearest integer to `q`, a tie going to the even neighbour, over any
ordered field. -/
def nearestEven (q : K) : ℤ :=
  let f := ⌊q⌋
  let r := q - f
  if r < 1 / 2 then f
  else if 1 / 2 < r then f + 1
  else if f % 2 = 0 then f else f + 1

/-- The value a `Float32Array` element holds after `a[i] = x`, over any
ordered field: the nearest binary32 number, as `fround` gives it for a
rational. -/
def float32 (x : K) : K :=
  if x = 0 then 0
  else
    let e : ℤ := max (Int.log 2 |x|) (-126) - 23
    (nearestEven (x / 2 ^ e) : K) * 2 ^ e

/-- The conversion `x | 0` of a number to a 32-bit integer: the integer part,
taken modulo `2 ^ 32` into `[-2 ^ 31, 2 ^ 31)`. -/
def toInt32 (x : K) : ℤ :=
  (truncate x + 2 ^ 31) % 2 ^ 32 - 2 ^ 31

/-- The constant `SIN_TABLE_SIZE = 360`. -/
def SIN_TABLE_SIZE : ℕ := 360

/-- The typed array `sinTable` after the loop that fills it; `sin` is
`Math.sin` and `pi` is `Math.PI`. -/
def sinTable (sin : K → K) (pi : K) : List K :=
  (List.range SIN_TABLE_SIZE).map
    (fun (i : ℕ) => float32 (sin (((i : K) / (SIN_TABLE_SIZE : K)) * pi * 2)))

/-- The index `(idx + SIN_TABLE_SIZE) % SIN_TABLE_SIZE` at which `fastSin(x)`
reads the table. -/
def sinIndex (pi : K) (x : K) : ℤ :=
  let idx := toInt32 (jsMod x (pi * 2) / (pi * 2) * (SIN_TABLE_SIZE : K))
  Int.tmod (idx + (SIN_TABLE_SIZE : ℤ)) (SIN_TABLE_SIZE : ℤ)

/-- The function `fastSin(x)`: `none` is the `undefined` a read outside the
table gives. -/
def fastSin (sin : K → K) (pi : K) (x : K) : Option K :=
  if 0 ≤ sinIndex pi x then (sinTable sin pi)[(sinIndex pi x).toNat]? else none

end SineTable

/-! Theorems. -/

open PerformanceMonitor

/-! ## Rounding to binary32 -/

theorem int_log_two_eq {x : ℚ} {k : ℤ} (hx : 0 < x) (hlo : (2 : ℚ) ^ k ≤ x)
    (hhi : x < (2 : ℚ) ^ (k + 1)) : Int.log 2 x = k := by
  have h1 : k ≤ Int.log 2 x :=
    (Int.zpow_le_iff_le_log (b := 2) (by norm_num) (x := k) hx).1 (by exact_mod_cast hlo)
  have h2 : Int.log 2 x < k + 1 :=
    (Int.lt_zpow_iff_log_lt (b := 2) (by norm_num) (x := k + 1) hx).1 (by exact_mod_cast hhi)
  omega

theorem roundHalfEven_of_lt {q : ℚ} {n : ℤ} (h1 : (n : ℚ) ≤ q) (h2 : q < n + 1 / 2) :
    roundHalfEven q = n := by
  have hf : ⌊q⌋ = n := Int.floor_eq_iff.2 ⟨h1, by linarith⟩
  unfold roundHalfEven
  simp only [hf]
  rw [if_pos (by linarith)]

theorem roundHalfEven_of_gt {q : ℚ} {n : ℤ} (h1 : (n : ℚ) - 1 / 2 < q) (h2 : q ≤ n) :
    roundHalfEven q = n := by
  rcases eq_or_lt_of_le h2 with h | h
  · exact roundHalfEven_of_lt (le_of_eq h.symm) (by linarith)
  · have hf : ⌊q⌋ = n - 1 :=
      Int.floor_eq_iff.2 ⟨by push_cast; linarith, by push_cast; linarith⟩
    unfold roundHalfEven
    simp only [hf]
    rw [if_neg (by push_cast; linarith), if_pos (by push_cast; linarith)]
    ring

theorem roundHalfEven_intCast (m : ℤ) : roundHalfEven (m : ℚ) = m :=
  roundHalfEven_of_lt le_rfl (by linarith)

/-- For a positive `x` in the normal range with `2 ^ k ≤ x < 2 ^ (k + 1)`,
`fround` rounds `x` to a multiple of `2 ^ (k - 23)`. -/
theorem fround_eq_of_log {x : ℚ} {k : ℤ} (hx : 0 < x) (hlo : (2 : ℚ) ^ k ≤ x)
    (hhi : x < (2 : ℚ) ^ (k + 1)) (hk : -126 ≤ k) :
    fround x = (roundHalfEven (x / 2 ^ (k - 23)) : ℚ) * 2 ^ (k - 23) := by
  unfold fround
  rw [if_neg hx.ne', abs_of_pos hx, int_log_two_eq hx hlo hhi, max_eq_left hk]

/-- The number 0.1 is not a binary32 number: storing it gives
0.100000001490116119384765625. -/
theorem fround_one_tenth : fround (1 / 10) = 13421773 / 134217728 := by
  rw [fround_eq_of_log (k := -4) (by norm_num) (by norm_num) (by norm_num) (by norm_num)]
  have h : roundHalfEven ((1 / 10 : ℚ) / 2 ^ ((-4 : ℤ) - 23)) = 13421773 := by
    apply roundHalfEven_of_gt <;> norm_num
  rw [h]
  norm_num

/-- The number 0.5 is a binary32 number. -/
theorem fround_one_half : fround (1 / 2) = 1 / 2 := by
  rw [fround_eq_of_log (k := -1) (by norm_num) (by norm_num) (by norm_num) (by norm_num)]
  have h : roundHalfEven ((1 / 2 : ℚ) / 2 ^ ((-1 : ℤ) - 23)) = 8388608 := by
    apply roundHalfEven_of_lt <;> norm_num
  rw [h]
  norm_num

/-- Every whole number below `2 ^ 24` is a binary32 number. -/
theorem fround_natCast (n : ℕ) (hn : n < 2 ^ 24) : fround (n : ℚ) = n := by
  rcases Nat.eq_zero_or_pos n with h0 | hpos
  · subst h0; simp [fround]
  have hx : (0 : ℚ) < n := by exact_mod_cast hpos
  have hk : Nat.log 2 n < 24 := Nat.log_lt_of_lt_pow hpos.ne' hn
  unfold fround
  rw [if_neg hx.ne', abs_of_pos hx, Int.log_natCast, max_eq_left (by omega)]
  obtain ⟨j, hj⟩ : ∃ j : ℕ, (Nat.log 2 n : ℤ) - 23 = -(j : ℤ) := ⟨23 - Nat.log 2 n, by omega⟩
  simp only [hj]
  have h2 : (n : ℚ) / 2 ^ (-(j : ℤ)) = ((n * 2 ^ j : ℕ) : ℤ) := by
    rw [zpow_neg, zpow_natCast]; push_cast; field_simp
  rw [h2, roundHalfEven_intCast, zpow_neg, zpow_natCast]
  push_cast
  field_simp

/-! ## The ring buffer of `PerformanceMonitor` -/

theorem list_sum_set (l : List ℚ) (i : ℕ) (v : ℚ) (h : i < l.length) :
    (l.set i v).sum = l.sum - l.getD i 0 + v := by
  induction l generalizing i with
  | nil => simp at h
  | cons a t ih =>
    cases i with
    | zero => simp [add_comm]
    | succ j =>
      have hj : j < t.length := by simpa using h
      simp only [List.set_cons_succ, List.sum_cons, List.getD_cons_succ, ih j hj]
      ring

theorem addFrameTime_consistent (m : PerformanceMonitor) (t : ℚ) (ht : fround t = t)
    (h : m.Consistent) : (PerformanceMonitor.addFrameTime m t).2.Consistent := by
  obtain ⟨hlen, hidx, hsum⟩ := h
  refine ⟨?_, ?_, ?_⟩
  · simp [PerformanceMonitor.addFrameTime, hlen]
  · simp only [PerformanceMonitor.addFrameTime, List.length_set, hlen]
    exact Nat.mod_lt _ (by norm_num)
  · simp only [PerformanceMonitor.addFrameTime]
    rw [list_sum_set _ _ _ (by omega), ht, hsum]

theorem run_consistent (samples : List ℚ) (h : ∀ t ∈ samples, fround t = t) :
    (PerformanceMonitor.run samples).Consistent := by
  unfold PerformanceMonitor.run
  induction samples using List.reverseRecOn with
  | nil =>
    refine ⟨by simp [PerformanceMonitor.initial], by simp [PerformanceMonitor.initial], ?_⟩
    simp [PerformanceMonitor.initial]
  | append_singleton l a ih =>
    rw [List.foldl_append]
    simp only [List.foldl_cons, List.foldl_nil]
    exact addFrameTime_consistent _ a (h a (by simp)) (ih (fun t ht => h t (by simp [ht])))

/-- C1 fails on the code, which does not keep the running sum it means to
keep: after the single sample 0.1 reported to a fresh monitor, the field `sum`
is 0.1 while the sixty elements held by the typed array total
0.100000001490116119384765625, the binary32 rounding of 0.1 that the store
wrote.  (`addFrameTime` adds the sample as it was passed, and later subtracts
the rounded element it reads back from the array, so the rounding error of
every sample stays in `sum`.) -/
theorem running_sum_differs_from_contents :
    (PerformanceMonitor.run [1 / 10]).sum = 1 / 10 ∧
    (PerformanceMonitor.run [1 / 10]).frameTimeHistory.sum = 13421773 / 134217728 ∧
    (PerformanceMonitor.run [1 / 10]).sum ≠
      (PerformanceMonitor.run [1 / 10]).frameTimeHistory.sum := by
  have h1 : (PerformanceMonitor.run [1 / 10]).sum = 1 / 10 := by
    simp [PerformanceMonitor.run, PerformanceMonitor.addFrameTime, PerformanceMonitor.initial]
  have h2 : (PerformanceMonitor.run [1 / 10]).frameTimeHistory.sum = 13421773 / 134217728 := by
    simp only [PerformanceMonitor.run, PerformanceMonitor.addFrameTime,
      PerformanceMonitor.initial, List.foldl_cons, List.foldl_nil]
    rw [list_sum_set _ _ _ (by simp), fround_one_tenth]
    simp
  refine ⟨h1, h2, ?_⟩
  rw [h1, h2]
  norm_num

/-- Where the difference between `sum` and the buffer comes from: on a stream
of samples that the store does not round (each sample is a binary32 number),
reported to `addFrameTime` from the initial state, streams longer than sixty
included, the field `sum` equals the sum of the sixty elements held by
`frameTimeHistory`.  The rounding of the store is the only source of the
difference. -/
theorem running_sum_eq_contents (samples : List ℚ) (h : ∀ t ∈ samples, fround t = t) :
    (PerformanceMonitor.run samples).sum = (PerformanceMonitor.run samples).frameTimeHistory.sum ∧
    (PerformanceMonitor.run samples).frameTimeHistory.length = 60 :=
  ⟨(run_consistent samples h).2.2, (run_consistent samples h).1⟩

/-- A stream of sixty-two binary32 samples, which wraps around: `sum` and the
buffer agree. -/
theorem running_sum_eq_contents_witness :
    (∀ t ∈ (1 / 2 : ℚ) :: List.replicate 61 ((17 : ℕ) : ℚ), fround t = t) ∧
    (PerformanceMonitor.run ((1 / 2 : ℚ) :: List.replicate 61 ((17 : ℕ) : ℚ))).sum =
      (PerformanceMonitor.run
        ((1 / 2 : ℚ) :: List.replicate 61 ((17 : ℕ) : ℚ))).frameTimeHistory.sum ∧
    (PerformanceMonitor.run
      ((1 / 2 : ℚ) :: List.replicate 61 ((17 : ℕ) : ℚ))).frameTimeHistory.length = 60 := by
  have hs : ∀ t ∈ (1 / 2 : ℚ) :: List.replicate 61 ((17 : ℕ) : ℚ), fround t = t := by
    intro t ht
    rcases List.mem_cons.1 ht with h | h
    · rw [h]; exact fround_one_half
    · rw [(List.mem_replicate.1 h).2]; exact fround_natCast 17 (by norm_num)
  exact ⟨hs, running_sum_eq_contents _ hs⟩

/-- C2: for every monitor state (with its sixty-element buffer) and every
sample, `addFrameTime` returns the tier it stores in `_lastMode`, and that
tier is a function of the rolling average `avg = (updated sum) / 60` alone:
critical if `avg > 33.33`, warning if `16.67 < avg ≤ 33.33`, normal if
`avg ≤ 16.67`; so an average of 40 is critical, of 20 warning, of 5 normal. -/
theorem addFrameTime_tier (m : PerformanceMonitor) (time : ℚ)
    (hlen : m.frameTimeHistory.length = 60) :
    (addFrameTime m time).1 = (addFrameTime m time).2._lastMode ∧
    (addFrameTime m time).2.sum = m.sum - m.frameTimeHistory.getD m.currentIndex 0 + time ∧
    (addFrameTime m time).1 = classifyAverage ((addFrameTime m time).2.sum / 60) ∧
    ((addFrameTime m time).2.sum / 60 > 33.33 → (addFrameTime m time).1 = Mode.critical) ∧
    (16.67 < (addFrameTime m time).2.sum / 60 ∧ (addFrameTime m time).2.sum / 60 ≤ 33.33 →
      (addFrameTime m time).1 = Mode.warning) ∧
    ((addFrameTime m time).2.sum / 60 ≤ 16.67 → (addFrameTime m time).1 = Mode.normal) ∧
    classifyAverage 40 = Mode.critical ∧ classifyAverage 20 = Mode.warning ∧
    classifyAverage 5 = Mode.normal := by
  have hcls : (addFrameTime m time).1 = classifyAverage ((addFrameTime m time).2.sum / 60) := by
    simp only [addFrameTime, classifyAverage, List.length_set, hlen, criticalThreshold,
      warningThreshold]
    norm_num
  refine ⟨rfl, rfl, hcls, ?_, ?_, ?_, ?_, ?_, ?_⟩
  · intro h
    rw [hcls, classifyAverage, if_pos h]
  · rintro ⟨h1, h2⟩
    rw [hcls, classifyAverage, if_neg (not_lt.2 h2), if_pos h1]
  · intro h
    have h2 : (addFrameTime m time).2.sum / 60 ≤ 33.33 := le_trans h (by norm_num)
    rw [hcls, classifyAverage, if_neg (not_lt.2 h2), if_neg (not_lt.2 h)]
  · norm_num [classifyAverage]
  · norm_num [classifyAverage]
  · norm_num [classifyAverage]

/-- Witness for C2: on a fresh monitor a sample of 2400 makes the average 40
and the tier critical, a sample of 1200 makes it 20 and warning, a sample of
300 makes it 5 and normal. -/
theorem addFrameTime_tier_witness :
    initial.frameTimeHistory.length = 60 ∧
    ((addFrameTime initial 2400).2.sum / 60 = 40 ∧ (addFrameTime initial 2400).1 = Mode.critical) ∧
    ((addFrameTime initial 1200).2.sum / 60 = 20 ∧ (addFrameTime initial 1200).1 = Mode.warning) ∧
    ((addFrameTime initial 300).2.sum / 60 = 5 ∧ (addFrameTime initial 300).1 = Mode.normal) := by
  have hlen : initial.frameTimeHistory.length = 60 := by simp [initial]
  have e1 : (addFrameTime initial 2400).2.sum / 60 = 40 := by
    rw [(addFrameTime_tier initial 2400 hlen).2.1]; norm_num [initial]
  have e2 : (addFrameTime initial 1200).2.sum / 60 = 20 := by
    rw [(addFrameTime_tier initial 1200 hlen).2.1]; norm_num [initial]
  have e3 : (addFrameTime initial 300).2.sum / 60 = 5 := by
    rw [(addFrameTime_tier initial 300 hlen).2.1]; norm_num [initial]
  refine ⟨hlen, ⟨e1, ?_⟩, ⟨e2, ?_⟩, ⟨e3, ?_⟩⟩
  · exact (addFrameTime_tier initial 2400 hlen).2.2.2.1 (by rw [e1]; norm_num)
  · exact (addFrameTime_tier initial 1200 hlen).2.2.2.2.1 (by rw [e2]; norm_num)
  · exact (addFrameTime_tier initial 300 hlen).2.2.2.2.2.1 (by rw [e3]; norm_num)

/-! ## The settings cache -/

theorem nullishCoalesce_self (a : JSValue) : JSValue.nullishCoalesce a a = a := by
  unfold JSValue.nullishCoalesce
  split <;> rfl

theorem foldl_updateCache_apply (updates : List (String × JSValue)) (cache : JSObject)
    (key : String) :
    (updates.foldl (fun c u => updateCache c u.1 u.2) cache) key =
      match lastUpdate key updates with
      | some v => v
      | none => cache key := by
  induction updates generalizing cache with
  | nil => simp [lastUpdate]
  | cons u rest ih =>
    rw [List.foldl_cons, ih, lastUpdate]
    cases hrest : lastUpdate key rest with
    | some v => simp
    | none =>
      by_cases hk : u.1 = key
      · simp [hk, updateCache, JSObject.assign]
      · have hk2 : ¬ key = u.1 := fun h => hk h.symm
        simp [hk, hk2, updateCache, JSObject.assign]

theorem declared_default_defined (key : String) (h : key ∈ declaredKeys) :
    (SETTING_DEFAULTS key).isNullish = false := by
  simp only [declaredKeys, SETTING_DEFAULTS_entries, List.map_cons, List.map_nil,
    List.mem_cons, List.mem_singleton, List.not_mem_nil, or_false] at h
  rcases h with h | h | h | h | h | h | h | h | h | h | h | h | h <;> subst h <;> decide

/-- C3, as stated, fails on the code: after `updateCache(k, null)` for the
declared key `k = "ChristmasTheme.ChristmasEffects.LightSwitch"`, the most
recent value set is `null`, yet `getSetting(k)` returns the default `1`. -/
theorem getSetting_after_null_update :
    lastUpdate "ChristmasTheme.ChristmasEffects.LightSwitch"
      [("ChristmasTheme.ChristmasEffects.LightSwitch", JSValue.null)] = some JSValue.null ∧
    getSetting (runUpdates [("ChristmasTheme.ChristmasEffects.LightSwitch", JSValue.null)])
      "ChristmasTheme.ChristmasEffects.LightSwitch" = JSValue.number 1 ∧
    getSetting (runUpdates [("ChristmasTheme.ChristmasEffects.LightSwitch", JSValue.null)])
      "ChristmasTheme.ChristmasEffects.LightSwitch" ≠ JSValue.null := by
  have h : getSetting (runUpdates [("ChristmasTheme.ChristmasEffects.LightSwitch", JSValue.null)])
      "ChristmasTheme.ChristmasEffects.LightSwitch" = JSValue.number 1 := by
    simp [getSetting, runUpdates, updateCache, JSObject.assign, JSValue.nullishCoalesce,
      JSValue.isNullish, SETTING_DEFAULTS, JSObject.ofEntries, SETTING_DEFAULTS_entries,
      List.lookup]
  refine ⟨by simp [lastUpdate], h, ?_⟩
  rw [h]
  simp

/-- C3, amended: for every key `k` (so for every declared one) and every
sequence of `updateCache` calls on the initial cache: if `updateCache(k, ·)`
was never called, `getSetting(k)` is `SETTING_DEFAULTS[k]`; otherwise, with
`v` the value of the most recent `updateCache(k, v)`, `getSetting(k)` is `v`
when `v` is neither `null` nor `undefined`, and `SETTING_DEFAULTS[k]` when it
is.  No other validation takes place. -/
theorem getSetting_runUpdates (updates : List (String × JSValue)) (key : String) :
    getSetting (runUpdates updates) key =
      match lastUpdate key updates with
      | none => SETTING_DEFAULTS key
      | some v => if v.isNullish then SETTING_DEFAULTS key else v := by
  unfold getSetting runUpdates
  rw [foldl_updateCache_apply]
  cases lastUpdate key updates with
  | none => exact nullishCoalesce_self _
  | some v => simp [JSValue.nullishCoalesce]

/-- C4: for every declared setting key and every sequence of `updateCache`
and `loadSettingFromStorage` calls, with arbitrary values (`null` and
`undefined` included) and a host lookup that may throw, `getSetting(key)`
returns a value that is neither `null` nor `undefined`.  (`getSetting` is a
total function of the cache: it has no failing path.) -/
theorem getSetting_defined (calls : List CacheCall) (key : String)
    (hkey : key ∈ declaredKeys) :
    (getSetting (runCalls calls) key).isNullish = false ∧
    getSetting (runCalls calls) key ≠ JSValue.undefined ∧
    getSetting (runCalls calls) key ≠ JSValue.null := by
  have hd := declared_default_defined key hkey
  have h : (getSetting (runCalls calls) key).isNullish = false := by
    unfold getSetting JSValue.nullishCoalesce
    split
    · exact hd
    · next hn => exact eq_false_of_ne_true hn
  refine ⟨h, ?_, ?_⟩
  · intro he; rw [he] at h; simp [JSValue.isNullish] at h
  · intro he; rw [he] at h; simp [JSValue.isNullish] at h

/-- Witness for C4: the direction setting after it was set to `null`, a host
lookup threw, a lookup returned `undefined`, and it was set to `undefined`. -/
theorem getSetting_defined_witness :
    "ChristmasTheme.ChristmasEffects.Direction" ∈ declaredKeys ∧
    getSetting (runCalls
      [CacheCall.updateCache "ChristmasTheme.ChristmasEffects.Direction" JSValue.null,
       CacheCall.loadSettingFromStorage "ChristmasTheme.ChristmasEffects.Direction"
         (Except.error "settings are not registered"),
       CacheCall.loadSettingFromStorage "ChristmasTheme.ChristmasEffects.Direction"
         (Except.ok JSValue.undefined),
       CacheCall.updateCache "ChristmasTheme.ChristmasEffects.Direction" JSValue.undefined])
      "ChristmasTheme.ChristmasEffects.Direction" ≠ JSValue.undefined := by
  have hk : "ChristmasTheme.ChristmasEffects.Direction" ∈ declaredKeys := by
    simp [declaredKeys, SETTING_DEFAULTS_entries]
  exact ⟨hk, (getSetting_defined _ _ hk).2.1⟩

/-! ## Path-length estimators -/

theorem sqrt_sq_add_sq_le (a b : ℝ) : Real.sqrt (a * a + b * b) ≤ |a| + |b| := by
  apply Real.sqrt_le_iff.2
  refine ⟨by positivity, ?_⟩
  have h : (|a| + |b|) ^ 2 = a * a + b * b + 2 * (|a| * |b|) := by
    rw [add_sq, sq_abs, sq_abs]; ring
  rw [h]
  have : 0 ≤ |a| * |b| := by positivity
  linarith

/-- C5: over the real numbers, with `Math.sqrt` the real square root,
`straight.getLength(start, end)` and `hidden.getLength(start, end)` both
equal `sqrt((end.x - start.x)^2 + (end.y - start.y)^2)`, which is the distance
of the two endpoints in the Euclidean plane; from (0,0) to (100,0) it is
100. -/
theorem straight_getLength_euclidean (start end_ : ℝ × ℝ) :
    LinkRenderers.straight.getLength Real.sqrt start end_ =
      Real.sqrt ((end_.1 - start.1) ^ 2 + (end_.2 - start.2) ^ 2) ∧
    LinkRenderers.hidden.getLength Real.sqrt start end_ =
      Real.sqrt ((end_.1 - start.1) ^ 2 + (end_.2 - start.2) ^ 2) ∧
    LinkRenderers.straight.getLength Real.sqrt start end_ =
      dist ((WithLp.equiv 2 (Fin 2 → ℝ)).symm ![start.1, start.2])
        ((WithLp.equiv 2 (Fin 2 → ℝ)).symm ![end_.1, end_.2]) ∧
    LinkRenderers.straight.getLength Real.sqrt (0, 0) (100, 0) = 100 ∧
    LinkRenderers.hidden.getLength Real.sqrt (0, 0) (100, 0) = 100 := by
  have h100 : Real.sqrt ((100 - 0) * (100 - 0) + (0 - 0) * (0 - 0)) = (100 : ℝ) := by
    rw [show ((100 : ℝ) - 0) * (100 - 0) + (0 - 0) * (0 - 0) = 100 ^ 2 by norm_num]
    exact Real.sqrt_sq (by norm_num)
  refine ⟨?_, ?_, ?_, ?_, ?_⟩
  · simp only [LinkRenderers.straight.getLength, sq]
  · simp only [LinkRenderers.hidden.getLength, sq]
  · rw [EuclideanSpace.dist_eq]
    simp only [LinkRenderers.straight.getLength, Fin.sum_univ_two, Real.dist_eq, sq_abs]
    congr 1
    simp
    ring
  · simp only [LinkRenderers.straight.getLength]
    exact h100
  · simp only [LinkRenderers.hidden.getLength]
    exact h100

/-- C6: over the real numbers, with `Math.sqrt` the real square root,
`spline.getLength(start, end)` is 1.15 times the Euclidean distance of the
endpoints; from (0,0) to (100,0) it is 115, so within 1% of 115. -/
theorem spline_getLength_scaled (start end_ : ℝ × ℝ) :
    LinkRenderers.spline.getLength Real.sqrt start end_ =
      (115 / 100) * Real.sqrt ((end_.1 - start.1) ^ 2 + (end_.2 - start.2) ^ 2) ∧
    LinkRenderers.spline.getLength Real.sqrt start end_ =
      (115 / 100) * LinkRenderers.straight.getLength Real.sqrt start end_ ∧
    LinkRenderers.spline.getLength Real.sqrt (0, 0) (100, 0) = 115 ∧
    |LinkRenderers.spline.getLength Real.sqrt (0, 0) (100, 0) - 115| ≤ 115 / 100 := by
  have h100 : Real.sqrt ((100 - 0) * (100 - 0) + (0 - 0) * (0 - 0)) = (100 : ℝ) := by
    rw [show ((100 : ℝ) - 0) * (100 - 0) + (0 - 0) * (0 - 0) = 100 ^ 2 by norm_num]
    exact Real.sqrt_sq (by norm_num)
  have h115 : LinkRenderers.spline.getLength Real.sqrt ((0 : ℝ), (0 : ℝ)) (100, 0) = 115 := by
    simp only [LinkRenderers.spline.getLength, h100]
    norm_num
  refine ⟨?_, ?_, h115, ?_⟩
  · simp only [LinkRenderers.spline.getLength, sq]
    ring
  · simp only [LinkRenderers.spline.getLength, LinkRenderers.straight.getLength]
    ring
  · rw [h115]; norm_num

/-- C7: over the real numbers, `linear.getLength(start, end)` is the sum of
the three orthogonal segments through `midX = (start.x + end.x) / 2`, that is
`|end.x - start.x| + |end.y - start.y|`, and it is at least
`straight.getLength(start, end)`. -/
theorem linear_getLength_manhattan (start end_ : ℝ × ℝ) :
    LinkRenderers.linear.getLength start end_ =
      |(start.1 + end_.1) / 2 - start.1| + |end_.2 - start.2| +
        |end_.1 - (start.1 + end_.1) / 2| ∧
    LinkRenderers.linear.getLength start end_ = |end_.1 - start.1| + |end_.2 - start.2| ∧
    LinkRenderers.straight.getLength Real.sqrt start end_ ≤
      LinkRenderers.linear.getLength start end_ := by
  have h2 : LinkRenderers.linear.getLength start end_ =
      |end_.1 - start.1| + |end_.2 - start.2| := by
    simp only [LinkRenderers.linear.getLength]
    have e1 : (start.1 + end_.1) / 2 - start.1 = (end_.1 - start.1) / 2 := by ring
    have e2 : end_.1 - (start.1 + end_.1) / 2 = (end_.1 - start.1) / 2 := by ring
    rw [e1, e2, abs_div, abs_two]
    ring
  refine ⟨rfl, h2, ?_⟩
  rw [h2]
  exact sqrt_sq_add_sq_le _ _

/-! ## Phase animation -/

section PhaseLemmas

variable {K : Type} [LinearOrderedField K]

theorem jsSign_of_pos {x : K} (h : 0 < x) : jsSign x = 1 := by
  unfold jsSign
  rw [if_pos h]

theorem jsSign_of_neg {x : K} (h : x < 0) : jsSign x = -1 := by
  unfold jsSign
  rw [if_neg (not_lt.2 h.le), if_pos h]

theorem PHI_pos : (0 : K) < PHI := by
  unfold PHI
  positivity

theorem phaseStep_nonneg {delta : K} (h : 0 ≤ delta) : (0 : K) ≤ PHI * delta * PHI :=
  mul_nonneg (mul_nonneg PHI_pos.le h) PHI_pos.le

theorem phaseStep_pos {delta : K} (h : 0 < delta) : (0 : K) < PHI * delta * PHI :=
  mul_pos (mul_pos PHI_pos h) PHI_pos

variable [FloorRing K]

theorem truncate_of_nonneg {x : K} (h : 0 ≤ x) : truncate x = ⌊x⌋ := by
  unfold truncate
  rw [if_pos h]

theorem truncate_eq_zero {x : K} (h : |x| < 1) : truncate x = 0 := by
  have h1 := abs_lt.1 h
  unfold truncate
  split
  · next hx => exact Int.floor_eq_iff.2 ⟨by simpa using hx, by simpa using h1.2⟩
  · next hx =>
    exact Int.ceil_eq_iff.2 ⟨by simpa using h1.1, by simpa using (le_of_lt (not_le.1 hx))⟩

theorem jsMod_nonneg_lt {x y : K} (hx : 0 ≤ x) (hy : 0 < y) :
    0 ≤ jsMod x y ∧ jsMod x y < y := by
  have hq : 0 ≤ x / y := div_nonneg hx hy.le
  unfold jsMod
  rw [truncate_of_nonneg hq]
  have h1 : ((⌊x / y⌋ : ℤ) : K) ≤ x / y := Int.floor_le _
  have h2 : x / y < (⌊x / y⌋ : K) + 1 := Int.lt_floor_add_one _
  have h3 : y * (⌊x / y⌋ : K) ≤ x := by
    calc y * (⌊x / y⌋ : K) ≤ y * (x / y) := mul_le_mul_of_nonneg_left h1 hy.le
      _ = x := by field_simp
  have h4 : x < y * ((⌊x / y⌋ : K) + 1) := by
    calc x = y * (x / y) := by field_simp
      _ < y * ((⌊x / y⌋ : K) + 1) := mul_lt_mul_of_pos_left h2 hy
  constructor
  · linarith
  · linarith

theorem jsMod_eq_self {x y : K} (h : |x| < y) : jsMod x y = x := by
  have hy : 0 < y := lt_of_le_of_lt (abs_nonneg x) h
  have hq : |x / y| < 1 := by
    rw [abs_div, abs_of_pos hy]
    exact (div_lt_one hy).2 h
  unfold jsMod
  rw [truncate_eq_zero hq]
  simp

theorem jsMod_eq_sub {x y : K} (h1 : y ≤ x) (h2 : x < 2 * y) (hy : 0 < y) :
    jsMod x y = x - y := by
  have hq : 0 ≤ x / y := div_nonneg (le_trans hy.le h1) hy.le
  have hf : ⌊x / y⌋ = 1 := by
    apply Int.floor_eq_iff.2
    constructor
    · rw [Int.cast_one]; exact (one_le_div hy).2 h1
    · rw [Int.cast_one]
      have : x / y < 2 := (div_lt_iff₀ hy).2 h2
      linarith
  unfold jsMod
  rw [truncate_of_nonneg hq, hf]
  simp

/-- A call that does not flip the direction and finds the phase further than
0.01 from its target moves the phase by one step toward the target. -/
theorem update_transition (pi flow delta : K) (s : PhaseState K) (hd : s.Direction = flow)
    (h : 1 / 100 < |s.targetPhase - s.phase|) :
    AnimationState.update pi flow delta s =
      { phase := s.phase + jsSign (s.targetPhase - s.phase) * (PHI * delta * PHI),
        targetPhase := s.targetPhase,
        Direction := s.Direction } := by
  unfold AnimationState.update
  simp only [hd, ne_eq, not_true_eq_false, if_false]
  rw [if_pos h]

/-- A call that does not flip the direction and finds the phase within 0.01
of its target advances the phase modulo `2 * pi` and moves the target onto
it. -/
theorem update_steady (pi flow delta : K) (s : PhaseState K) (hd : s.Direction = flow)
    (h : |s.targetPhase - s.phase| ≤ 1 / 100) :
    AnimationState.update pi flow delta s =
      { phase := jsMod (s.phase + PHI * delta * PHI * s.Direction) (pi * 2),
        targetPhase := jsMod (s.phase + PHI * delta * PHI * s.Direction) (pi * 2),
        Direction := s.Direction } := by
  unfold AnimationState.update
  simp only [hd, ne_eq, not_true_eq_false, if_false]
  rw [if_neg (not_lt.2 h)]

/-- A call that flips the direction to `flow = ±1` retargets the phase one
full turn away and moves it by one step that way. -/
theorem update_flip (pi flow delta : K) (s : PhaseState K) (hpi : 1 / 200 < pi)
    (hd : s.Direction ≠ flow) (hflow : flow = 1 ∨ flow = -1) :
    AnimationState.update pi flow delta s =
      { phase := s.phase + flow * (PHI * delta * PHI),
        targetPhase := s.phase + pi * 2 * flow,
        Direction := flow } := by
  unfold AnimationState.update
  rw [if_pos hd]
  have e : s.phase + pi * 2 * flow - s.phase = pi * 2 * flow := by ring
  simp only [e]
  rcases hflow with hf | hf
  · subst hf
    have hpos : (0 : K) < pi * 2 * 1 := by linarith
    have habs : (1 : K) / 100 < |pi * 2 * 1| := by
      rw [abs_of_pos hpos]; linarith
    rw [if_pos habs, jsSign_of_pos hpos]
  · subst hf
    have hneg : pi * 2 * (-1 : K) < 0 := by linarith
    have habs : (1 : K) / 100 < |pi * 2 * (-1)| := by
      rw [abs_of_neg hneg]; linarith
    rw [if_pos habs, jsSign_of_neg hneg]

theorem run_replicate_succ (pi : K) (f : K × K) (n : ℕ) (s : PhaseState K) :
    AnimationState.run pi (List.replicate (n + 1) f) s =
      AnimationState.update pi f.1 f.2 (AnimationState.run pi (List.replicate n f) s) := by
  unfold AnimationState.run
  rw [List.replicate_succ', List.foldl_append]
  rfl

/-- Steady forward frames that do not reach `2 * pi` add up their steps. -/
theorem run_replicate_forward (pi delta : K) (hdelta : 0 ≤ delta) (n : ℕ) (s : PhaseState K)
    (hd : s.Direction = 1) (ht : s.targetPhase = s.phase) (h0 : 0 ≤ s.phase)
    (hlt : s.phase + n * (PHI * delta * PHI) < pi * 2) :
    AnimationState.run pi (List.replicate n (1, delta)) s =
      { phase := s.phase + n * (PHI * delta * PHI),
        targetPhase := s.phase + n * (PHI * delta * PHI),
        Direction := 1 } := by
  induction n with
  | zero =>
    cases s
    simp_all [AnimationState.run]
  | succ k ih =>
    have hstep := phaseStep_nonneg hdelta
    have hk : s.phase + k * (PHI * delta * PHI) < pi * 2 := by
      push_cast at hlt; linarith
    rw [run_replicate_succ, ih hk]
    dsimp only
    rw [update_steady pi 1 delta _ rfl (by simp)]
    have hx : |s.phase + k * (PHI * delta * PHI) + PHI * delta * PHI * 1| < pi * 2 := by
      have hk0 : (0 : K) ≤ k * (PHI * delta * PHI) := mul_nonneg (Nat.cast_nonneg k) hstep
      rw [abs_of_nonneg (by linarith)]
      push_cast at hlt; linarith
    simp only [jsMod_eq_self hx]
    push_cast
    congr 1 <;> ring

/-- Reverse frames that stay further than 0.01 above the target subtract
their steps. -/
theorem run_replicate_reverse (pi delta : K) (hdelta : 0 ≤ delta) (n : ℕ) (s : PhaseState K)
    (hd : s.Direction = -1)
    (hgt : s.targetPhase + 1 / 100 + n * (PHI * delta * PHI) < s.phase + PHI * delta * PHI) :
    AnimationState.run pi (List.replicate n (-1, delta)) s =
      { phase := s.phase - n * (PHI * delta * PHI),
        targetPhase := s.targetPhase,
        Direction := -1 } := by
  induction n with
  | zero =>
    cases s
    simp_all [AnimationState.run]
  | succ k ih =>
    have hstep := phaseStep_nonneg hdelta
    have hk : s.targetPhase + 1 / 100 + k * (PHI * delta * PHI) <
        s.phase + PHI * delta * PHI := by
      push_cast at hgt; linarith
    rw [run_replicate_succ, ih hk]
    dsimp only
    have hneg : s.targetPhase - (s.phase - k * (PHI * delta * PHI)) < 0 := by
      push_cast at hgt; linarith
    have habs : 1 / 100 < |s.targetPhase - (s.phase - k * (PHI * delta * PHI))| := by
      rw [abs_of_neg hneg]
      push_cast at hgt; linarith
    rw [update_transition pi (-1) delta _ rfl habs]
    simp only [jsSign_of_neg hneg]
    push_cast
    congr 1
    ring

/-- One steady forward frame keeps the phase in `[0, 2 * pi)`. -/
theorem update_forward_range (pi delta : K) (hpi : 0 < pi) (hdelta : 0 ≤ delta)
    (s : PhaseState K) (hd : s.Direction = 1) (ht : s.targetPhase = s.phase)
    (h0 : 0 ≤ s.phase) :
    (AnimationState.update pi 1 delta s).Direction = 1 ∧
    (AnimationState.update pi 1 delta s).targetPhase = (AnimationState.update pi 1 delta s).phase ∧
    0 ≤ (AnimationState.update pi 1 delta s).phase ∧
    (AnimationState.update pi 1 delta s).phase < pi * 2 := by
  have hstep := phaseStep_nonneg hdelta
  rw [update_steady pi 1 delta s hd (by rw [ht]; simp)]
  have hx : 0 ≤ s.phase + PHI * delta * PHI * s.Direction := by
    rw [hd]; linarith
  have h := jsMod_nonneg_lt hx (show (0 : K) < pi * 2 by linarith)
  exact ⟨hd, rfl, h.1, h.2⟩

theorem run_forward_range (pi : K) (hpi : 0 < pi) (frames : List (K × K))
    (h : ∀ f ∈ frames, f.1 = 1 ∧ 0 ≤ f.2) (s : PhaseState K) (hd : s.Direction = 1)
    (ht : s.targetPhase = s.phase) (h0 : 0 ≤ s.phase) (h1 : s.phase < pi * 2) :
    0 ≤ (AnimationState.run pi frames s).phase ∧ (AnimationState.run pi frames s).phase < pi * 2 := by
  induction frames generalizing s with
  | nil => exact ⟨h0, h1⟩
  | cons f rest ih =>
    have hf := h f (by simp)
    have hstep := update_forward_range pi f.2 hpi hf.2 s hd ht h0
    have hrun : AnimationState.run pi (f :: rest) s =
        AnimationState.run pi rest (AnimationState.update pi 1 f.2 s) := by
      simp [AnimationState.run, hf.1]
    rw [hrun]
    exact ih (fun g hg => h g (by simp [hg])) _ hstep.1 hstep.2.1 hstep.2.2.1 hstep.2.2.2

end PhaseLemmas

/-- C8, as stated, fails on the code: from the initial state, the first frame
that reads the direction setting `-1` (with delta 1/60) flips the direction,
targets `-2π` and moves the phase to `-(PHI * (1/60) * PHI)`, below 0. -/
theorem phase_negative_on_reverse :
    (AnimationState.run Real.pi [(-1, 1 / 60)] PhaseState.initial).phase =
      -(PHI * (1 / 60) * PHI) ∧
    (AnimationState.run Real.pi [(-1, 1 / 60)] PhaseState.initial).phase < 0 ∧
    ¬ (0 ≤ (AnimationState.run Real.pi [(-1, 1 / 60)] PhaseState.initial).phase ∧
      (AnimationState.run Real.pi [(-1, 1 / 60)] PhaseState.initial).phase < 2 * Real.pi) := by
  have hrun : AnimationState.run Real.pi [(-1, 1 / 60)] PhaseState.initial =
      AnimationState.update Real.pi (-1) (1 / 60) PhaseState.initial := rfl
  have hpi : (1 : ℝ) / 200 < Real.pi := by linarith [Real.pi_gt_three]
  have hphase : (AnimationState.run Real.pi [(-1, 1 / 60)] PhaseState.initial).phase =
      -(PHI * (1 / 60) * PHI) := by
    rw [hrun, update_flip Real.pi (-1) (1 / 60) PhaseState.initial hpi
      (by simp [PhaseState.initial]; norm_num) (Or.inr rfl)]
    simp [PhaseState.initial]
  have hneg : (AnimationState.run Real.pi [(-1, 1 / 60)] PhaseState.initial).phase < 0 := by
    rw [hphase]
    have := phaseStep_pos (K := ℝ) (show (0 : ℝ) < 1 / 60 by norm_num)
    linarith
  exact ⟨hphase, hneg, fun h => absurd h.1 (not_le.2 hneg)⟩

/-- C8, amended: for every sequence of `AnimationState.update` calls starting
from the initial state (phase 0, targetPhase 0, Direction 1), with any deltas
`≥ 0` and the flow-direction setting `+1` on every call (so no flip),
`State.phase` is within `[0, 2π)` after the calls. -/
theorem phase_in_range_forward (frames : List (ℝ × ℝ)) (h : ∀ f ∈ frames, f.1 = 1 ∧ 0 ≤ f.2) :
    0 ≤ (AnimationState.run Real.pi frames PhaseState.initial).phase ∧
    (AnimationState.run Real.pi frames PhaseState.initial).phase < 2 * Real.pi := by
  have := run_forward_range Real.pi Real.pi_pos frames h PhaseState.initial rfl rfl
    (le_refl _) (by simp [PhaseState.initial]; exact Real.pi_pos)
  rw [mul_comm] at this
  exact this

/-- Witness for C8: a hundred forward frames of 1/30 s, which pass `2π`. -/
theorem phase_in_range_forward_witness :
    (∀ f ∈ List.replicate 100 ((1 : ℝ), (1 / 30 : ℝ)), f.1 = 1 ∧ 0 ≤ f.2) ∧
    0 ≤ (AnimationState.run Real.pi (List.replicate 100 ((1 : ℝ), (1 / 30 : ℝ)))
      PhaseState.initial).phase ∧
    (AnimationState.run Real.pi (List.replicate 100 ((1 : ℝ), (1 / 30 : ℝ)))
      PhaseState.initial).phase < 2 * Real.pi := by
  have hf : ∀ f ∈ List.replicate 100 ((1 : ℝ), (1 / 30 : ℝ)), f.1 = 1 ∧ 0 ≤ f.2 := by
    intro f hf
    rw [(List.mem_replicate.1 hf).2]
    norm_num
  exact ⟨hf, phase_in_range_forward _ hf⟩

theorem phaseStep_thirtieth_bounds :
    (8726 : ℝ) / 100000 < PHI * (1 / 30) * PHI ∧ PHI * (1 / 30) * PHI < (8727 : ℝ) / 100000 := by
  unfold PHI
  constructor <;> norm_num

theorem phaseStep_thirty_sixth_bounds :
    (7272 : ℝ) / 100000 < PHI * (1 / 36) * PHI ∧ PHI * (1 / 36) * PHI < (7273 : ℝ) / 100000 := by
  unfold PHI
  constructor <;> norm_num

/-- The state the frames `overshootFrames` lead to from the initial state:
the first frame flips the direction and targets `-2π`, and each of the
eighty-six frames moves the phase down by one step. -/
theorem run_overshootFrames :
    AnimationState.run Real.pi overshootFrames PhaseState.initial =
      { phase := -(86 * (PHI * (1 / 36) * PHI)),
        targetPhase := -(2 * Real.pi),
        Direction := -1 } := by
  have hpi := Real.pi_gt_d4
  have h36 := phaseStep_thirty_sixth_bounds
  have h1 : AnimationState.update Real.pi (-1) (1 / 36) PhaseState.initial =
      { phase := -(PHI * (1 / 36) * PHI), targetPhase := -(2 * Real.pi), Direction := -1 } := by
    rw [update_flip Real.pi (-1) (1 / 36) PhaseState.initial (by linarith)
      (by simp [PhaseState.initial]; norm_num) (Or.inr rfl)]
    simp [PhaseState.initial, mul_comm]
  have hsplit : AnimationState.run Real.pi overshootFrames PhaseState.initial =
      AnimationState.run Real.pi (List.replicate 85 (-1, 1 / 36))
        (AnimationState.update Real.pi (-1) (1 / 36) PhaseState.initial) := by
    simp only [AnimationState.run, overshootFrames, List.replicate_succ, List.foldl_cons]
  rw [hsplit, h1, run_replicate_reverse Real.pi (1 / 36) (by norm_num) 85 _ rfl
    (by push_cast; linarith)]
  push_cast
  congr 1
  ring

/-- C9 fails on the code at a constant delta of 1/36 s: after the flip to
direction `-1` from the initial state and eighty-six reverse frames the phase
is about 0.029 from its target, further than 0.01; the next update with the
same delta and direction steps past the target (the step, about 0.0727, is
not cut down to the distance left) and leaves the phase about 0.0437 from it:
the distance has grown. -/
theorem distance_grows_on_overshoot :
    (0 : ℝ) < 1 / 36 ∧
    (AnimationState.run Real.pi overshootFrames PhaseState.initial).Direction = -1 ∧
    1 / 100 < (AnimationState.run Real.pi overshootFrames PhaseState.initial).distance ∧
    (AnimationState.run Real.pi overshootFrames PhaseState.initial).distance <
      (AnimationState.update Real.pi (-1) (1 / 36)
        (AnimationState.run Real.pi overshootFrames PhaseState.initial)).distance := by
  have hpi := Real.pi_gt_d4
  have hpi2 := Real.pi_lt_d4
  have h36 := phaseStep_thirty_sixth_bounds
  rw [run_overshootFrames]
  have hneg : -(2 * Real.pi) - -(86 * (PHI * (1 / 36) * PHI)) < 0 := by
    linarith
  have hd : (PhaseState.distance
      { phase := -(86 * (PHI * (1 / 36) * PHI)),
        targetPhase := -(2 * Real.pi), Direction := (-1 : ℝ) }) =
      2 * Real.pi - 86 * (PHI * (1 / 36) * PHI) := by
    simp only [PhaseState.distance]
    rw [abs_of_neg hneg]; ring
  have hfar : 1 / 100 < |-(2 * Real.pi) - -(86 * (PHI * (1 / 36) * PHI))| := by
    rw [abs_of_neg hneg]; linarith
  refine ⟨by norm_num, rfl, by rw [hd]; linarith, ?_⟩
  rw [update_transition Real.pi (-1) (1 / 36) _ rfl hfar, hd]
  simp only [jsSign_of_neg hneg, PhaseState.distance]
  rw [abs_of_pos (by linarith)]
  linarith

/-- What a transition step does to the distance: an `AnimationState.update`
with delta `> 0` that does not flip the direction and finds the phase further
than 0.01 from `targetPhase` leaves `targetPhase` unchanged and moves
`State.phase` by exactly `phaseStep = PHI * delta * PHI` in the direction of
the target, so the new distance is `| |targetPhase - phase| - phaseStep |`: it
is strictly smaller than the old distance exactly when
`phaseStep < 2 * |targetPhase - phase|`. -/
theorem update_transition_distance (s : PhaseState ℝ) (flow delta : ℝ)
    (hd : s.Direction = flow) (hdelta : 0 < delta) (hfar : 1 / 100 < s.distance) :
    (AnimationState.update Real.pi flow delta s).targetPhase = s.targetPhase ∧
    (AnimationState.update Real.pi flow delta s).phase =
      s.phase + jsSign (s.targetPhase - s.phase) * (PHI * delta * PHI) ∧
    (AnimationState.update Real.pi flow delta s).distance =
      |s.distance - PHI * delta * PHI| ∧
    ((AnimationState.update Real.pi flow delta s).distance < s.distance ↔
      PHI * delta * PHI < 2 * s.distance) := by
  have hstep := phaseStep_pos hdelta
  have hdist : (AnimationState.update Real.pi flow delta s).distance =
      |s.distance - PHI * delta * PHI| := by
    rw [update_transition Real.pi flow delta s hd hfar]
    simp only [PhaseState.distance] at hfar ⊢
    rcases lt_or_le 0 (s.targetPhase - s.phase) with hp | hn
    · rw [jsSign_of_pos hp, abs_of_pos hp]
      congr 1; ring
    · have hn2 : s.targetPhase - s.phase < 0 := by
        rcases eq_or_lt_of_le hn with h0 | h0
        · rw [h0] at hfar; norm_num at hfar
        · exact h0
      rw [jsSign_of_neg hn2, abs_of_neg hn2, ← abs_neg]
      congr 1; ring
  refine ⟨?_, ?_, hdist, ?_⟩
  · rw [update_transition Real.pi flow delta s hd hfar]
  · rw [update_transition Real.pi flow delta s hd hfar]
  · rw [hdist, abs_lt]
    constructor
    · intro h; linarith [h.1]
    · intro h; constructor <;> linarith

/-- An instance of `update_transition_distance`: phase 0, target 1, direction
unchanged, delta 1/30. -/
theorem update_transition_distance_witness :
    (0 : ℝ) < 1 / 30 ∧
    (1 : ℝ) / 100 < PhaseState.distance { phase := 0, targetPhase := 1, Direction := (1 : ℝ) } ∧
    (AnimationState.update Real.pi 1 (1 / 30)
      { phase := 0, targetPhase := 1, Direction := (1 : ℝ) }).distance <
      PhaseState.distance { phase := 0, targetPhase := 1, Direction := (1 : ℝ) } := by
  have hfar : (1 : ℝ) / 100 <
      PhaseState.distance { phase := 0, targetPhase := 1, Direction := (1 : ℝ) } := by
    simp [PhaseState.distance]; norm_num
  have h30 := phaseStep_thirtieth_bounds
  refine ⟨by norm_num, hfar, ?_⟩
  apply (update_transition_distance _ 1 (1 / 30) rfl (by norm_num) hfar).2.2.2.2
  simp only [PhaseState.distance, sub_zero, abs_one]
  linarith

/-- The state seventy-one steady forward frames of 1/30 s lead to from the
initial state: the phase has not yet reached `2π`. -/
theorem run_forward_seventy_one :
    AnimationState.run Real.pi (List.replicate 71 (1, 1 / 30)) PhaseState.initial =
      { phase := 71 * (PHI * (1 / 30) * PHI),
        targetPhase := 71 * (PHI * (1 / 30) * PHI),
        Direction := 1 } := by
  have hpi := Real.pi_gt_d4
  have h30 := phaseStep_thirtieth_bounds
  rw [run_replicate_forward Real.pi (1 / 30) (by norm_num) 71 PhaseState.initial rfl rfl
    (le_refl _) (by simp only [PhaseState.initial]; push_cast; linarith)]
  simp [PhaseState.initial]

/-- C10, as stated, fails on the code: after seventy-one steady forward frames
of 1/30 s from the initial state the phase is about 6.196; the next update
with delta 1/30 (no flip) adds one step of about 0.0873, reaches `2π` and is
reduced modulo `2π` to about 0.0001: the phase has changed by about 6.196,
far more than one step. -/
theorem phase_jumps_on_wrap :
    (0 : ℝ) ≤ 1 / 30 ∧
    (AnimationState.update Real.pi 1 (1 / 30)
      (AnimationState.run Real.pi (List.replicate 71 (1, 1 / 30)) PhaseState.initial)).phase =
      72 * (PHI * (1 / 30) * PHI) - 2 * Real.pi ∧
    PHI * (1 / 30) * PHI <
      |(AnimationState.update Real.pi 1 (1 / 30)
          (AnimationState.run Real.pi (List.replicate 71 (1, 1 / 30))
            PhaseState.initial)).phase -
        (AnimationState.run Real.pi (List.replicate 71 (1, 1 / 30))
          PhaseState.initial).phase| := by
  have hpi := Real.pi_gt_d4
  have hpi2 := Real.pi_lt_d4
  have h72 : (62832 : ℝ) / 10000 < 72 * (PHI * (1 / 30) * PHI) := by
    unfold PHI; norm_num
  have h30 := phaseStep_thirtieth_bounds
  have hphase : (AnimationState.update Real.pi 1 (1 / 30)
      (AnimationState.run Real.pi (List.replicate 71 (1, 1 / 30)) PhaseState.initial)).phase =
      72 * (PHI * (1 / 30) * PHI) - 2 * Real.pi := by
    rw [run_forward_seventy_one, update_steady Real.pi 1 (1 / 30) _ rfl (by simp)]
    simp only
    rw [jsMod_eq_sub (by linarith) (by linarith) (by linarith)]
    ring
  refine ⟨by norm_num, hphase, ?_⟩
  rw [hphase, run_forward_seventy_one]
  simp only
  rw [abs_of_neg (by linarith)]
  linarith

/-- C10, amended: for every state, every direction setting in `{+1, -1}` and
every delta `≥ 0`, a single `AnimationState.update` changes `State.phase` by
exactly one step `phaseStep = PHI * delta * PHI` up to a whole number of
turns: `|phase' + n * 2π - phase| = phaseStep` for some integer `n`.  On the
call that flips the direction, on every call made further than 0.01 from the
target, and on every steady call with `|phase + phaseStep * Direction| < 2π`,
no turn is taken off: `|phase' - phase| = phaseStep`. -/
theorem update_phase_change (s : PhaseState ℝ) (flow delta : ℝ)
    (hflow : flow = 1 ∨ flow = -1) (hdelta : 0 ≤ delta) :
    (∃ n : ℤ, |(AnimationState.update Real.pi flow delta s).phase + n * (2 * Real.pi) - s.phase| =
      PHI * delta * PHI) ∧
    (s.Direction ≠ flow ∨ 1 / 100 < s.distance ∨
        |s.phase + PHI * delta * PHI * flow| < 2 * Real.pi →
      |(AnimationState.update Real.pi flow delta s).phase - s.phase| = PHI * delta * PHI) := by
  have hstep := phaseStep_nonneg hdelta
  have hpi : (1 : ℝ) / 200 < Real.pi := by linarith [Real.pi_gt_three]
  have habsflow : |flow| = 1 := by
    rcases hflow with h | h <;> rw [h] <;> simp
  -- the calls that move the phase by exactly one step
  have hexact : s.Direction ≠ flow ∨ 1 / 100 < s.distance ∨
      |s.phase + PHI * delta * PHI * flow| < 2 * Real.pi →
      |(AnimationState.update Real.pi flow delta s).phase - s.phase| = PHI * delta * PHI := by
    intro hcase
    by_cases hd : s.Direction = flow
    · by_cases hfar : 1 / 100 < |s.targetPhase - s.phase|
      · rw [update_transition Real.pi flow delta s hd hfar]
        simp only [add_sub_cancel_left]
        have hne : s.targetPhase - s.phase ≠ 0 := by
          intro h0; rw [h0] at hfar; norm_num at hfar
        rcases lt_or_gt_of_ne hne with hn | hp
        · rw [jsSign_of_neg hn]; simp [abs_of_nonneg hstep]
        · rw [jsSign_of_pos hp]; simp [abs_of_nonneg hstep]
      · rcases hcase with h | h | h
        · exact absurd hd h
        · exact absurd h hfar
        · rw [update_steady Real.pi flow delta s hd (not_lt.1 hfar)]
          simp only
          rw [hd, jsMod_eq_self (by rw [mul_comm Real.pi 2]; exact h)]
          simp only [add_sub_cancel_left]
          rw [abs_mul, habsflow, mul_one, abs_of_nonneg hstep]
    · rw [update_flip Real.pi flow delta s hpi hd hflow]
      simp only [add_sub_cancel_left]
      rw [abs_mul, habsflow, one_mul, abs_of_nonneg hstep]
  refine ⟨?_, hexact⟩
  by_cases hcase : s.Direction ≠ flow ∨ 1 / 100 < s.distance
  · refine ⟨0, ?_⟩
    simp only [Int.cast_zero, zero_mul, add_zero]
    exact hexact (by tauto)
  · have hd : s.Direction = flow := by
      by_contra h; exact hcase (Or.inl h)
    have hnear : |s.targetPhase - s.phase| ≤ 1 / 100 := by
      by_contra h; exact hcase (Or.inr (not_le.1 h))
    refine ⟨truncate ((s.phase + PHI * delta * PHI * s.Direction) / (Real.pi * 2)), ?_⟩
    rw [update_steady Real.pi flow delta s hd hnear]
    simp only [jsMod]
    have e : s.phase + PHI * delta * PHI * s.Direction -
        Real.pi * 2 * (truncate ((s.phase + PHI * delta * PHI * s.Direction) / (Real.pi * 2)) : ℝ) +
        (truncate ((s.phase + PHI * delta * PHI * s.Direction) / (Real.pi * 2)) : ℝ) *
          (2 * Real.pi) - s.phase = PHI * delta * PHI * s.Direction := by ring
    rw [e, hd, abs_mul, habsflow, mul_one, abs_of_nonneg hstep]

/-- Witness for C10: the first forward frame from the initial state. -/
theorem update_phase_change_witness :
    ((1 : ℝ) = 1 ∨ (1 : ℝ) = -1) ∧ (0 : ℝ) ≤ 1 / 30 ∧
    |(AnimationState.update Real.pi 1 (1 / 30) PhaseState.initial).phase -
      (PhaseState.initial : PhaseState ℝ).phase| = PHI * (1 / 30) * PHI := by
  have h30 := phaseStep_thirtieth_bounds
  have hpi := Real.pi_gt_three
  refine ⟨Or.inl rfl, by norm_num, ?_⟩
  apply (update_phase_change PhaseState.initial 1 (1 / 30) (Or.inl rfl) (by norm_num)).2
  right; right
  simp only [PhaseState.initial, zero_add, mul_one]
  rw [abs_of_pos (by linarith)]
  linarith

/-! ## The workflow-busy gate -/

theorem reset_executionStartTime (host : Host) (now : ℤ) (w : WorkflowState) :
    (WorkflowState.reset host now w).executionStartTime = w.executionStartTime := by
  unfold WorkflowState.reset
  split <;> rfl

theorem runResets_executionStartTime (calls : List ResetCall) (w : WorkflowState) :
    (runResets calls w).executionStartTime = w.executionStartTime := by
  unfold runResets
  induction calls generalizing w with
  | nil => rfl
  | cons c rest ih => rw [List.foldl_cons, ih, reset_executionStartTime]

theorem checkState_of_within_window (host : Host) (now : ℤ) (w : WorkflowState)
    (h : now - w.executionStartTime < 5000) : WorkflowState.checkState host now w = true := by
  simp [WorkflowState.checkState, WorkflowState.minExecutionTime, h]

theorem resetCondition_iff (host : Host) (now : ℤ) (w : WorkflowState) :
    WorkflowState.resetCondition host now w = true ↔
      host.queueLength = 0 ∧ host.isGraphRunning = false ∧ 5000 ≤ now - w.executionStartTime := by
  simp [WorkflowState.resetCondition, WorkflowState.minExecutionTime, and_assoc]

theorem reset_of_condition (host : Host) (now : ℤ) (w : WorkflowState)
    (h : WorkflowState.resetCondition host now w = true) :
    WorkflowState.reset host now w =
      { isRendering := false, isExecuting := false, jobCount := 0,
        executionStartTime := w.executionStartTime } := by
  unfold WorkflowState.reset
  rw [if_pos h]

/-- C11: for every `WorkflowState` and every time `t0`, after
`startExecution()` at `t0` and any `reset()` calls whatever (made at any times
and with any host state), `checkState()` returns `true` at every time `t` with
`t0 ≤ t < t0 + 5000`, whatever the queue length and the graph-running flag
are. -/
theorem busy_within_window (w : WorkflowState) (t0 t : ℤ) (resets : List ResetCall)
    (host : Host) (h1 : t0 ≤ t) (h2 : t < t0 + 5000) :
    WorkflowState.checkState host t
      (runResets resets (WorkflowState.startExecution t0 w)) = true := by
  apply checkState_of_within_window
  rw [runResets_executionStartTime]
  simp only [WorkflowState.startExecution]
  omega

/-- Witness for C11: a job submitted at 1000 ms with an empty queue, a
`reset()` at 2000 ms, and a check at 5999 ms. -/
theorem busy_within_window_witness :
    (1000 : ℤ) ≤ 5999 ∧ (5999 : ℤ) < 1000 + 5000 ∧
    WorkflowState.checkState { queueLength := 0, isGraphRunning := false } 5999
      (runResets [{ now := 2000, host := { queueLength := 0, isGraphRunning := false } }]
        (WorkflowState.startExecution 1000 WorkflowState.initial)) = true :=
  ⟨by norm_num, by norm_num,
    busy_within_window WorkflowState.initial 1000 5999 _ _ (by norm_num) (by norm_num)⟩

/-- C12, as stated, fails on the code: the re-checks are scheduled when the
promise returned by the original `queuePrompt` settles, not at the submission.
With a submission at 1000 ms whose promise settles at 4000 ms and no
`execution_complete` notification so far, the first `reset()` is due at
9000 ms, so at 8000 ms (7000 ms after the submission), with an empty queue and
no running graph throughout, `checkState()` still returns `true`. -/
theorem busy_seven_seconds_after_submission :
    (8000 : ℤ) ≥ 1000 + 7000 ∧
    WorkflowState.checkState { queueLength := 0, isGraphRunning := false } 8000
      (workflowAt (fun _ => { queueLength := 0, isGraphRunning := false })
        WorkflowState.initial 1000 (some 4000) [] 8000) = true := by
  decide

theorem reset_keeps_cleared (host : Host) (now : ℤ) (w : WorkflowState)
    (h : w.isRendering = false ∧ w.isExecuting = false ∧ w.jobCount = 0) :
    (WorkflowState.reset host now w).isRendering = false ∧
    (WorkflowState.reset host now w).isExecuting = false ∧
    (WorkflowState.reset host now w).jobCount = 0 := by
  unfold WorkflowState.reset
  split
  · exact ⟨rfl, rfl, rfl⟩
  · exact h

/-- A run of `reset()` calls leaves the state cleared if it was cleared
before, or if one of the calls finds the queue empty and the graph not running
at least 5000 ms after `executionStartTime`. -/
theorem foldl_reset_cleared (host : ℤ → Host) (times : List ℤ) (w : WorkflowState)
    (h : (w.isRendering = false ∧ w.isExecuting = false ∧ w.jobCount = 0) ∨
      ∃ r ∈ times, (host r).queueLength = 0 ∧ (host r).isGraphRunning = false ∧
        5000 ≤ r - w.executionStartTime) :
    (times.foldl (fun st r => WorkflowState.reset (host r) r st) w).isRendering = false ∧
    (times.foldl (fun st r => WorkflowState.reset (host r) r st) w).isExecuting = false ∧
    (times.foldl (fun st r => WorkflowState.reset (host r) r st) w).jobCount = 0 ∧
    (times.foldl (fun st r => WorkflowState.reset (host r) r st) w).executionStartTime =
      w.executionStartTime := by
  induction times generalizing w with
  | nil =>
    rcases h with h | ⟨r, hr, _⟩
    · exact ⟨h.1, h.2.1, h.2.2, rfl⟩
    · simp at hr
  | cons r0 rest ih =>
    rw [List.foldl_cons]
    have hstart := reset_executionStartTime (host r0) r0 w
    have hgoal : ((WorkflowState.reset (host r0) r0 w).isRendering = false ∧
        (WorkflowState.reset (host r0) r0 w).isExecuting = false ∧
        (WorkflowState.reset (host r0) r0 w).jobCount = 0) ∨
        ∃ r ∈ rest, (host r).queueLength = 0 ∧ (host r).isGraphRunning = false ∧
          5000 ≤ r - (WorkflowState.reset (host r0) r0 w).executionStartTime := by
      rcases h with h | ⟨r, hr, hq, hg, ht⟩
      · exact Or.inl (reset_keeps_cleared _ _ _ h)
      · rcases List.mem_cons.1 hr with heq | hmem
        · subst heq
          left
          rw [reset_of_condition _ _ _ ((resetCondition_iff _ _ _).2 ⟨hq, hg, ht⟩)]
          exact ⟨rfl, rfl, rfl⟩
        · right
          exact ⟨r, hmem, hq, hg, by rw [hstart]; exact ht⟩
    have := ih _ hgoal
    rw [hstart] at this
    exact this

/-- C12, amended: after a single job submission at time `t0` through the
wrapped `app.queuePrompt`, whose original returns a promise that settles at
time `t1 ≥ t0` (the re-checks are then due at `t1 + 5000`, `t1 + 6000` and
`t1 + 7000`, and timers are taken to fire when due), and whatever
`execution_complete` notifications add re-checks of their own: if the queue is
empty and the graph is not running at one of the re-checks of the submission,
due by time `t`, and again at time `t`, then `checkState()` returns `false` at
`t`.  So with an idle host it returns `false` at every time `t ≥ t1 + 7000`,
and indeed from `t1 + 5000` on. -/
theorem idle_after_rechecks (host : ℤ → Host) (w0 : WorkflowState) (t0 t1 t delay : ℤ)
    (completions : List ℤ)
    (hsettle : t0 ≤ t1) (hdelay : delay ∈ resetDelays) (hdue : t1 + delay ≤ t)
    (hcheck : (host (t1 + delay)).queueLength = 0 ∧ (host (t1 + delay)).isGraphRunning = false)
    (hnow : (host t).queueLength = 0 ∧ (host t).isGraphRunning = false) :
    WorkflowState.checkState (host t) t
      (workflowAt host w0 t0 (some t1) completions t) = false := by
  have hd5 : 5000 ≤ delay := by
    simp only [resetDelays, List.mem_cons, List.mem_singleton, List.not_mem_nil, or_false]
      at hdelay
    omega
  have hmem : t1 + delay ∈
      ((scheduledResets (some t1) ++ notificationResets completions).filter
        (fun r => decide (r ≤ t))).insertionSort (fun a b => a ≤ b) := by
    rw [(List.perm_insertionSort _ _).mem_iff, List.mem_filter]
    refine ⟨?_, by simpa using hdue⟩
    apply List.mem_append_left
    simp only [scheduledResets, List.mem_map]
    exact ⟨delay, hdelay, rfl⟩
  have h : (workflowAt host w0 t0 (some t1) completions t).isRendering = false ∧
      (workflowAt host w0 t0 (some t1) completions t).isExecuting = false ∧
      (workflowAt host w0 t0 (some t1) completions t).jobCount = 0 ∧
      (workflowAt host w0 t0 (some t1) completions t).executionStartTime = t0 :=
    foldl_reset_cleared host
      (((scheduledResets (some t1) ++ notificationResets completions).filter
        (fun r => decide (r ≤ t))).insertionSort (fun a b => a ≤ b))
      (WorkflowState.startExecution t0 w0)
      (Or.inr ⟨t1 + delay, hmem, hcheck.1, hcheck.2, by
        simp only [WorkflowState.startExecution]; omega⟩)
  have hwin : ¬ (t - t0 < 5000) := by omega
  simp only [WorkflowState.checkState, WorkflowState.minExecutionTime, h.1, h.2.1, h.2.2.1,
    h.2.2.2, hnow.1, hnow.2]
  simp [hwin]

/-- Witness for C12: a submission at 1000 ms whose promise settles at 4000 ms,
checked at 11000 ms (the last re-check is due then) with the queue empty and
no graph running throughout. -/
theorem idle_after_rechecks_witness :
    (1000 : ℤ) ≤ 4000 ∧ (7000 : ℤ) ∈ resetDelays ∧ (4000 : ℤ) + 7000 ≤ 11000 ∧
    WorkflowState.checkState { queueLength := 0, isGraphRunning := false } 11000
      (workflowAt (fun _ => { queueLength := 0, isGraphRunning := false })
        WorkflowState.initial 1000 (some 4000) [] 11000) = false :=
  ⟨by norm_num, by simp [resetDelays], by norm_num,
    idle_after_rechecks (fun _ => { queueLength := 0, isGraphRunning := false })
      WorkflowState.initial 1000 4000 11000 7000 [] (by norm_num) (by simp [resetDelays])
      (by norm_num) ⟨rfl, rfl⟩ ⟨rfl, rfl⟩⟩

/-- C13: `reset()` clears the busy state (`isRendering = false`,
`isExecuting = false`, `jobCount = 0`) if and only if, at the call, the host
queue is empty, the graph is not running and at least 5000 ms have passed
since `executionStartTime`, the time of the last `startExecution()`; in every
other case it leaves all four fields unchanged; `executionStartTime` is
unchanged in both cases. -/
theorem reset_clears_iff (host : Host) (now : ℤ) (w : WorkflowState) :
    (WorkflowState.resetCondition host now w = true ↔
      host.queueLength = 0 ∧ host.isGraphRunning = false ∧
        5000 ≤ now - w.executionStartTime) ∧
    (WorkflowState.resetCondition host now w = true →
      (WorkflowState.reset host now w).isRendering = false ∧
      (WorkflowState.reset host now w).isExecuting = false ∧
      (WorkflowState.reset host now w).jobCount = 0) ∧
    (WorkflowState.resetCondition host now w = false → WorkflowState.reset host now w = w) ∧
    (WorkflowState.reset host now w).executionStartTime = w.executionStartTime ∧
    (WorkflowState.startExecution now w).executionStartTime = now := by
  refine ⟨resetCondition_iff host now w, ?_, ?_, reset_executionStartTime host now w, rfl⟩
  · intro h
    rw [reset_of_condition host now w h]
    exact ⟨rfl, rfl, rfl⟩
  · intro h
    unfold WorkflowState.reset
    rw [h]
    simp

/-! ## Snowflake batches -/

theorem ceil_div_batchSize (T : ℕ) : ⌈(T : ℚ) / 5⌉₊ = (T + 4) / 5 := by
  apply le_antisymm
  · apply Nat.ceil_le.2
    have h : T ≤ 5 * ((T + 4) / 5) := by omega
    have h2 : (T : ℚ) ≤ 5 * (((T + 4) / 5 : ℕ) : ℚ) := by exact_mod_cast h
    linarith
  · have h : (T : ℚ) / 5 ≤ (⌈(T : ℚ) / 5⌉₊ : ℚ) := Nat.le_ceil _
    have h2 : (T : ℚ) ≤ 5 * (⌈(T : ℚ) / 5⌉₊ : ℚ) := by linarith
    have h3 : T ≤ 5 * ⌈(T : ℚ) / 5⌉₊ := by exact_mod_cast h2
    omega

/-- A call of `addBatch()` made while flakes are missing creates the flakes
of the current batch and counts the batch. -/
theorem addBatch_of_lt (T : ℕ) (draw : ℕ → ℚ) (s : SnowState)
    (h : s.currentBatch * 5 < T) :
    addBatch T draw s =
      ({ flakes := s.flakes ++ (List.range' (s.currentBatch * 5)
            (min (s.currentBatch * 5 + 5) T - s.currentBatch * 5)).map
              (createSnowflakeElement draw s.isInitializing),
         container := s.container ++ (List.range' (s.currentBatch * 5)
            (min (s.currentBatch * 5 + 5) T - s.currentBatch * 5)).map
              (createSnowflakeElement draw s.isInitializing),
         currentBatch := s.currentBatch + 1,
         isInitializing := s.isInitializing },
       decide ((s.currentBatch + 1) * 5 < T)) := by
  unfold addBatch
  simp only [batchSize]
  rw [if_neg (by omega)]

theorem runBatches_from (T : ℕ) (draw : ℕ → ℚ) (fuel : ℕ) :
    ∀ (s : SnowState), s.currentBatch * 5 < T → T ≤ (s.currentBatch + fuel) * 5 →
      runBatches T draw fuel s =
        ({ flakes := s.flakes ++ (List.range' (s.currentBatch * 5)
              (T - s.currentBatch * 5)).map (createSnowflakeElement draw s.isInitializing),
           container := s.container ++ (List.range' (s.currentBatch * 5)
              (T - s.currentBatch * 5)).map (createSnowflakeElement draw s.isInitializing),
           currentBatch := (T + 4) / 5,
           isInitializing := s.isInitializing },
         (T + 4) / 5 - s.currentBatch, false) := by
  induction fuel with
  | zero => intro s h1 h2; omega
  | succ fuel ih =>
    intro s h1 h2
    have hc : createsFlakes T s = true := by simp [createsFlakes, batchSize, h1]
    rw [runBatches, hc, addBatch_of_lt T draw s h1]
    by_cases hnext : (s.currentBatch + 1) * 5 < T
    · simp only [hnext, decide_True, if_true]
      rw [ih _ hnext (by simp only; omega)]
      have hmin : min (s.currentBatch * 5 + 5) T - s.currentBatch * 5 = 5 := by omega
      have hsplit : List.range' (s.currentBatch * 5) (T - s.currentBatch * 5) =
          List.range' (s.currentBatch * 5) 5 ++
            List.range' ((s.currentBatch + 1) * 5) (T - (s.currentBatch + 1) * 5) := by
        have e1 : T - s.currentBatch * 5 = (T - (s.currentBatch + 1) * 5) + 5 := by omega
        have e2 : s.currentBatch * 5 + 1 * 5 = (s.currentBatch + 1) * 5 := by ring
        have happ := List.range'_append (s.currentBatch * 5) 5 (T - (s.currentBatch + 1) * 5) 1
        rw [e2] at happ
        rw [e1]
        exact happ.symm
      simp only [hmin, hsplit, List.map_append, List.append_assoc]
      refine Prod.ext rfl (Prod.ext ?_ rfl)
      simp only
      omega
    · simp only [hnext, decide_False]
      have hmin : min (s.currentBatch * 5 + 5) T - s.currentBatch * 5 =
          T - s.currentBatch * 5 := by omega
      have hcb : s.currentBatch + 1 = (T + 4) / 5 := by omega
      simp only [hmin, hcb]
      refine Prod.ext rfl (Prod.ext ?_ rfl)
      simp only [if_true]
      omega

/-- C14: starting from the idle state (`currentBatch = 0`, no flakes),
enabling snow with target count `T` and batch size 5 (the first `addBatch()`
and the calls it schedules, given room for them) runs exactly `⌈T / 5⌉`
batches that create flakes and creates exactly `T` flakes, with the indices
`0, …, T - 1` in order, all of them children of the container; after that no
batch is scheduled.  For `T = 40` this is exactly 8 batches. -/
theorem snow_batches (T fuel : ℕ) (draw : ℕ → ℚ) (hfuel : T ≤ fuel * 5) (hpos : 1 ≤ fuel) :
    (runBatches T draw fuel SnowState.idle).2 = (⌈(T : ℚ) / 5⌉₊, false) ∧
    (runBatches T draw fuel SnowState.idle).1.flakes.map Flake.index = List.range T ∧
    (runBatches T draw fuel SnowState.idle).1.flakes.length = T ∧
    (runBatches T draw fuel SnowState.idle).1.container =
      (runBatches T draw fuel SnowState.idle).1.flakes ∧
    (runBatches T draw fuel SnowState.idle).1.currentBatch = ⌈(T : ℚ) / 5⌉₊ ∧
    (runBatches 40 draw 8 SnowState.idle).2 = (8, false) := by
  have h40 : (runBatches 40 draw 8 SnowState.idle).2 = (8, false) := by
    rw [runBatches_from 40 draw 8 SnowState.idle (by simp [SnowState.idle])
      (by simp [SnowState.idle])]
    simp [SnowState.idle]
  rw [ceil_div_batchSize]
  rcases Nat.eq_zero_or_pos T with h0 | hT
  · subst h0
    obtain ⟨f, rfl⟩ : ∃ f, fuel = f + 1 := ⟨fuel - 1, by omega⟩
    have hrun : runBatches 0 draw (f + 1) SnowState.idle =
        ({ SnowState.idle with isInitializing := false }, 0, false) := by
      simp [runBatches, addBatch, createsFlakes, SnowState.idle, batchSize]
    rw [hrun]
    exact ⟨rfl, rfl, rfl, rfl, rfl, h40⟩
  · rw [runBatches_from T draw fuel SnowState.idle (by simpa [SnowState.idle] using hT)
      (by simpa [SnowState.idle] using hfuel)]
    have hidx : ∀ n, ((List.range' 0 n).map (createSnowflakeElement draw true)).map Flake.index =
        List.range n := by
      intro n
      rw [List.map_map, List.range_eq_range']
      have : (Flake.index ∘ createSnowflakeElement draw true) = id := by
        funext i; rfl
      rw [this, List.map_id]
    refine ⟨?_, ?_, ?_, ?_, ?_, h40⟩
    · simp [SnowState.idle]
    · simpa [SnowState.idle] using hidx T
    · simp [SnowState.idle]
    · simp [SnowState.idle]
    · simp [SnowState.idle]

/-- Witness for C14: the three target counts of `FLAKE_COUNTS` (60, 40 and
25 flakes) take 12, 8 and 5 batches. -/
theorem snow_batches_witness :
    ((40 : ℕ) ≤ 8 * 5 ∧ 1 ≤ 8) ∧
    (runBatches 40 (fun _ => 0) 8 SnowState.idle).2 = (⌈((40 : ℕ) : ℚ) / 5⌉₊, false) ∧
    ⌈((40 : ℕ) : ℚ) / 5⌉₊ = 8 ∧ ⌈((60 : ℕ) : ℚ) / 5⌉₊ = 12 ∧ ⌈((25 : ℕ) : ℚ) / 5⌉₊ = 5 ∧
    (runBatches 40 (fun _ => 0) 8 SnowState.idle).1.flakes.length = 40 :=
  ⟨⟨by norm_num, by norm_num⟩,
    (snow_batches 40 8 (fun _ => 0) (by norm_num) (by norm_num)).1,
    by rw [ceil_div_batchSize], by rw [ceil_div_batchSize], by rw [ceil_div_batchSize],
    (snow_batches 40 8 (fun _ => 0) (by norm_num) (by norm_num)).2.2.1⟩

/-! ## The wrapped `drawConnections` -/

/-- C15, as stated, fails on the code: with the light switch off (value 0)
and the page hidden, the wrapper returns at its visibility guard without
calling the original routine at all. -/
theorem drawConnections_hidden_no_delegation :
    drawConnections
      { isPageVisible := false, animStyle := JSValue.number 0, visibleLinks := 3,
        origThrows := false, lightsFailAfter := none } 1 2 = [] ∧
    drawConnections
      { isPageVisible := false, animStyle := JSValue.number 0, visibleLinks := 3,
        origThrows := false, lightsFailAfter := none } 1 2 ≠
      [DrawEffect.origDrawConnections 1 2] := by
  have h : drawConnections
      { isPageVisible := false, animStyle := JSValue.number 0, visibleLinks := 3,
        origThrows := false, lightsFailAfter := none } 1 2 = [] := by
    simp [drawConnections]
  rw [h]
  exact ⟨rfl, by simp⟩

/-- C15, amended: whenever the light-switch setting is off (value 0) and the
page is visible, the wrapped `drawConnections` calls the original routine
exactly once, with the same receiver and `ctx`, and, when that call returns
normally, does nothing else (no phase advance, no light rendering, no
performance sample); when the page is hidden it returns without any call. -/
theorem drawConnections_off (env : DrawEnv) (receiver ctx : ℕ)
    (hoff : env.animStyle = JSValue.number 0) :
    (env.isPageVisible = true → env.origThrows = false →
      drawConnections env receiver ctx = [DrawEffect.origDrawConnections receiver ctx]) ∧
    (env.isPageVisible = false → drawConnections env receiver ctx = []) := by
  constructor
  · intro hv ht
    simp [drawConnections, hv, ht, hoff]
  · intro hv
    simp [drawConnections, hv]

/-- Witness for C15: a visible page with the light switch off and five
visible links. -/
theorem drawConnections_off_witness :
    (JSValue.number 0 = JSValue.number 0) ∧
    drawConnections
      { isPageVisible := true, animStyle := JSValue.number 0, visibleLinks := 5,
        origThrows := false, lightsFailAfter := none } 7 9 =
      [DrawEffect.origDrawConnections 7 9] :=
  ⟨rfl, (drawConnections_off
    { isPageVisible := true, animStyle := JSValue.number 0, visibleLinks := 5,
      origThrows := false, lightsFailAfter := none } 7 9 rfl).1 rfl rfl⟩

/-! ## The lights animation loop -/

/-- C16: in `animate()`, `setDirtyCanvas` is not called when the page is
hidden, nor when the `PauseDuringRender` preference is enabled (truthy) and
`WorkflowState.checkState()` reports busy; and when the page is visible, the
light switch is on (its value is above 0) and the loop is not paused (the
preference is off or the host is not busy), `setDirtyCanvas` is called. -/
theorem animate_redraw (env : FrameEnv) (w : WorkflowState) (animationFrame : Option ℕ+) :
    (env.isPageVisible = false →
      LoopEffect.setDirtyCanvas ∉ (animate env w animationFrame).2) ∧
    (env.pauseDuringRender.truthy = true ∧ w.checkState env.host env.now = true →
      LoopEffect.setDirtyCanvas ∉ (animate env w animationFrame).2) ∧
    (env.isPageVisible = true ∧ env.lightSwitch > 0 ∧
        (env.pauseDuringRender.truthy = false ∨ w.checkState env.host env.now = false) →
      LoopEffect.setDirtyCanvas ∈ (animate env w animationFrame).2) := by
  refine ⟨?_, ?_, ?_⟩
  · intro hv
    simp [animate, hv]
  · rintro ⟨hp, hb⟩
    have hpaused : isPaused env w = true := by simp [isPaused, hp, hb]
    unfold animate
    by_cases hv : env.isPageVisible = true
    · simp only [hv, hpaused]
      cases animationFrame <;> cases env.snowContainer <;> simp
    · simp [hv]
  · rintro ⟨hv, hs, hp⟩
    have hpaused : isPaused env w = false := by
      rcases hp with hp | hp <;> simp [isPaused, hp]
    simp [animate, hv, hs, hpaused]

/-- C17, as stated, fails on the code: with the page visible, the
`PauseDuringRender` preference on and the host busy (a job was submitted one
second earlier), `animate()` cancels the pending frame 3, sets
`State.animationFrame` to `null` and requests no frame. -/
theorem animate_paused_stops :
    (animate
      { isPageVisible := true, lightSwitch := 1, pauseDuringRender := JSValue.bool true,
        host := { queueLength := 0, isGraphRunning := false }, now := 100000,
        snowContainer := false, handle := 7 }
      (WorkflowState.startExecution 99000 WorkflowState.initial) (some 3)).1 = none ∧
    (animate
      { isPageVisible := true, lightSwitch := 1, pauseDuringRender := JSValue.bool true,
        host := { queueLength := 0, isGraphRunning := false }, now := 100000,
        snowContainer := false, handle := 7 }
      (WorkflowState.startExecution 99000 WorkflowState.initial) (some 3)).2 =
      [LoopEffect.cancelAnimationFrame 3] ∧
    LoopEffect.requestAnimationFrame ∉
      (animate
        { isPageVisible := true, lightSwitch := 1, pauseDuringRender := JSValue.bool true,
          host := { queueLength := 0, isGraphRunning := false }, now := 100000,
          snowContainer := false, handle := 7 }
        (WorkflowState.startExecution 99000 WorkflowState.initial) (some 3)).2 := by
  have h : animate
      { isPageVisible := true, lightSwitch := 1, pauseDuringRender := JSValue.bool true,
        host := { queueLength := 0, isGraphRunning := false }, now := 100000,
        snowContainer := false, handle := 7 }
      (WorkflowState.startExecution 99000 WorkflowState.initial) (some 3) =
      (none, [LoopEffect.cancelAnimationFrame 3]) := by
    simp [animate, isPaused, WorkflowState.checkState, WorkflowState.startExecution,
      JSValue.truthy]
  rw [h]
  exact ⟨rfl, rfl, by simp⟩

/-- C17, amended: an invocation of `animate()` requests the next paint frame,
exactly once, and leaves `State.animationFrame` non-null (the id of that
request) in every state in which the loop is not paused: page hidden, or
lights off or on with `isPaused` false.  When the page is visible and the loop
is paused (`PauseDuringRender` truthy and `checkState()` busy) it requests no
frame and leaves `State.animationFrame` null; the loop is started again by
`resumeAnimations()`, which always requests a frame. -/
theorem animate_requests_frame (env : FrameEnv) (w : WorkflowState)
    (animationFrame : Option ℕ+) :
    (env.isPageVisible = false ∨ isPaused env w = false →
      (animate env w animationFrame).1 = some env.handle ∧
      (animate env w animationFrame).2.count LoopEffect.requestAnimationFrame = 1) ∧
    (env.isPageVisible = true ∧ isPaused env w = true →
      (animate env w animationFrame).1 = none ∧
      LoopEffect.requestAnimationFrame ∉ (animate env w animationFrame).2) ∧
    (∀ graphCanvas snowContainer,
      (resumeAnimations graphCanvas snowContainer env.handle animationFrame).1 =
        some env.handle ∧
      LoopEffect.requestAnimationFrame ∈
        (resumeAnimations graphCanvas snowContainer env.handle animationFrame).2) := by
  refine ⟨?_, ?_, ?_⟩
  · intro h
    unfold animate
    by_cases hv : env.isPageVisible = true
    · have hp : isPaused env w = false := by
        rcases h with h | h
        · rw [hv] at h; exact absurd h (by simp)
        · exact h
      simp only [hv, hp]
      by_cases hs : env.lightSwitch > 0 <;> cases env.snowContainer <;>
        simp [hs, List.count_cons]
    · simp [hv]
  · rintro ⟨hv, hp⟩
    unfold animate
    simp only [hv, hp]
    cases animationFrame <;> cases env.snowContainer <;> simp
  · intro graphCanvas snowContainer
    simp [resumeAnimations]

/-! ## Teardown of the starfield -/

/-- C18: `EnhancedBackground.cleanup` is idempotent: for every instance state
and every page, a second `cleanup()` leaves the instance exactly as the first
did, namely with `animationFrame`, `_resizeObserver`, `_cachedGradient`,
`ctx`, `canvas` and `container` holding nothing, `initialized = false` and no
entities; the second call cancels no frame and disconnects no observer, and
when the page held at most one background container it makes no call at all
and leaves the page as the first call did.  (`cleanup` is a total function:
it has no failing path.) -/
theorem cleanup_idempotent {Star : Type} (self : EnhancedBackground Star) (document : List ℕ) :
    ((self.cleanup document).1.cleanup (self.cleanup document).2.1).1 =
      (self.cleanup document).1 ∧
    ((self.cleanup document).1.animationFrame = none ∧
      (self.cleanup document).1._resizeObserver = none ∧
      (self.cleanup document).1.initialized = false ∧
      (self.cleanup document).1._cachedGradient = none ∧
      (self.cleanup document).1.ctx = none ∧
      (self.cleanup document).1.canvas = none ∧
      (self.cleanup document).1.container = none ∧
      (self.cleanup document).1.entities = []) ∧
    (∀ handle, CleanupEffect.cancelAnimationFrame handle ∉
      ((self.cleanup document).1.cleanup (self.cleanup document).2.1).2.2) ∧
    (∀ observer, CleanupEffect.disconnect observer ∉
      ((self.cleanup document).1.cleanup (self.cleanup document).2.1).2.2) ∧
    (document.length ≤ 1 →
      ((self.cleanup document).1.cleanup (self.cleanup document).2.1).2.2 = [] ∧
      ((self.cleanup document).1.cleanup (self.cleanup document).2.1).2.1 =
        (self.cleanup document).2.1) ∧
    (self.stop document = self.cleanup document) := by
  refine ⟨rfl, ⟨rfl, rfl, rfl, rfl, rfl, rfl, rfl, rfl⟩, ?_, ?_, ?_, rfl⟩
  · intro handle
    simp only [EnhancedBackground.cleanup]
    cases document.tail <;> simp
  · intro observer
    simp only [EnhancedBackground.cleanup]
    cases document.tail <;> simp
  · intro hlen
    have htail : document.tail = [] := by
      cases document with
      | nil => rfl
      | cons a rest =>
        cases rest with
        | nil => rfl
        | cons b more => simp at hlen
    simp [EnhancedBackground.cleanup, htail]

/-! ## Loading a stored setting -/

/-- C19: `loadSettingFromStorage(key)` never fails (it is a total function of
the cache and of what the host lookup does): if the lookup throws, or returns
`undefined` or `null`, the cache is left entirely unchanged; otherwise
`cache[key]` becomes the stored value and every other key is unchanged. -/
theorem loadSettingFromStorage_spec (cache : JSObject) (key : String) :
    (∀ e, loadSettingFromStorage cache key (Except.error e) = cache) ∧
    loadSettingFromStorage cache key (Except.ok JSValue.undefined) = cache ∧
    loadSettingFromStorage cache key (Except.ok JSValue.null) = cache ∧
    (∀ v, v ≠ JSValue.undefined → v ≠ JSValue.null →
      loadSettingFromStorage cache key (Except.ok v) key = v ∧
      ∀ k, k ≠ key → loadSettingFromStorage cache key (Except.ok v) k = cache k) := by
  refine ⟨fun e => rfl, ?_, ?_, ?_⟩
  · simp [loadSettingFromStorage]
  · simp [loadSettingFromStorage]
  · intro v h1 h2
    have h : loadSettingFromStorage cache key (Except.ok v) = cache.assign key v := by
      simp [loadSettingFromStorage, h1, h2]
    rw [h]
    refine ⟨by simp [JSObject.assign], ?_⟩
    intro k hk
    simp [JSObject.assign, hk]

/-! ## Adaptive settings -/

theorem numLights_mono (L a b : ℚ) (hL : 0 ≤ L) (ha : 0 < a) (hab : a ≤ b) :
    numLights L b ≤ numLights L a := by
  unfold numLights
  apply Int.floor_le_floor
  exact div_le_div_of_nonneg_left hL ha hab

theorem lightsDrawn_mono (L a b : ℚ) (hL : 0 ≤ L) (ha : 0 < a) (hab : a ≤ b) :
    lightsDrawn L b ≤ lightsDrawn L a := by
  have h := numLights_mono L a b hL ha hab
  unfold lightsDrawn
  split <;> split <;> omega

/-- C20: `getSettings()` returns the fixed configuration of the tier in
`_lastMode`, so after `addFrameTime` that of the tier just classified: spacing
30, 45 and 60 px for normal, warning and critical.  Coarser tiers never draw
more: for every path length `L ≥ 0` the light count `floor(L / spacing)`, the
number of bulbs drawn and the number of caps drawn do not increase from normal
to warning to critical; caps are drawn only in normal, and the glow is halved
only in critical. -/
theorem adaptive_settings_coarser (m : PerformanceMonitor) (time L glow : ℚ) (hL : 0 ≤ L) :
    PerformanceMonitor.getSettings m = PerformanceMonitor.adaptiveSettings m._lastMode ∧
    PerformanceMonitor.getSettings (PerformanceMonitor.addFrameTime m time).2 =
      PerformanceMonitor.adaptiveSettings (PerformanceMonitor.addFrameTime m time).1 ∧
    ((PerformanceMonitor.adaptiveSettings Mode.normal).lightSpacing = 30 ∧
      (PerformanceMonitor.adaptiveSettings Mode.warning).lightSpacing = 45 ∧
      (PerformanceMonitor.adaptiveSettings Mode.critical).lightSpacing = 60) ∧
    (numLights L 60 ≤ numLights L 45 ∧ numLights L 45 ≤ numLights L 30) ∧
    (lightsDrawn L 60 ≤ lightsDrawn L 45 ∧ lightsDrawn L 45 ≤ lightsDrawn L 30) ∧
    (capsDrawn (PerformanceMonitor.adaptiveSettings Mode.critical) L ≤
        capsDrawn (PerformanceMonitor.adaptiveSettings Mode.warning) L ∧
      capsDrawn (PerformanceMonitor.adaptiveSettings Mode.warning) L ≤
        capsDrawn (PerformanceMonitor.adaptiveSettings Mode.normal) L) ∧
    (∀ mode, (PerformanceMonitor.adaptiveSettings mode).skipCaps = false ↔ mode = Mode.normal) ∧
    (∀ mode, (PerformanceMonitor.adaptiveSettings mode).reducedGlow = true ↔
      mode = Mode.critical) ∧
    (effectiveGlow (PerformanceMonitor.adaptiveSettings Mode.normal) glow = glow ∧
      effectiveGlow (PerformanceMonitor.adaptiveSettings Mode.warning) glow = glow ∧
      effectiveGlow (PerformanceMonitor.adaptiveSettings Mode.critical) glow = glow / 2) := by
  have hnonneg : ∀ a : ℚ, 0 ≤ lightsDrawn L a := by
    intro a
    unfold lightsDrawn
    split <;> omega
  refine ⟨rfl, rfl, ⟨rfl, rfl, rfl⟩, ⟨?_, ?_⟩, ⟨?_, ?_⟩, ⟨?_, ?_⟩, ?_, ?_, ?_⟩
  · exact numLights_mono L 45 60 hL (by norm_num) (by norm_num)
  · exact numLights_mono L 30 45 hL (by norm_num) (by norm_num)
  · exact lightsDrawn_mono L 45 60 hL (by norm_num) (by norm_num)
  · exact lightsDrawn_mono L 30 45 hL (by norm_num) (by norm_num)
  · simp [capsDrawn, PerformanceMonitor.adaptiveSettings]
  · simp only [capsDrawn, PerformanceMonitor.adaptiveSettings]
    simpa using hnonneg 30
  · intro mode
    cases mode <;> simp [PerformanceMonitor.adaptiveSettings]
  · intro mode
    cases mode <;> simp [PerformanceMonitor.adaptiveSettings]
  · simp [effectiveGlow, PerformanceMonitor.adaptiveSettings]
    ring

/-- Witness for C20: a link 100 px long carries 3, 2 and 1 spacings in the
three tiers. -/
theorem adaptive_settings_coarser_witness :
    (0 : ℚ) ≤ 100 ∧
    (numLights 100 60 ≤ numLights 100 45 ∧ numLights 100 45 ≤ numLights 100 30) ∧
    numLights 100 30 = 3 ∧ numLights 100 45 = 2 ∧ numLights 100 60 = 1 :=
  ⟨by norm_num,
    (adaptive_settings_coarser PerformanceMonitor.initial 0 100 20 (by norm_num)).2.2.2.1,
    by unfold numLights; rw [Int.floor_eq_iff]; norm_num,
    by unfold numLights; rw [Int.floor_eq_iff]; norm_num,
    by unfold numLights; rw [Int.floor_eq_iff]; norm_num⟩

/-! ## C21: the colour index -/

theorem neg_lt_tmod (a : ℤ) {b : ℤ} (H : 0 < b) : -b < Int.tmod a b := by
  obtain ⟨n, rfl⟩ := Int.eq_succ_of_zero_lt H
  cases a with
  | ofNat m =>
    have h := Int.tmod_nonneg ((n.succ : ℕ) : ℤ) (Int.ofNat_nonneg m)
    have hn : (0 : ℤ) < (n.succ : ℕ) := H
    exact lt_of_lt_of_le (by omega) h
  | negSucc m =>
    have h := Nat.mod_lt m.succ n.succ_pos
    show -((n.succ : ℕ) : ℤ) < -((m.succ % n.succ : ℕ) : ℤ)
    omega

/-- The idiom `((m % n) + n) % n` on whole numbers, `n` positive: the
remainder of the floored division. -/
theorem tmod_add_tmod (m n : ℤ) (hn : 0 < n) : Int.tmod (Int.tmod m n + n) n = m % n := by
  have h1 := neg_lt_tmod m hn
  have h2 := Int.tmod_add_tdiv m n
  rw [Int.tmod_eq_emod (by omega) (le_of_lt hn), Int.add_emod_self]
  conv_rhs => rw [← h2]
  rw [Int.add_mul_emod_self_left]

/-- C21: for every light index `i`, every phase and direction (over the real
numbers) and every palette of length `n ≥ 1`, the colour index is at least 0,
less than `n`, and is the remainder of `i - floor(phase * 2 * Direction)` in
the floored division by `n` (so it is congruent to it modulo `n`, also when
the difference is negative); the lookup `christmasColors[colorIndex]` is
therefore defined. -/
theorem colorIndex_in_range (palette : List String) (i : ℤ) (phase Direction : ℝ)
    (hn : 1 ≤ palette.length) :
    0 ≤ colorIndex i phase Direction palette.length ∧
    colorIndex i phase Direction palette.length < palette.length ∧
    colorIndex i phase Direction palette.length =
      (i - ⌊phase * 2 * Direction⌋) % (palette.length : ℤ) ∧
    (palette.length : ℤ) ∣
      colorIndex i phase Direction palette.length - (i - ⌊phase * 2 * Direction⌋) ∧
    (paletteLookup palette (colorIndex i phase Direction palette.length)).isSome = true := by
  have hpos : (0 : ℤ) < (palette.length : ℤ) := by exact_mod_cast hn
  have h : colorIndex i phase Direction palette.length =
      (i - ⌊phase * 2 * Direction⌋) % (palette.length : ℤ) := by
    unfold colorIndex
    exact tmod_add_tmod _ _ hpos
  have h0 : 0 ≤ colorIndex i phase Direction palette.length := by
    rw [h]
    exact Int.emod_nonneg _ (ne_of_gt hpos)
  have h1 : colorIndex i phase Direction palette.length < palette.length := by
    rw [h]
    exact Int.emod_lt_of_pos _ hpos
  refine ⟨h0, h1, h, ?_, ?_⟩
  · rw [h]
    refine ⟨-((i - ⌊phase * 2 * Direction⌋) / (palette.length : ℤ)), ?_⟩
    have e := Int.emod_add_ediv (i - ⌊phase * 2 * Direction⌋) (palette.length : ℤ)
    linarith
  · unfold paletteLookup
    rw [if_pos h0]
    have hlt : (colorIndex i phase Direction palette.length).toNat < palette.length := by
      omega
    simp [List.getElem?_eq_getElem hlt]

/-- C21, at a concrete input: the traditional palette, light 0, phase 3.5,
direction +1 (the difference is -7). -/
theorem colorIndex_in_range_witness :
    colorIndex 0 (7 / 2 : ℝ) 1 (christmasColors "traditional").length = 3 ∧
    (paletteLookup (christmasColors "traditional")
      (colorIndex 0 (7 / 2 : ℝ) 1 (christmasColors "traditional").length)).isSome = true := by
  have hlen : (christmasColors "traditional").length = 5 := by decide
  have h := colorIndex_in_range (christmasColors "traditional") 0 (7 / 2) 1
    (by rw [hlen]; norm_num)
  refine ⟨?_, h.2.2.2.2⟩
  rw [h.2.2.1, hlen]
  have hf : ⌊(7 / 2 : ℝ) * 2 * 1⌋ = 7 := by
    rw [Int.floor_eq_iff]
    norm_num
  rw [hf]
  decide

/-! ## C22: the spacing of the lights on a straight link -/

/-- C22, as stated, fails on the code: on the straight link from `(0, 0)` to
`(45, 0)`, of length 45, at the spacing 30 of the normal tier, `numLights` is
1 and the two lights are sampled at `(0, 0)` and `(45, 0)`, at distance 45
from each other, not 30.  (These coordinates are binary32 numbers, so storing
them in `tempPoint` changes nothing.) -/
theorem lights_not_at_tier_spacing :
    LinkRenderers.straight.getLength Real.sqrt ((0 : ℝ), (0 : ℝ)) (45, 0) = 45 ∧
    LinkRenderers.lightCount
      (LinkRenderers.straight.getLength Real.sqrt ((0 : ℝ), (0 : ℝ)) (45, 0)) 30 = 1 ∧
    LinkRenderers.straight.lightPoint Real.sqrt ((0 : ℝ), (0 : ℝ)) (45, 0) 30 0 = (0, 0) ∧
    LinkRenderers.straight.lightPoint Real.sqrt ((0 : ℝ), (0 : ℝ)) (45, 0) 30 1 = (45, 0) ∧
    LinkRenderers.straight.getLength Real.sqrt
      (LinkRenderers.straight.lightPoint Real.sqrt ((0 : ℝ), (0 : ℝ)) (45, 0) 30 0)
      (LinkRenderers.straight.lightPoint Real.sqrt ((0 : ℝ), (0 : ℝ)) (45, 0) 30 1) = 45 ∧
    LinkRenderers.straight.getLength Real.sqrt
      (LinkRenderers.straight.lightPoint Real.sqrt ((0 : ℝ), (0 : ℝ)) (45, 0) 30 0)
      (LinkRenderers.straight.lightPoint Real.sqrt ((0 : ℝ), (0 : ℝ)) (45, 0) 30 1) ≠ 30 := by
  have hL : LinkRenderers.straight.getLength Real.sqrt ((0 : ℝ), (0 : ℝ)) (45, 0) = 45 := by
    simp only [LinkRenderers.straight.getLength]
    rw [show ((45 : ℝ) - 0) * (45 - 0) + (0 - 0) * (0 - 0) = 45 ^ 2 by norm_num]
    exact Real.sqrt_sq (by norm_num)
  have hn : LinkRenderers.lightCount
      (LinkRenderers.straight.getLength Real.sqrt ((0 : ℝ), (0 : ℝ)) (45, 0)) 30 = 1 := by
    rw [hL]
    unfold LinkRenderers.lightCount
    rw [Int.floor_eq_iff]
    norm_num
  have h0 : LinkRenderers.straight.lightPoint Real.sqrt ((0 : ℝ), (0 : ℝ)) (45, 0) 30 0 =
      (0, 0) := by
    simp [LinkRenderers.straight.lightPoint, LinkRenderers.straight.getPoint]
  have h1 : LinkRenderers.straight.lightPoint Real.sqrt ((0 : ℝ), (0 : ℝ)) (45, 0) 30 1 =
      (45, 0) := by
    simp only [LinkRenderers.straight.lightPoint, LinkRenderers.straight.getPoint, hn]
    norm_num
  refine ⟨hL, hn, h0, h1, ?_, ?_⟩
  · rw [h0, h1, hL]
  · rw [h0, h1, hL]
    norm_num

/-- C22, amended: on a straight link of length `L` at least the spacing `s`
(any positive `s`, so 30, 45 and 60), the code samples `numLights + 1` points
with `numLights = floor(L / s) ≥ 1`, and consecutive sample points (the
numbers `getPoint` assigns, before the wobble) are at the same distance
`L / numLights` from each other.  This distance is at least `s` and less than
`2 s`, and it equals `s` exactly when `L` is a whole multiple of `s`. -/
theorem light_spacing (start end_ : ℝ × ℝ) (s : ℝ) (i : ℤ) (hs : 0 < s)
    (hL : s ≤ LinkRenderers.straight.getLength Real.sqrt start end_) :
    1 ≤ LinkRenderers.lightCount (LinkRenderers.straight.getLength Real.sqrt start end_) s ∧
    LinkRenderers.straight.getLength Real.sqrt
      (LinkRenderers.straight.lightPoint Real.sqrt start end_ s i)
      (LinkRenderers.straight.lightPoint Real.sqrt start end_ s (i + 1)) =
      LinkRenderers.straight.getLength Real.sqrt start end_ /
        (LinkRenderers.lightCount (LinkRenderers.straight.getLength Real.sqrt start end_) s : ℝ) ∧
    s ≤ LinkRenderers.straight.getLength Real.sqrt start end_ /
        (LinkRenderers.lightCount (LinkRenderers.straight.getLength Real.sqrt start end_) s : ℝ) ∧
    LinkRenderers.straight.getLength Real.sqrt start end_ /
        (LinkRenderers.lightCount (LinkRenderers.straight.getLength Real.sqrt start end_) s : ℝ) <
      2 * s ∧
    (LinkRenderers.straight.getLength Real.sqrt start end_ /
        (LinkRenderers.lightCount (LinkRenderers.straight.getLength Real.sqrt start end_) s : ℝ) = s ↔
      ∃ k : ℤ, LinkRenderers.straight.getLength Real.sqrt start end_ = k * s) := by
  have hdist : ∀ p q : ℝ × ℝ, LinkRenderers.straight.getLength Real.sqrt p q =
      Real.sqrt ((q.1 - p.1) * (q.1 - p.1) + (q.2 - p.2) * (q.2 - p.2)) := fun _ _ => rfl
  generalize hLdef : LinkRenderers.straight.getLength Real.sqrt start end_ = L at hL ⊢
  have hn1 : 1 ≤ LinkRenderers.lightCount L s := by
    unfold LinkRenderers.lightCount
    rw [Int.le_floor]
    rw [le_div_iff₀ hs]
    simpa using hL
  generalize hndef : LinkRenderers.lightCount L s = n at hn1 ⊢
  have hnpos : (0 : ℝ) < n := by exact_mod_cast (by omega : (0 : ℤ) < n)
  have hn1r : (1 : ℝ) ≤ n := by exact_mod_cast hn1
  have hfl : (n : ℝ) ≤ L / s := by
    rw [← hndef]
    exact Int.floor_le _
  have hfu : L / s < n + 1 := by
    rw [← hndef]
    exact Int.lt_floor_add_one _
  have hlo : (n : ℝ) * s ≤ L := (le_div_iff₀ hs).1 hfl
  have hup : L < (n + 1) * s := (div_lt_iff₀ hs).1 hfu
  refine ⟨hn1, ?_, ?_, ?_, ?_⟩
  · rw [hdist]
    simp only [LinkRenderers.straight.lightPoint, LinkRenderers.straight.getPoint, hLdef, hndef]
    have e : (start.1 + (end_.1 - start.1) * (((i + 1 : ℤ) : ℝ) / n) -
          (start.1 + (end_.1 - start.1) * ((i : ℝ) / n))) *
        (start.1 + (end_.1 - start.1) * (((i + 1 : ℤ) : ℝ) / n) -
          (start.1 + (end_.1 - start.1) * ((i : ℝ) / n))) +
        (start.2 + (end_.2 - start.2) * (((i + 1 : ℤ) : ℝ) / n) -
          (start.2 + (end_.2 - start.2) * ((i : ℝ) / n))) *
        (start.2 + (end_.2 - start.2) * (((i + 1 : ℤ) : ℝ) / n) -
          (start.2 + (end_.2 - start.2) * ((i : ℝ) / n))) =
        ((end_.1 - start.1) * (end_.1 - start.1) + (end_.2 - start.2) * (end_.2 - start.2)) /
          (n : ℝ) ^ 2 := by
      push_cast
      field_simp
      ring
    rw [e, Real.sqrt_div' _ (sq_nonneg _), Real.sqrt_sq (le_of_lt hnpos), ← hLdef, hdist]
  · rw [le_div_iff₀ hnpos]
    linarith
  · rw [div_lt_iff₀ hnpos]
    nlinarith
  · constructor
    · intro h
      refine ⟨n, ?_⟩
      rw [div_eq_iff (ne_of_gt hnpos)] at h
      linarith
    · rintro ⟨k, hk⟩
      have hk2 : L / s = k := by
        rw [hk]
        field_simp
      have hkn : n = k := by
        rw [← hndef]
        unfold LinkRenderers.lightCount
        rw [hk2]
        exact Int.floor_intCast k
      rw [hkn] at hnpos ⊢
      rw [hk]
      field_simp

/-- C22, amended, on the link from `(0, 0)` to `(100, 0)` at spacing 30: three
intervals of length `100 / 3`. -/
theorem light_spacing_witness :
    LinkRenderers.straight.getLength Real.sqrt
      (LinkRenderers.straight.lightPoint Real.sqrt ((0 : ℝ), (0 : ℝ)) (100, 0) 30 1)
      (LinkRenderers.straight.lightPoint Real.sqrt ((0 : ℝ), (0 : ℝ)) (100, 0) 30 (1 + 1)) =
      100 / 3 := by
  have hL : LinkRenderers.straight.getLength Real.sqrt ((0 : ℝ), (0 : ℝ)) (100, 0) = 100 := by
    simp only [LinkRenderers.straight.getLength]
    rw [show ((100 : ℝ) - 0) * (100 - 0) + (0 - 0) * (0 - 0) = 100 ^ 2 by norm_num]
    exact Real.sqrt_sq (by norm_num)
  have hn : LinkRenderers.lightCount (100 : ℝ) 30 = 3 := by
    unfold LinkRenderers.lightCount
    rw [Int.floor_eq_iff]
    norm_num
  have h := (light_spacing ((0 : ℝ), (0 : ℝ)) (100, 0) 30 1 (by norm_num)
    (by rw [hL]; norm_num)).2.1
  rw [h, hL, hn]
  norm_num

/-! ## C23: the gradient cache -/

section GradientCacheLemmas

variable {Star : Type}

theorem getGradient_fst (self : EnhancedBackground Star) (cache : JSObject)
    (h : self.CacheValid) :
    (self.getGradient cache).1 = buildGradient (getSetting cache colorThemeKey) self.height := by
  unfold EnhancedBackground.getGradient
  cases hc : self._cachedGradient with
  | none => rfl
  | some cached =>
    simp only
    split
    · next heq =>
      simp only
      rw [h cached hc, heq.1, heq.2]
    · rfl

theorem getGradient_cacheValid (self : EnhancedBackground Star) (cache : JSObject)
    (h : self.CacheValid) : (self.getGradient cache).2.CacheValid := by
  unfold EnhancedBackground.getGradient
  cases hc : self._cachedGradient with
  | none =>
    intro g hg
    simp only [Option.some.injEq] at hg
    exact hg.symm
  | some cached =>
    simp only
    split
    · exact h
    · intro g hg
      simp only [Option.some.injEq] at hg
      exact hg.symm

theorem apply_cacheValid (w : BackgroundWorld Star) (e : GradientEvent)
    (h : w.backgroundInstance.CacheValid) : (e.apply w).backgroundInstance.CacheValid := by
  cases e with
  | themeChange value =>
    intro g hg
    simp [GradientEvent.apply, colorThemeOnChange] at hg
  | resize cw ch clw clh dpr =>
    simp only [GradientEvent.apply, EnhancedBackground.updateCanvasSize]
    split
    · exact h
    · split
      · intro g hg
        simp at hg
      · exact h
  | getGradient => exact getGradient_cacheValid _ _ h

theorem runGradientEvents_cacheValid (events : List GradientEvent) (w : BackgroundWorld Star)
    (h : w.backgroundInstance.CacheValid) :
    (runGradientEvents events w).backgroundInstance.CacheValid := by
  unfold runGradientEvents
  induction events generalizing w with
  | nil => exact h
  | cons e es ih => exact ih _ (apply_cacheValid w e h)

end GradientCacheLemmas

/-- C23: start from an instance whose cache is empty or holds the gradient
built from the theme and height recorded with it (the constructor leaves it
empty).  After every sequence of theme changes, `updateCanvasSize()` calls
and `getGradient()` calls, `getGradient()` returns the gradient built fresh
from the current colour theme and the current canvas height; it returns the
cached object (and changes nothing) only when the theme and the height
recorded with it are the current ones, and otherwise it stores what it built
together with the current theme and height; a theme change and a resize that
changes the canvas empty the cache; a theme that is not in the table gets
the colours of the classic theme. -/
theorem getGradient_memoized {Star : Type} (events : List GradientEvent)
    (w : BackgroundWorld Star) (h : w.backgroundInstance.CacheValid) :
    ((runGradientEvents events w).backgroundInstance.getGradient
        (runGradientEvents events w).cache).1 =
      buildGradient (getSetting (runGradientEvents events w).cache colorThemeKey)
        (runGradientEvents events w).backgroundInstance.height ∧
    ((runGradientEvents events w).backgroundInstance.reusesGradient
        (runGradientEvents events w).cache = true →
      (runGradientEvents events w).backgroundInstance._cachedTheme =
        getSetting (runGradientEvents events w).cache colorThemeKey ∧
      (runGradientEvents events w).backgroundInstance._cachedHeight =
        (runGradientEvents events w).backgroundInstance.height ∧
      (runGradientEvents events w).backgroundInstance._cachedGradient =
        some ((runGradientEvents events w).backgroundInstance.getGradient
          (runGradientEvents events w).cache).1 ∧
      ((runGradientEvents events w).backgroundInstance.getGradient
          (runGradientEvents events w).cache).2 =
        (runGradientEvents events w).backgroundInstance) ∧
    ((runGradientEvents events w).backgroundInstance.reusesGradient
        (runGradientEvents events w).cache = false →
      ((runGradientEvents events w).backgroundInstance.getGradient
          (runGradientEvents events w).cache).2 =
        { (runGradientEvents events w).backgroundInstance with
            _cachedGradient := some (buildGradient
              (getSetting (runGradientEvents events w).cache colorThemeKey)
              (runGradientEvents events w).backgroundInstance.height),
            _cachedTheme := getSetting (runGradientEvents events w).cache colorThemeKey,
            _cachedHeight := (runGradientEvents events w).backgroundInstance.height }) ∧
    (∀ value, (colorThemeOnChange (runGradientEvents events w) value).backgroundInstance._cachedGradient
        = none) ∧
    (∀ cw ch clw clh dpr,
      ((runGradientEvents events w).backgroundInstance.updateCanvasSize cw ch clw clh dpr).height ≠
          (runGradientEvents events w).backgroundInstance.height →
        ((runGradientEvents events w).backgroundInstance.updateCanvasSize
          cw ch clw clh dpr)._cachedGradient = none) ∧
    (∀ name height, BACKGROUND_THEMES.lookup name = none →
      buildGradient (JSValue.string name) height =
        buildGradient (JSValue.string "classic") height) := by
  have hv := runGradientEvents_cacheValid events w h
  generalize runGradientEvents events w = w1 at hv ⊢
  refine ⟨getGradient_fst _ _ hv, ?_, ?_, ?_, ?_, ?_⟩
  · intro hr
    unfold EnhancedBackground.reusesGradient at hr
    simp only [Bool.and_eq_true, decide_eq_true_eq, Option.isSome_iff_exists] at hr
    obtain ⟨⟨⟨g, hg⟩, ht⟩, hh⟩ := hr
    refine ⟨ht, hh, ?_, ?_⟩
    · simp [EnhancedBackground.getGradient, hg, ht, hh]
    · simp [EnhancedBackground.getGradient, hg, ht, hh]
  · intro hr
    unfold EnhancedBackground.reusesGradient at hr
    unfold EnhancedBackground.getGradient
    cases hc : w1.backgroundInstance._cachedGradient with
    | none => rfl
    | some cached =>
      simp only [hc, Option.isSome_some, Bool.true_and, Bool.and_eq_false_imp,
        decide_eq_true_eq, decide_eq_false_iff_not] at hr
      have hne : ¬ (w1.backgroundInstance._cachedTheme = getSetting w1.cache colorThemeKey ∧
          w1.backgroundInstance._cachedHeight = w1.backgroundInstance.height) :=
        fun hb => hr hb.1 hb.2
      simp only [if_neg hne]
  · intro value
    rfl
  · intro cw ch clw clh dpr hne
    simp only [EnhancedBackground.updateCanvasSize] at hne ⊢
    split_ifs at hne ⊢ with hg hs
    · exact absurd rfl hne
    · rfl
    · exact absurd rfl hne
  · intro name height hlook
    have h1 : themeFor (JSValue.string name) =
        { top := "#05004c", bottom := "#110E19", star := "#ffffff" } := by
      simp only [themeFor, hlook, Option.getD_none]
    have h2 : themeFor (JSValue.string "classic") =
        { top := "#05004c", bottom := "#110E19", star := "#ffffff" } := by
      simp [themeFor, BACKGROUND_THEMES, List.lookup]
    simp only [buildGradient, h1, h2]

/-- C23 on a run: an instance as the constructor leaves its cache, of height
600; the gradient is asked for, the theme is set to `candycane`, the canvas is
resized to height 800, the gradient is asked for again.  The next
`getGradient()` returns the candy cane gradient of height 800. -/
theorem getGradient_memoized_witness :
    ((runGradientEvents
        [GradientEvent.getGradient,
         GradientEvent.themeChange (JSValue.string "candycane"),
         GradientEvent.resize 1000 600 1000 800 1,
         GradientEvent.getGradient]
        ({ cache := settingsCache,
           backgroundInstance :=
             { container := some 1, canvas := some 2, ctx := some 3, width := 1000,
               height := 600, entities := ([] : List Unit), animationFrame := none,
               initialized := true, _cachedGradient := none, _cachedTheme := JSValue.null,
               _cachedHeight := 0, _frameCount := 0, _lastFpsCheck := 0, _currentFps := 60,
               _resizeObserver := none } } :
          BackgroundWorld Unit)).backgroundInstance.getGradient
      (runGradientEvents
        [GradientEvent.getGradient,
         GradientEvent.themeChange (JSValue.string "candycane"),
         GradientEvent.resize 1000 600 1000 800 1,
         GradientEvent.getGradient]
        ({ cache := settingsCache,
           backgroundInstance :=
             { container := some 1, canvas := some 2, ctx := some 3, width := 1000,
               height := 600, entities := ([] : List Unit), animationFrame := none,
               initialized := true, _cachedGradient := none, _cachedTheme := JSValue.null,
               _cachedHeight := 0, _frameCount := 0, _lastFpsCheck := 0, _currentFps := 60,
               _resizeObserver := none } } :
          BackgroundWorld Unit)).cache).1 =
      { height := 800, top := "#8b0000", bottom := "#4a0404" } :=
  (getGradient_memoized _ _ (fun g hg => by simp at hg)).1.trans
    (by
      simp [runGradientEvents, GradientEvent.apply, colorThemeOnChange,
        EnhancedBackground.getGradient, EnhancedBackground.updateCanvasSize, buildGradient,
        themeFor, BACKGROUND_THEMES, List.lookup, getSetting, updateCache, JSObject.assign,
        colorThemeKey, JSValue.nullishCoalesce, JSValue.isNullish])

/-! ## C24: the buffer pool -/

theorem pool_apply_length_le (p : ArrayPool) (c : PoolCall) (h : p.pool.length ≤ 300) :
    (PoolCall.apply p c).pool.length ≤ 300 := by
  cases c with
  | get =>
    simp only [PoolCall.apply, ArrayPool.get]
    split
    · simp only [List.length_dropLast]
      omega
    · exact h
  | release array =>
    simp only [PoolCall.apply, ArrayPool.release]
    split
    · simp only [List.length_append, List.length_singleton]
      omega
    · exact h

theorem pool_foldl_length_le (calls : List PoolCall) (p : ArrayPool)
    (h : p.pool.length ≤ 300) : (calls.foldl PoolCall.apply p).pool.length ≤ 300 := by
  induction calls generalizing p with
  | nil => exact h
  | cons c cs ih => exact ih _ (pool_apply_length_le p c h)

/-- C24: after `init()` the pool holds exactly 200 buffers, each a fresh
two-element buffer; after any further sequence of `get` and `release` calls it
holds at most 300; a `release` at size 300 leaves the pool as it is and a
`release` below 300 adds the buffer at the end; `get` on a pool that is not
empty returns its last buffer and removes it, and `get` on an empty pool
returns a fresh two-element buffer and leaves the pool empty. -/
theorem pool_bounded (calls : List PoolCall) (array : Buffer) :
    ArrayPool.empty.init.pool = List.replicate 200 ArrayPool.freshBuffer ∧
    ArrayPool.empty.init.pool.length = 200 ∧
    (runPool calls).pool.length ≤ 300 ∧
    ((runPool calls).pool.length = 300 → (runPool calls).release array = runPool calls) ∧
    ((runPool calls).pool.length < 300 →
      ((runPool calls).release array).pool = (runPool calls).pool ++ [array]) ∧
    ((runPool calls).pool ≠ [] →
      (runPool calls).pool =
        (runPool calls).get.2.pool ++ [(runPool calls).get.1]) ∧
    ((runPool calls).pool = [] →
      (runPool calls).get = (ArrayPool.freshBuffer, runPool calls)) := by
  have hinit : ArrayPool.empty.init.pool = List.replicate 200 ArrayPool.freshBuffer := by
    simp [ArrayPool.init, ArrayPool.empty]
  have hlen : ArrayPool.empty.init.pool.length = 200 := by
    rw [hinit, List.length_replicate]
  refine ⟨hinit, hlen, ?_, ?_, ?_, ?_, ?_⟩
  · exact pool_foldl_length_le calls _ (by rw [hlen]; norm_num)
  · intro h
    simp [ArrayPool.release, h]
  · intro h
    simp [ArrayPool.release, h]
  · intro h
    have hpos : (runPool calls).pool.length > 0 := List.length_pos.mpr h
    simp only [ArrayPool.get, hpos, if_true]
    rw [List.getLastD_eq_getLast?, List.getLast?_eq_getLast _ h]
    simp [List.dropLast_append_getLast h]
  · intro h
    simp [ArrayPool.get, h]

/-! ## C25: the flag `isInitializing` after the last batch -/

/-- C25, as stated, fails on the code: for every target count `T > 0`, after
the first `addBatch()` and all the calls it schedules have run, `T` flakes
exist and no call is waiting, but `isInitializing` is still `true`, and every
flake was created with the random delay drawn for it.  (The flag is cleared
only by a call of `addBatch()` that finds `currentBatch * batchSize >=
totalFlakes`, and the batch that completes the count schedules no such
call.) -/
theorem isInitializing_stays_true (T fuel : ℕ) (draw : ℕ → ℚ) (hT : 0 < T)
    (hfuel : T ≤ fuel * 5) :
    (runBatches T draw fuel SnowState.idle).2.2 = false ∧
    (runBatches T draw fuel SnowState.idle).1.flakes.length = T ∧
    (runBatches T draw fuel SnowState.idle).1.isInitializing = true ∧
    (∀ f ∈ (runBatches T draw fuel SnowState.idle).1.flakes, f.initialDelay = draw f.index) ∧
    (addBatch T draw (runBatches T draw fuel SnowState.idle).1).1.isInitializing = false := by
  rw [runBatches_from T draw fuel SnowState.idle (by simpa [SnowState.idle] using hT)
    (by simpa [SnowState.idle] using hfuel)]
  refine ⟨rfl, ?_, rfl, ?_, ?_⟩
  · simp [SnowState.idle]
  · intro f hf
    simp only [SnowState.idle, List.nil_append, List.mem_map] at hf
    obtain ⟨i, -, rfl⟩ := hf
    rfl
  · have h : T ≤ (T + 4) / 5 * 5 := by omega
    simp [addBatch, batchSize, h]

/-- C25 at the medium tier: 40 flakes, 8 batches. -/
theorem isInitializing_stays_true_witness :
    (runBatches 40 (fun _ => 0) 8 SnowState.idle).2.2 = false ∧
    (runBatches 40 (fun _ => 0) 8 SnowState.idle).1.flakes.length = 40 ∧
    (runBatches 40 (fun _ => 0) 8 SnowState.idle).1.isInitializing = true :=
  ⟨(isInitializing_stays_true 40 8 (fun _ => 0) (by norm_num) (by norm_num)).1,
    (isInitializing_stays_true 40 8 (fun _ => 0) (by norm_num) (by norm_num)).2.1,
    (isInitializing_stays_true 40 8 (fun _ => 0) (by norm_num) (by norm_num)).2.2.1⟩

/-! ## C26: snow switched off and on again -/

theorem getSetting_settingsCache_snowEnabled :
    getSetting settingsCache snowEnabledKey = JSValue.number 1 := by
  simp [getSetting, settingsCache, snowEnabledKey, JSValue.nullishCoalesce,
    JSValue.isNullish, SETTING_DEFAULTS, JSObject.ofEntries, SETTING_DEFAULTS_entries,
    List.lookup]

theorem populated_medium (draw : ℕ → ℚ) :
    runSnowEvents 40 draw (List.replicate 7 SnowEvent.batchStep)
      (SnowModule.afterSetup 40 draw settingsCache) =
    { snow :=
        { flakes := (List.range' 0 40).map (createSnowflakeElement draw true),
          container := (List.range' 0 40).map (createSnowflakeElement draw true),
          currentBatch := 8,
          isInitializing := true },
      exposedFlakes := none,
      cache := settingsCache,
      displayed := true,
      scheduled := 0 } := by
  simp [runSnowEvents, List.replicate, SnowEvent.apply, SnowModule.batchStep,
    SnowModule.callAddBatch, addBatch, batchSize, SnowModule.afterSetup,
    getSetting_settingsCache_snowEnabled, JSValue.truthy, SnowState.idle, List.range']

theorem runSnowEvents_append (T : ℕ) (draw : ℕ → ℚ) (a b : List SnowEvent) (m : SnowModule) :
    runSnowEvents T draw (a ++ b) m = runSnowEvents T draw b (runSnowEvents T draw a m) := by
  simp [runSnowEvents, List.foldl_append]

/-- C26, as stated, fails on the code.  At the medium tier (40 flakes), with
the snow populated (`setup()` and the seven scheduled batches): the
off-handler empties `window.snowflakeState.flakes`, which is a property of the
exposed object and not the array `flakes` of the renderer, and then
`renderSnowflakes()` puts all 40 flakes back into the container; switching
the snow on again before a poll tick has run adds a second set, so that 80
flakes are live.  When a poll tick runs in between (it empties the array
`flakes` and the container), 40 flakes are live afterwards. -/
theorem snow_off_keeps_flakes (draw : ℕ → ℚ) :
    (runSnowEvents 40 draw (List.replicate 7 SnowEvent.batchStep)
      (SnowModule.afterSetup 40 draw settingsCache)).snow.flakes.length = 40 ∧
    (runSnowEvents 40 draw
      (List.replicate 7 SnowEvent.batchStep ++
        [SnowEvent.enabledChange (JSValue.number 0)])
      (SnowModule.afterSetup 40 draw settingsCache)).snow.container.length = 40 ∧
    (runSnowEvents 40 draw
      (List.replicate 7 SnowEvent.batchStep ++
        [SnowEvent.enabledChange (JSValue.number 0)])
      (SnowModule.afterSetup 40 draw settingsCache)).snow.flakes.length = 40 ∧
    (runSnowEvents 40 draw
      (List.replicate 7 SnowEvent.batchStep ++
        ([SnowEvent.enabledChange (JSValue.number 0),
          SnowEvent.enabledChange (JSValue.number 1)] ++
         List.replicate 7 SnowEvent.batchStep))
      (SnowModule.afterSetup 40 draw settingsCache)).snow.flakes.length = 80 ∧
    (runSnowEvents 40 draw
      (List.replicate 7 SnowEvent.batchStep ++
        ([SnowEvent.enabledChange (JSValue.number 0),
          SnowEvent.enabledChange (JSValue.number 1)] ++
         List.replicate 7 SnowEvent.batchStep))
      (SnowModule.afterSetup 40 draw settingsCache)).snow.container.length = 80 ∧
    (runSnowEvents 40 draw
      (List.replicate 7 SnowEvent.batchStep ++
        ([SnowEvent.enabledChange (JSValue.number 0), SnowEvent.pollTick,
          SnowEvent.enabledChange (JSValue.number 1)] ++
         List.replicate 7 SnowEvent.batchStep))
      (SnowModule.afterSetup 40 draw settingsCache)).snow.flakes.length = 40 := by
  have hget0 : ∀ cache : JSObject,
      getSetting (updateCache cache snowEnabledKey (JSValue.number 0)) snowEnabledKey =
        JSValue.number 0 := by
    intro cache
    simp [getSetting, updateCache, JSObject.assign, JSValue.nullishCoalesce, JSValue.isNullish]
  refine ⟨?_, ?_, ?_, ?_, ?_, ?_⟩
  · rw [populated_medium]
    simp
  · rw [runSnowEvents_append, populated_medium]
    simp [runSnowEvents, SnowEvent.apply, SnowModule.enabledOnChange, JSValue.truthy]
  · rw [runSnowEvents_append, populated_medium]
    simp [runSnowEvents, SnowEvent.apply, SnowModule.enabledOnChange, JSValue.truthy]
  · rw [runSnowEvents_append, populated_medium]
    simp [runSnowEvents, List.replicate, SnowEvent.apply, SnowModule.enabledOnChange,
      JSValue.truthy, SnowModule.exposed, SnowModule.batchStep, SnowModule.callAddBatch,
      addBatch, batchSize]
  · rw [runSnowEvents_append, populated_medium]
    simp [runSnowEvents, List.replicate, SnowEvent.apply, SnowModule.enabledOnChange,
      JSValue.truthy, SnowModule.exposed, SnowModule.batchStep, SnowModule.callAddBatch,
      addBatch, batchSize]
  · rw [runSnowEvents_append, populated_medium]
    simp [runSnowEvents, List.replicate, SnowEvent.apply, SnowModule.enabledOnChange,
      JSValue.truthy, SnowModule.exposed, SnowModule.batchStep, SnowModule.callAddBatch,
      addBatch, batchSize, SnowModule.pollTick, hget0]

/-! ## C27: the opacity of a star -/

/-- C27, as stated, fails on the code: in low-performance mode (`skipTwinkle`)
a star of brightness 0.45 and twinkle range 0.2 is drawn with alpha 0.45,
its brightness, while the twinkle formula gives 0.35 at its phase 0, and
less than 0.45 at every phase whose sine is not -1. -/
theorem skipTwinkle_alpha_is_brightness :
    (Star.update Real.sin
      ({ size := 1, speed := 1 / 100, x := 10, y := 20, brightness := 45 / 100,
         twinkleSpeed := 1 / 100, twinklePhase := 0, twinkleRange := 2 / 10,
         _twinkleCycle := 0 } : Star ℝ)
      800 600 true
      { size := 0, speed := 0, y := 0, brightness := 0, twinkleSpeed := 0, twinklePhase := 0,
        twinkleRange := 0 }).2 = some (45 / 100) ∧
    (45 / 100 : ℝ) - 2 / 10 * ((Real.sin 0 + 1) * (1 / 2)) = 35 / 100 ∧
    ∀ phase : ℝ, Real.sin phase ≠ -1 →
      (45 / 100 : ℝ) - 2 / 10 * ((Real.sin phase + 1) * (1 / 2)) < 45 / 100 := by
  refine ⟨?_, ?_, ?_⟩
  · have h : ¬ ((10 : ℝ) < 100⁻¹) := by norm_num
    simp [Star.update, h]
  · rw [Real.sin_zero]
    norm_num
  · intro phase hne
    have h1 := Real.neg_one_le_sin phase
    have h2 : -1 < Real.sin phase := lt_of_le_of_ne h1 (Ne.symm hne)
    linarith

/-- C27, amended: take a star with brightness in `[0.35, 0.55)` and twinkle
range in `[0.15, 0.30)`, any twinkle phase, and reset draws in `[0, 1)`.  A
call of `update` draws nothing when the star has left the screen; otherwise
the alpha it draws with is the brightness in low-performance mode, and
`brightness - twinkleRange * (sin(phase) + 1) / 2` at the advanced phase
otherwise.  In both modes the alpha lies strictly between 0.05 and 0.55 and
does not exceed the brightness.  The star after the call, and every star the
constructor makes, has its brightness and twinkle range in the same
intervals. -/
theorem star_alpha (s : Star ℝ) (width height : ℝ) (skipTwinkle : Bool) (r : StarDraws ℝ)
    (hb : 35 / 100 ≤ s.brightness ∧ s.brightness < 55 / 100)
    (hr : 15 / 100 ≤ s.twinkleRange ∧ s.twinkleRange < 30 / 100)
    (hdraw : r.InUnitInterval) :
    (Star.update Real.sin s width height skipTwinkle r).2 =
      (if s.x - s.speed < 0 then none
       else if skipTwinkle then some s.brightness
       else some (s.brightness -
          s.twinkleRange * ((Real.sin (s.twinklePhase + s.twinkleSpeed) + 1) * (1 / 2)))) ∧
    (∀ alpha, (Star.update Real.sin s width height skipTwinkle r).2 = some alpha →
      5 / 100 < alpha ∧ alpha < 55 / 100 ∧ alpha ≤ s.brightness) ∧
    ((35 / 100 ≤ (Star.update Real.sin s width height skipTwinkle r).1.brightness ∧
        (Star.update Real.sin s width height skipTwinkle r).1.brightness < 55 / 100) ∧
      (15 / 100 ≤ (Star.update Real.sin s width height skipTwinkle r).1.twinkleRange ∧
        (Star.update Real.sin s width height skipTwinkle r).1.twinkleRange < 30 / 100)) ∧
    (∀ pi optionsX optionsY : ℝ,
      (35 / 100 ≤ (Star.create pi optionsX optionsY r).brightness ∧
        (Star.create pi optionsX optionsY r).brightness < 55 / 100) ∧
      (15 / 100 ≤ (Star.create pi optionsX optionsY r).twinkleRange ∧
        (Star.create pi optionsX optionsY r).twinkleRange < 30 / 100)) := by
  obtain ⟨⟨hd1, hd2⟩, ⟨hd3, hd4⟩⟩ := hdraw
  have hs1 := Real.neg_one_le_sin (s.twinklePhase + s.twinkleSpeed)
  have hs2 := Real.sin_le_one (s.twinklePhase + s.twinkleSpeed)
  have ht0 : 0 ≤ (Real.sin (s.twinklePhase + s.twinkleSpeed) + 1) * (1 / 2) := by linarith
  have ht1 : (Real.sin (s.twinklePhase + s.twinkleSpeed) + 1) * (1 / 2) ≤ 1 := by linarith
  have hlo : s.brightness - s.twinkleRange <
      s.brightness - s.twinkleRange *
        ((Real.sin (s.twinklePhase + s.twinkleSpeed) + 1) * (1 / 2)) ∨
      s.brightness - s.twinkleRange =
        s.brightness - s.twinkleRange *
          ((Real.sin (s.twinklePhase + s.twinkleSpeed) + 1) * (1 / 2)) := by
    have : s.twinkleRange * ((Real.sin (s.twinklePhase + s.twinkleSpeed) + 1) * (1 / 2)) ≤
        s.twinkleRange * 1 := mul_le_mul_of_nonneg_left ht1 (by linarith [hr.1])
    rcases lt_or_eq_of_le this with h | h
    · left; linarith
    · right; linarith
  have hhi : s.brightness - s.twinkleRange *
      ((Real.sin (s.twinklePhase + s.twinkleSpeed) + 1) * (1 / 2)) ≤ s.brightness := by
    have : 0 ≤ s.twinkleRange * ((Real.sin (s.twinklePhase + s.twinkleSpeed) + 1) * (1 / 2)) :=
      mul_nonneg (by linarith [hr.1]) ht0
    linarith
  have hval : (Star.update Real.sin s width height skipTwinkle r).2 =
      (if s.x - s.speed < 0 then none
       else if skipTwinkle then some s.brightness
       else some (s.brightness -
          s.twinkleRange * ((Real.sin (s.twinklePhase + s.twinkleSpeed) + 1) * (1 / 2)))) := by
    unfold Star.update
    simp only
    split_ifs <;> rfl
  refine ⟨hval, ?_, ?_, ?_⟩
  · intro alpha ha
    rw [hval] at ha
    split_ifs at ha with h1 h2
    · simp only [Option.some.injEq] at ha
      subst ha
      exact ⟨by linarith [hb.1], hb.2, le_refl _⟩
    · simp only [Option.some.injEq] at ha
      subst ha
      refine ⟨?_, by linarith [hb.2], hhi⟩
      rcases hlo with h | h <;> linarith [hb.1, hr.2]
  · unfold Star.update
    simp only
    split_ifs
    · simp only [Star.reset]
      refine ⟨⟨?_, ?_⟩, ?_, ?_⟩ <;> linarith
    · exact ⟨hb, hr⟩
    · exact ⟨hb, hr⟩
  · intro pi optionsX optionsY
    simp only [Star.create]
    refine ⟨⟨?_, ?_⟩, ?_, ?_⟩ <;> linarith

/-- C27, amended, at a star in twinkle mode: brightness 0.45, range 0.2,
phase 0 advancing by 0.01. -/
theorem star_alpha_witness :
    (Star.update Real.sin
      ({ size := 1, speed := 1 / 100, x := 10, y := 20, brightness := 45 / 100,
         twinkleSpeed := 1 / 100, twinklePhase := 0, twinkleRange := 2 / 10,
         _twinkleCycle := 0 } : Star ℝ)
      800 600 false
      { size := 0, speed := 0, y := 0, brightness := 0, twinkleSpeed := 0, twinklePhase := 0,
        twinkleRange := 0 }).2 =
      some (45 / 100 - 2 / 10 * ((Real.sin (0 + 1 / 100) + 1) * (1 / 2))) := by
  have h := (star_alpha
      ({ size := 1, speed := 1 / 100, x := 10, y := 20, brightness := 45 / 100,
         twinkleSpeed := 1 / 100, twinklePhase := 0, twinkleRange := 2 / 10,
         _twinkleCycle := 0 } : Star ℝ)
      800 600 false
      { size := 0, speed := 0, y := 0, brightness := 0, twinkleSpeed := 0, twinklePhase := 0,
        twinkleRange := 0 }
      (by norm_num) (by norm_num) (by simp [StarDraws.InUnitInterval])).1
  have hx : ¬ ((10 : ℝ) < 100⁻¹) := by norm_num
  simpa [hx] using h

/-! ## C28: the sine table -/

section SineTableLemmas

variable {K : Type} [LinearOrderedField K] [FloorRing K]

/-- The remainder `x % y` is smaller than `y` in magnitude, whatever the sign
of `x`. -/
theorem abs_jsMod_lt (x : K) {y : K} (hy : 0 < y) : |jsMod x y| < y := by
  rcases le_or_lt 0 x with hx | hx
  · have h := jsMod_nonneg_lt hx hy
    rw [abs_of_nonneg h.1]
    exact h.2
  · have hq : x / y < 0 := div_neg_of_neg_of_pos hx hy
    have ht : truncate (x / y) = ⌈x / y⌉ := by
      unfold truncate
      rw [if_neg (not_le.2 hq)]
    have h1 : x / y ≤ (⌈x / y⌉ : K) := Int.le_ceil _
    have h2 : (⌈x / y⌉ : K) < x / y + 1 := Int.ceil_lt_add_one _
    have h3 : x ≤ y * (⌈x / y⌉ : K) := by
      have := mul_le_mul_of_nonneg_left h1 (le_of_lt hy)
      rwa [mul_div_cancel₀ x (ne_of_gt hy)] at this
    have h4 : y * (⌈x / y⌉ : K) < x + y := by
      have := mul_lt_mul_of_pos_left h2 hy
      rwa [mul_add, mul_div_cancel₀ x (ne_of_gt hy), mul_one] at this
    unfold jsMod
    rw [ht, abs_lt]
    constructor <;> linarith

/-- The integer part of a number smaller than the whole number `n` in
magnitude is smaller than `n` in magnitude. -/
theorem truncate_bounds {z : K} {n : ℤ} (h : |z| < (n : K)) :
    -n < truncate z ∧ truncate z < n := by
  rw [abs_lt] at h
  unfold truncate
  split
  · next h0 =>
    have h1 : (0 : ℤ) ≤ ⌊z⌋ := Int.floor_nonneg.2 h0
    have h2 : ⌊z⌋ < n := Int.floor_lt.2 h.2
    have h3 : (0 : K) < n := lt_of_le_of_lt h0 h.2
    have h4 : (0 : ℤ) < n := by exact_mod_cast h3
    exact ⟨by omega, h2⟩
  · next h0 =>
    have hz : z < 0 := not_le.1 h0
    have h1 : ⌈z⌉ ≤ 0 := Int.ceil_le.2 (by exact_mod_cast le_of_lt hz)
    have h2 : -n < ⌈z⌉ := Int.lt_ceil.2 (by push_cast; exact h.1)
    have h3 : (0 : K) < n := by linarith
    have h4 : (0 : ℤ) < n := by exact_mod_cast h3
    exact ⟨h2, by omega⟩

/-- Rounding to the nearest integer moves a number by at most one half. -/
theorem abs_nearestEven_sub_le (q : K) : |(nearestEven q : K) - q| ≤ 1 / 2 := by
  have h1 : (⌊q⌋ : K) ≤ q := Int.floor_le q
  have h2 : q < ⌊q⌋ + 1 := Int.lt_floor_add_one q
  unfold nearestEven
  simp only
  split_ifs with ha hb hc
  · rw [abs_le]; constructor <;> linarith
  · rw [abs_le]; push_cast; constructor <;> linarith
  · have : q - ⌊q⌋ = 1 / 2 := le_antisymm (not_lt.1 hb) (not_lt.1 ha)
    rw [abs_le]; constructor <;> linarith
  · have : q - ⌊q⌋ = 1 / 2 := le_antisymm (not_lt.1 hb) (not_lt.1 ha)
    rw [abs_le]; push_cast; constructor <;> linarith

/-- A number of magnitude at most 1 is within `2 ^ (-24)` of its binary32
rounding. -/
theorem abs_float32_sub_le {y : K} (hy : |y| ≤ 1) : |float32 y - y| ≤ 1 / 2 ^ 24 := by
  unfold float32
  split
  · next h0 =>
    rw [h0]
    simp
  · simp only
    have hlog : Int.log 2 |y| ≤ 0 := by
      rw [Int.log_of_right_le_one 2 hy]
      omega
    have he : max (Int.log 2 |y|) (-126) - 23 ≤ -23 := by
      have : max (Int.log 2 |y|) (-126) ≤ 0 := max_le hlog (by norm_num)
      omega
    generalize max (Int.log 2 |y|) (-126) - 23 = e at he
    have hpos : (0 : K) < 2 ^ e := zpow_pos (by norm_num) e
    have hle : (2 : K) ^ e ≤ 2 ^ (-23 : ℤ) := zpow_le_zpow_right₀ (by norm_num) he
    have h23 : (2 : K) ^ (-23 : ℤ) = 1 / 2 ^ 23 := by
      rw [zpow_neg, one_div]
      norm_cast
    have hround := abs_nearestEven_sub_le (y / 2 ^ e)
    have hfac : (nearestEven (y / 2 ^ e) : K) * 2 ^ e - y =
        ((nearestEven (y / 2 ^ e) : K) - y / 2 ^ e) * 2 ^ e := by
      field_simp
    rw [hfac, abs_mul, abs_of_pos hpos]
    calc |(nearestEven (y / 2 ^ e) : K) - y / 2 ^ e| * 2 ^ e
        ≤ 1 / 2 * 2 ^ e := mul_le_mul_of_nonneg_right hround (le_of_lt hpos)
      _ ≤ 1 / 2 * 2 ^ (-23 : ℤ) := mul_le_mul_of_nonneg_left hle (by norm_num)
      _ = 1 / 2 ^ 24 := by
        rw [h23]
        norm_num

end SineTableLemmas

theorem toInt32_eq_truncate {z : ℝ} (h : |z| < 360) : toInt32 z = truncate z := by
  have hb := truncate_bounds (z := z) (n := 360) (by exact_mod_cast h)
  unfold toInt32
  omega

/-- The number `fastSin(x)` converts to an index is smaller than 360 in
magnitude. -/
theorem abs_sinArg_lt (x : ℝ) :
    |jsMod x (Real.pi * 2) / (Real.pi * 2) * 360| < 360 := by
  have h2 : 0 < Real.pi * 2 := by linarith [Real.pi_pos]
  have hm := abs_jsMod_lt x h2
  rw [abs_mul, abs_div, abs_of_pos h2, abs_of_pos (by norm_num : (0 : ℝ) < 360)]
  have : |jsMod x (Real.pi * 2)| / (Real.pi * 2) < 1 := (div_lt_one h2).2 hm
  linarith

theorem sinIndex_eq (x : ℝ) :
    sinIndex Real.pi x =
      (truncate (jsMod x (Real.pi * 2) / (Real.pi * 2) * 360) + 360) % 360 := by
  have ha := abs_sinArg_lt x
  have hb := truncate_bounds (z := jsMod x (Real.pi * 2) / (Real.pi * 2) * 360) (n := 360)
    (by exact_mod_cast ha)
  unfold sinIndex
  simp only [SIN_TABLE_SIZE, Nat.cast_ofNat]
  rw [toInt32_eq_truncate ha, Int.tmod_eq_emod (by omega) (by norm_num)]

theorem sinIndex_bounds (x : ℝ) : 0 ≤ sinIndex Real.pi x ∧ sinIndex Real.pi x < 360 := by
  rw [sinIndex_eq]
  omega

theorem sinTable_getElem? (k : ℕ) (hk : k < 360) :
    (sinTable Real.sin Real.pi)[k]? =
      some (float32 (Real.sin ((k : ℝ) / 360 * Real.pi * 2))) := by
  unfold sinTable
  rw [List.getElem?_map, List.getElem?_range (by simpa [SIN_TABLE_SIZE] using hk)]
  simp [SIN_TABLE_SIZE]

theorem fastSin_eq (x : ℝ) :
    fastSin Real.sin Real.pi x =
      some (float32 (Real.sin (((sinIndex Real.pi x : ℤ) : ℝ) / 360 * Real.pi * 2))) := by
  have hb := sinIndex_bounds x
  unfold fastSin
  rw [if_pos hb.1, sinTable_getElem? _ (by omega)]
  have hc : (((sinIndex Real.pi x).toNat : ℕ) : ℝ) = ((sinIndex Real.pi x : ℤ) : ℝ) := by
    have : (((sinIndex Real.pi x).toNat : ℕ) : ℤ) = sinIndex Real.pi x := Int.toNat_of_nonneg hb.1
    exact_mod_cast this
  rw [hc]

theorem sinIndex_pi_div_four : sinIndex Real.pi (Real.pi / 4) = 45 := by
  have hpi := Real.pi_pos
  have hself : jsMod (Real.pi / 4) (Real.pi * 2) = Real.pi / 4 :=
    jsMod_eq_self (by rw [abs_of_pos (by linarith)]; linarith)
  have hz : jsMod (Real.pi / 4) (Real.pi * 2) / (Real.pi * 2) * 360 = ((45 : ℤ) : ℝ) := by
    rw [hself]
    field_simp
    ring
  rw [sinIndex_eq, hz, truncate_of_nonneg (by norm_num), Int.floor_intCast]
  decide

/-- A binary32 number is rational. -/
theorem float32_eq_ratCast (y : ℝ) : ∃ q : ℚ, float32 y = (q : ℝ) := by
  unfold float32
  split
  · exact ⟨0, by simp⟩
  · exact ⟨(nearestEven (y / 2 ^ (max (Int.log 2 |y|) (-126) - 23)) : ℚ) *
        2 ^ (max (Int.log 2 |y|) (-126) - 23), by push_cast; rfl⟩

/-- C28, as stated, fails on the code, which keeps the table in a
`Float32Array`: for `x = π / 4` the index is 45 and `fastSin(x)` is the entry
45 of the table, the binary32 rounding of `sin(2π · 45 / 360)`, a rational
number; `sin(2π · 45 / 360) = √2 / 2` is not rational, so the two differ. -/
theorem fastSin_differs_from_sin :
    sinIndex Real.pi (Real.pi / 4) = 45 ∧
    Real.sin (((45 : ℤ) : ℝ) / 360 * Real.pi * 2) = Real.sqrt 2 / 2 ∧
    fastSin Real.sin Real.pi (Real.pi / 4) = some (float32 (Real.sqrt 2 / 2)) ∧
    fastSin Real.sin Real.pi (Real.pi / 4) ≠
      some (Real.sin (((sinIndex Real.pi (Real.pi / 4) : ℤ) : ℝ) / 360 * Real.pi * 2)) := by
  have hidx := sinIndex_pi_div_four
  have hsin : Real.sin (((45 : ℤ) : ℝ) / 360 * Real.pi * 2) = Real.sqrt 2 / 2 := by
    rw [show ((45 : ℤ) : ℝ) / 360 * Real.pi * 2 = Real.pi / 4 by push_cast; ring]
    exact Real.sin_pi_div_four
  have hval : fastSin Real.sin Real.pi (Real.pi / 4) = some (float32 (Real.sqrt 2 / 2)) := by
    rw [fastSin_eq, hidx, hsin]
  refine ⟨hidx, hsin, hval, ?_⟩
  rw [hval, hidx, hsin]
  intro h
  simp only [Option.some.injEq] at h
  obtain ⟨q, hq⟩ := float32_eq_ratCast (Real.sqrt 2 / 2)
  rw [hq] at h
  have h2 : Real.sqrt 2 = ((2 * q : ℚ) : ℝ) := by
    push_cast
    linarith
  exact irrational_sqrt_two.ne_rat _ h2

/-- C28, amended: for every real `x`, the index `(idx + 360) % 360` that
`fastSin(x)` computes is at least 0 and less than 360, so the read is inside
the table and `fastSin(x)` is the entry at that index `k`: the binary32
rounding of `sin(2π · k / 360)`, which is within `2 ^ (-24)` of
`sin(2π · k / 360)`. -/
theorem fastSin_in_table (x : ℝ) :
    0 ≤ sinIndex Real.pi x ∧ sinIndex Real.pi x < 360 ∧
    (sinIndex Real.pi x).toNat < (sinTable Real.sin Real.pi).length ∧
    fastSin Real.sin Real.pi x =
      some (float32 (Real.sin (((sinIndex Real.pi x : ℤ) : ℝ) / 360 * Real.pi * 2))) ∧
    ∀ v, fastSin Real.sin Real.pi x = some v →
      |v - Real.sin (((sinIndex Real.pi x : ℤ) : ℝ) / 360 * Real.pi * 2)| ≤ 1 / 2 ^ 24 := by
  have hb := sinIndex_bounds x
  refine ⟨hb.1, hb.2, ?_, fastSin_eq x, ?_⟩
  · have hlen : (sinTable Real.sin Real.pi).length = 360 := by
      simp [sinTable, SIN_TABLE_SIZE]
    rw [hlen]
    omega
  · intro v hv
    rw [fastSin_eq] at hv
    simp only [Option.some.injEq] at hv
    rw [← hv]
    exact abs_float32_sub_le (Real.abs_sin_le_one _)

/-! ## C29: a transition that never settles -/

/-- At delta 1/36 the reverse transition from the initial state, once it is
86 steps below zero, steps past the target `-2π`. -/
theorem update_overshoot_down :
    AnimationState.update Real.pi (-1) (1 / 36)
      { phase := -(86 * (PHI * (1 / 36) * PHI)), targetPhase := -(2 * Real.pi),
        Direction := -1 } =
      { phase := -(87 * (PHI * (1 / 36) * PHI)), targetPhase := -(2 * Real.pi),
        Direction := -1 } := by
  have hpi := Real.pi_gt_d4
  have h36 := phaseStep_thirty_sixth_bounds
  have hneg : -(2 * Real.pi) - -(86 * (PHI * (1 / 36) * PHI)) < 0 := by linarith
  have hfar : 1 / 100 < |-(2 * Real.pi) - -(86 * (PHI * (1 / 36) * PHI))| := by
    rw [abs_of_neg hneg]; linarith
  rw [update_transition Real.pi (-1) (1 / 36) _ rfl hfar]
  simp only [jsSign_of_neg hneg]
  congr 1
  ring

/-- From 87 steps below zero the next step goes back up, past the target
again. -/
theorem update_overshoot_up :
    AnimationState.update Real.pi (-1) (1 / 36)
      { phase := -(87 * (PHI * (1 / 36) * PHI)), targetPhase := -(2 * Real.pi),
        Direction := -1 } =
      { phase := -(86 * (PHI * (1 / 36) * PHI)), targetPhase := -(2 * Real.pi),
        Direction := -1 } := by
  have hpi := Real.pi_lt_d4
  have h36 := phaseStep_thirty_sixth_bounds
  have hpos : 0 < -(2 * Real.pi) - -(87 * (PHI * (1 / 36) * PHI)) := by linarith
  have hfar : 1 / 100 < |-(2 * Real.pi) - -(87 * (PHI * (1 / 36) * PHI))| := by
    rw [abs_of_pos hpos]; linarith
  rw [update_transition Real.pi (-1) (1 / 36) _ rfl hfar]
  simp only [jsSign_of_pos hpos]
  congr 1
  ring

/-- After the 86 frames that bring the phase next to the target, the frames
alternate between the two states on either side of it. -/
theorem run_overshoot_alternates (k : ℕ) :
    AnimationState.run Real.pi (List.replicate (86 + 2 * k) (-1, 1 / 36)) PhaseState.initial =
      { phase := -(86 * (PHI * (1 / 36) * PHI)), targetPhase := -(2 * Real.pi),
        Direction := -1 } ∧
    AnimationState.run Real.pi (List.replicate (86 + 2 * k + 1) (-1, 1 / 36))
        PhaseState.initial =
      { phase := -(87 * (PHI * (1 / 36) * PHI)), targetPhase := -(2 * Real.pi),
        Direction := -1 } := by
  induction k with
  | zero =>
    have h0 : AnimationState.run Real.pi (List.replicate (86 + 2 * 0) (-1, 1 / 36))
        PhaseState.initial =
        { phase := -(86 * (PHI * (1 / 36) * PHI)), targetPhase := -(2 * Real.pi),
          Direction := -1 } := run_overshootFrames
    refine ⟨h0, ?_⟩
    rw [run_replicate_succ, h0]
    exact update_overshoot_down
  | succ k ih =>
    have h0 : AnimationState.run Real.pi (List.replicate (86 + 2 * (k + 1)) (-1, 1 / 36))
        PhaseState.initial =
        { phase := -(86 * (PHI * (1 / 36) * PHI)), targetPhase := -(2 * Real.pi),
          Direction := -1 } := by
      rw [show 86 + 2 * (k + 1) = (86 + 2 * k + 1) + 1 by ring, run_replicate_succ, ih.2]
      exact update_overshoot_up
    refine ⟨h0, ?_⟩
    rw [run_replicate_succ, h0]
    exact update_overshoot_down

/-- The first frames of the reverse transition at delta 1/36: each moves the
phase down by one step. -/
theorem run_reverse_first_frames (m : ℕ) (hm : m ≤ 85) :
    AnimationState.run Real.pi (List.replicate (m + 1) (-1, 1 / 36)) PhaseState.initial =
      { phase := -(PHI * (1 / 36) * PHI) - m * (PHI * (1 / 36) * PHI),
        targetPhase := -(2 * Real.pi), Direction := -1 } := by
  have hpi := Real.pi_gt_d4
  have h36 := phaseStep_thirty_sixth_bounds
  have h1 : AnimationState.update Real.pi (-1) (1 / 36) PhaseState.initial =
      { phase := -(PHI * (1 / 36) * PHI), targetPhase := -(2 * Real.pi), Direction := -1 } := by
    rw [update_flip Real.pi (-1) (1 / 36) PhaseState.initial (by linarith)
      (by simp [PhaseState.initial]; norm_num) (Or.inr rfl)]
    simp [PhaseState.initial, mul_comm]
  have hsplit : AnimationState.run Real.pi (List.replicate (m + 1) (-1, 1 / 36))
      PhaseState.initial =
      AnimationState.run Real.pi (List.replicate m (-1, 1 / 36))
        (AnimationState.update Real.pi (-1) (1 / 36) PhaseState.initial) := by
    simp only [AnimationState.run, List.replicate_succ, List.foldl_cons]
  have hm85 : (m : ℝ) ≤ 85 := by exact_mod_cast hm
  have hmσ : (m : ℝ) * (PHI * (1 / 36) * PHI) ≤ 85 * (PHI * (1 / 36) * PHI) :=
    mul_le_mul_of_nonneg_right hm85 (by linarith)
  rw [hsplit, h1, run_replicate_reverse Real.pi (1 / 36) (by norm_num) m _ rfl
    (by simp only; linarith)]

/-- C29, as stated, fails on the code, by the defect of C9 (the step is not
cut down to the distance left): at the constant delta 1/36, which lies in
`(0, 1/30]`, after the flip to direction `-1` from the initial state (target
`-2π`), the phase is further than 0.01 from its target after every number of
updates, so no update takes the steady branch; the target stays `-2π` and
from the 86th update on the phase steps back and forth around it, between
distances of about 0.029 and 0.044. -/
theorem transition_never_settles (n : ℕ) :
    (0 : ℝ) < 1 / 36 ∧ (1 / 36 : ℝ) ≤ 1 / 30 ∧
    (AnimationState.run Real.pi (List.replicate (n + 1) (-1, 1 / 36))
      PhaseState.initial).targetPhase = -(2 * Real.pi) ∧
    (AnimationState.run Real.pi (List.replicate (n + 1) (-1, 1 / 36))
      PhaseState.initial).Direction = -1 ∧
    1 / 100 < (AnimationState.run Real.pi (List.replicate (n + 1) (-1, 1 / 36))
      PhaseState.initial).distance ∧
    AnimationState.run Real.pi (List.replicate (86 + 2 * n + 2) (-1, 1 / 36))
        PhaseState.initial =
      AnimationState.run Real.pi (List.replicate (86 + 2 * n) (-1, 1 / 36))
        PhaseState.initial := by
  have hpi := Real.pi_gt_d4
  have hpi2 := Real.pi_lt_d4
  have h36 := phaseStep_thirty_sixth_bounds
  have hA : (1 : ℝ) / 100 < PhaseState.distance
      { phase := -(86 * (PHI * (1 / 36) * PHI)), targetPhase := -(2 * Real.pi),
        Direction := (-1 : ℝ) } := by
    simp only [PhaseState.distance]
    rw [abs_of_neg (by linarith)]
    linarith
  have hB : (1 : ℝ) / 100 < PhaseState.distance
      { phase := -(87 * (PHI * (1 / 36) * PHI)), targetPhase := -(2 * Real.pi),
        Direction := (-1 : ℝ) } := by
    simp only [PhaseState.distance]
    rw [abs_of_pos (by linarith)]
    linarith
  have hperiod : AnimationState.run Real.pi (List.replicate (86 + 2 * n + 2) (-1, 1 / 36))
        PhaseState.initial =
      AnimationState.run Real.pi (List.replicate (86 + 2 * n) (-1, 1 / 36))
        PhaseState.initial := by
    rw [show 86 + 2 * n + 2 = 86 + 2 * (n + 1) by ring, (run_overshoot_alternates (n + 1)).1,
      (run_overshoot_alternates n).1]
  refine ⟨by norm_num, by norm_num, ?_⟩
  rcases Nat.lt_or_ge n 86 with hlt | hge
  · rw [run_reverse_first_frames n (by omega)]
    have hn85 : (n : ℝ) ≤ 85 := by exact_mod_cast (by omega : n ≤ 85)
    have hnσ : (n : ℝ) * (PHI * (1 / 36) * PHI) ≤ 85 * (PHI * (1 / 36) * PHI) :=
      mul_le_mul_of_nonneg_right hn85 (by linarith)
    refine ⟨rfl, rfl, ?_, hperiod⟩
    simp only [PhaseState.distance]
    rw [abs_of_neg (by linarith)]
    linarith
  · obtain ⟨k, hk | hk⟩ : ∃ k, n + 1 = 86 + 2 * k ∨ n + 1 = 86 + 2 * k + 1 :=
      ⟨(n + 1 - 86) / 2, by omega⟩
    · rw [hk, (run_overshoot_alternates k).1]
      exact ⟨rfl, rfl, hA, hperiod⟩
    · rw [hk, (run_overshoot_alternates k).2]
      exact ⟨rfl, rfl, hB, hperiod⟩

/-! ## C30: the point samplers at the ends and at the joins -/

/-- C30: over the real numbers, each of the four point samplers gives `start`
at `t = 0` and `end` at `t = 1`, for all endpoints; `linear.getPoint` gives
`(midX, start.y)` at `t = 0.33` and `(midX, end.y)` at `t = 0.67`, and it is a
continuous function of `t`, so the three segments meet at the joins.  (The
numbers are those the methods assign to `out`, in exact arithmetic.) -/
theorem getPoint_endpoints (start end_ : ℝ × ℝ) :
    LinkRenderers.spline.getPoint Real.sqrt start end_ 0 = start ∧
    LinkRenderers.spline.getPoint Real.sqrt start end_ 1 = end_ ∧
    LinkRenderers.straight.getPoint start end_ 0 = start ∧
    LinkRenderers.straight.getPoint start end_ 1 = end_ ∧
    LinkRenderers.linear.getPoint start end_ 0 = start ∧
    LinkRenderers.linear.getPoint start end_ 1 = end_ ∧
    LinkRenderers.hidden.getPoint start end_ 0 = start ∧
    LinkRenderers.hidden.getPoint start end_ 1 = end_ ∧
    LinkRenderers.linear.getPoint start end_ (33 / 100) = ((start.1 + end_.1) / 2, start.2) ∧
    LinkRenderers.linear.getPoint start end_ (67 / 100) = ((start.1 + end_.1) / 2, end_.2) ∧
    Continuous (LinkRenderers.linear.getPoint start end_) := by
  obtain ⟨sx, sy⟩ := start
  obtain ⟨ex, ey⟩ := end_
  refine ⟨?_, ?_, ?_, ?_, ?_, ?_, ?_, ?_, ?_, ?_, ?_⟩
  · simp [LinkRenderers.spline.getPoint]
  · simp [LinkRenderers.spline.getPoint]
  · simp [LinkRenderers.straight.getPoint]
  · simp [LinkRenderers.straight.getPoint]
  · have h : (0 : ℝ) ≤ 33 / 100 := by norm_num
    simp [LinkRenderers.linear.getPoint, h]
  · have h1 : ¬ (1 : ℝ) ≤ 33 / 100 := by norm_num
    have h2 : ¬ (1 : ℝ) ≤ 67 / 100 := by norm_num
    simp only [LinkRenderers.linear.getPoint, h1, h2, if_false, Prod.mk.injEq, and_true]
    norm_num
  · simp [LinkRenderers.hidden.getPoint]
  · simp [LinkRenderers.hidden.getPoint]
  · simp only [LinkRenderers.linear.getPoint, le_refl, if_true, Prod.mk.injEq, and_true]
    norm_num
  · have h1 : ¬ (67 : ℝ) / 100 ≤ 33 / 100 := by norm_num
    simp only [LinkRenderers.linear.getPoint, h1, le_refl, if_true, if_false, Prod.mk.injEq,
      true_and]
    norm_num
  · unfold LinkRenderers.linear.getPoint
    refine Continuous.if_le ?_ ?_ continuous_id continuous_const ?_
    · fun_prop
    · refine Continuous.if_le ?_ ?_ continuous_id continuous_const ?_
      · fun_prop
      · fun_prop
      · intro t ht
        simp only [id] at ht
        subst ht
        simp only [Prod.mk.injEq]
        constructor <;> norm_num
    · intro t ht
      simp only [id] at ht
      subst ht
      have h2 : (33 : ℝ) / 100 ≤ 67 / 100 := by norm_num
      simp only [h2, if_true, Prod.mk.injEq]
      constructor <;> norm_num

end ChristmasTheme
